import Mathlib

/-!
# DuckDB DataSketches extension: aggregate operations and sketch queries

A shallow embedding of `src/generated.cpp`.

* A state struct (`DSQuantilesState<T>`, `DSKLLState<T>`, `DSREQState<T>`,
  `DSTDigestState<T>`, `DSHLLState`, `DSCPCState`) owns one nullable pointer
  `sketch`; it is embedded as `DSState Sk` with `sketch : Option Sk`.
* The six aggregate operation structs are embedded function by function, with
  explicit state passing.  A step returns an `Outcome`: it completes, it
  raises an exception (the state reached so far is kept), or it dereferences
  a null pointer.
* The DataSketches C++ library is not part of the repository.  Its classes
  are parameters of the embedding (`SketchCore`, `QuantilesLib`, `TDigestLib`,
  `HLLLib`, `CPCLib`); `Ref` gives small executable instances of them.
-/

namespace DataSketches

/-! ## Basic types -/

/-- Contents of a `string_t` or `std::string`: a sequence of bytes. -/
abbrev Blob := List Nat

/-- Exceptions that a step can raise. -/
inductive Failure where
  /-- A `D_ASSERT` failed (assertions are only checked in debug builds). -/
  | assertion
  /-- The DataSketches library threw (constructor or `deserialize`). -/
  | library
  deriving DecidableEq, Repr

/-- Result of running a step on a state of type `σ`. -/
inductive Outcome (σ : Type) where
  /-- The step returned normally, leaving state `s`. -/
  | done (s : σ)
  /-- The step raised `e`; `s` is the state at the point of the throw. -/
  | raised (e : Failure) (s : σ)
  /-- The step dereferenced a null `sketch` pointer (undefined behaviour). -/
  | crashed
  deriving DecidableEq, Repr

/-- The single member of every state struct: `SK *sketch = nullptr;`. -/
structure DSState (Sk : Type) where
  sketch : Option Sk
  deriving DecidableEq, Repr

/-- The two states handed to `Combine(const STATE &source, STATE &target, ..)`. -/
structure CombineArgs (Sk : Type) where
  source : DSState Sk
  target : DSState Sk
  deriving DecidableEq, Repr

/-- What `Finalize(STATE &state, T &target, ..)` leaves behind: the state and
the result slot (`none` is `finalize_data.ReturnNull()`). -/
structure Finalized (Sk : Type) where
  state : DSState Sk
  target : Option Blob
  deriving DecidableEq, Repr

/-- The `datasketches::target_hll_type` enumeration. -/
inductive target_hll_type where
  | HLL_4
  | HLL_6
  | HLL_8
  deriving DecidableEq, Repr

/-- A value handed to the HLL and CPC create aggregates: `B_TYPE` is either a
numeric type or `duckdb::string_t`. -/
inductive Value (T : Type) where
  | num (x : T)
  | str (bytes : Blob)
  deriving DecidableEq, Repr

/-! ## The library classes (parameters) -/

/-- The part of a quantile-family sketch class (`quantiles_sketch<T>`,
`kll_sketch<T>`, `req_sketch<T>`, `tdigest<T>`) used by the aggregate
operations.  `ctor` and `deserialize` may throw (`none`). -/
structure SketchCore (Sk T : Type) where
  ctor : Int → Option Sk
  update : Sk → T → Sk
  /-- The call `this->merge(other)`; the result is the new `this`. -/
  merge : Sk → Sk → Sk
  serialize : Sk → Blob
  deserialize : Blob → Option Sk

/-- Query surface shared by `quantiles_sketch<T>`, `kll_sketch<T>` and
`req_sketch<T>`; `F` stands for `double`.  Queries that throw on an empty
sketch return an `Option`. -/
structure QuantilesLib (Sk T F : Type) extends SketchCore Sk T where
  is_empty : Sk → Bool
  get_k : Sk → Nat
  get_n : Sk → Nat
  get_num_retained : Sk → Nat
  is_estimation_mode : Sk → Bool
  get_normalized_rank_error : Sk → Bool → F
  to_string : Sk → Bool → Bool → String
  get_rank : Sk → T → Bool → Option F
  get_quantile : Sk → F → Bool → Option T
  get_min_item : Sk → Option T
  get_max_item : Sk → Option T
  get_CDF : Sk → List T → Bool → Option (List F)
  get_PMF : Sk → List T → Bool → Option (List F)

/-- Query surface of `tdigest<T>`. -/
structure TDigestLib (Sk T F : Type) extends SketchCore Sk T where
  is_empty : Sk → Bool
  get_k : Sk → Nat
  get_total_weight : Sk → Nat
  to_string : Sk → Bool → String
  get_rank : Sk → T → Option F
  get_quantile : Sk → F → Option T
  get_CDF : Sk → List T → Option (List F)
  get_PMF : Sk → List T → Option (List F)

/-- The classes `hll_sketch` (`Sk`) and `hll_union` (`U`). -/
structure HLLLib (Sk U T F : Type) where
  /-- The constructor `hll_sketch(lg_config_k)`, target type left at its default. -/
  ctor : Nat → Option Sk
  update : Sk → T → Sk
  /-- The overload `update(const void *data, size_t length)`. -/
  update_bytes : Sk → Blob → Sk
  get_lg_config_k : Sk → Nat
  get_target_type : Sk → target_hll_type
  /-- The constructor `hll_union(lg_max_k)`. -/
  union_ctor : Int → Option U
  union_update : U → Sk → U
  get_result : U → target_hll_type → Sk
  serialize_updatable : Sk → Blob
  serialize_compact : Sk → Blob
  deserialize : Blob → Option Sk
  is_empty : Sk → Bool
  is_compact : Sk → Bool
  to_string : Sk → Bool → Bool → Bool → Bool → String
  get_estimate : Sk → F
  get_lower_bound : Sk → Nat → F
  get_upper_bound : Sk → Nat → F

/-- The classes `cpc_sketch` (`Sk`) and `cpc_union` (`U`). -/
structure CPCLib (Sk U T F : Type) where
  ctor : Nat → Option Sk
  update : Sk → T → Sk
  update_bytes : Sk → Blob → Sk
  get_lg_k : Sk → Nat
  union_ctor : Int → Option U
  union_update : U → Sk → U
  get_result : U → Sk
  serialize : Sk → Blob
  deserialize : Blob → Option Sk
  is_empty : Sk → Bool
  to_string : Sk → String
  get_estimate : Sk → F
  get_lower_bound : Sk → Nat → F
  get_upper_bound : Sk → Nat → F

/-! ## State structs -/

/-- The outcome of `D_ASSERT(cond)`: `true` when execution continues (the
condition holds, or assertions are compiled out). -/
def D_ASSERT (dbg : Bool) (cond : Bool) : Bool :=
  !dbg || cond

/-- The overload `void CreateSketch(const STATE &existing)`, the same text in
all six state structs: copy-construct from `existing` when it holds a sketch,
otherwise leave `sketch` as it is. -/
def DSState.CreateSketchFrom {Sk : Type} (st existing : DSState Sk) : DSState Sk :=
  match existing.sketch with
  | some sk => ⟨some sk⟩
  | none => st

/-- The method `DSQuantilesState<T>::CreateSketch(int32_t k)`. -/
def DSQuantilesState.CreateSketch {Sk T : Type} (L : SketchCore Sk T) (dbg : Bool)
    (st : DSState Sk) (k : Int) : Outcome (DSState Sk) :=
  if !D_ASSERT dbg st.sketch.isNone then .raised .assertion st
  else if !D_ASSERT dbg (decide (k > 0)) then .raised .assertion st
  else if !D_ASSERT dbg (decide (k ≤ 32768)) then .raised .assertion st
  else match L.ctor k with
    | none => .raised .library st
    | some sk => .done ⟨some sk⟩

/-- The method `DSKLLState<T>::CreateSketch(int32_t k)`. -/
def DSKLLState.CreateSketch {Sk T : Type} (L : SketchCore Sk T) (dbg : Bool)
    (st : DSState Sk) (k : Int) : Outcome (DSState Sk) :=
  if !D_ASSERT dbg st.sketch.isNone then .raised .assertion st
  else if !D_ASSERT dbg (decide (k > 0)) then .raised .assertion st
  else if !D_ASSERT dbg (decide (k ≤ 32768)) then .raised .assertion st
  else match L.ctor k with
    | none => .raised .library st
    | some sk => .done ⟨some sk⟩

/-- The method `DSREQState<T>::CreateSketch(int32_t k)`. -/
def DSREQState.CreateSketch {Sk T : Type} (L : SketchCore Sk T) (dbg : Bool)
    (st : DSState Sk) (k : Int) : Outcome (DSState Sk) :=
  if !D_ASSERT dbg st.sketch.isNone then .raised .assertion st
  else if !D_ASSERT dbg (decide (k ≥ 4)) then .raised .assertion st
  else if !D_ASSERT dbg (decide (k ≤ 1024)) then .raised .assertion st
  else match L.ctor k with
    | none => .raised .library st
    | some sk => .done ⟨some sk⟩

/-- The method `DSTDigestState<T>::CreateSketch(uint16_t k)`: the `int32_t`
argument is converted to `uint16_t` at the call. -/
def DSTDigestState.CreateSketch {Sk T : Type} (L : SketchCore Sk T) (dbg : Bool)
    (st : DSState Sk) (k : Int) : Outcome (DSState Sk) :=
  if !D_ASSERT dbg st.sketch.isNone then .raised .assertion st
  else match L.ctor (k % 65536) with
    | none => .raised .library st
    | some sk => .done ⟨some sk⟩

/-- The method `DSHLLState::CreateSketch(uint16_t k)`. -/
def DSHLLState.CreateSketch {Sk U T F : Type} (L : HLLLib Sk U T F) (dbg : Bool)
    (st : DSState Sk) (k : Int) : Outcome (DSState Sk) :=
  if !D_ASSERT dbg st.sketch.isNone then .raised .assertion st
  else match L.ctor (k % 65536).toNat with
    | none => .raised .library st
    | some sk => .done ⟨some sk⟩

/-- The method `DSCPCState::CreateSketch(uint8_t k)`. -/
def DSCPCState.CreateSketch {Sk U T F : Type} (L : CPCLib Sk U T F) (dbg : Bool)
    (st : DSState Sk) (k : Int) : Outcome (DSState Sk) :=
  if !D_ASSERT dbg st.sketch.isNone then .raised .assertion st
  else match L.ctor (k % 256).toNat with
    | none => .raised .library st
    | some sk => .done ⟨some sk⟩

/-- The state struct a quantile-family operation template is instantiated
with (`DSQuantilesCreateOperation` and `DSQuantilesMergeOperation` serve all
four). -/
inductive QKind where
  | Quantiles
  | KLL
  | REQ
  | TDigest
  deriving DecidableEq, Repr

/-- The call `state.CreateSketch(a_data)` resolved for the state struct. -/
def QKind.CreateSketch {Sk T : Type} (kind : QKind) (L : SketchCore Sk T) (dbg : Bool)
    (st : DSState Sk) (k : Int) : Outcome (DSState Sk) :=
  match kind with
  | .Quantiles => DSQuantilesState.CreateSketch L dbg st k
  | .KLL => DSKLLState.CreateSketch L dbg st k
  | .REQ => DSREQState.CreateSketch L dbg st k
  | .TDigest => DSTDigestState.CreateSketch L dbg st k

/-! ## `DSQuantilesMergeOperation` -/

/-- The function `DSQuantilesMergeOperation::Initialize`. -/
def DSQuantilesMergeOperation.Initialize {Sk : Type} (_state : DSState Sk) : DSState Sk :=
  ⟨none⟩

/-- The function `DSQuantilesMergeOperation::Operation`: `a_data` is the
config, `b_data` a serialized sketch. -/
def DSQuantilesMergeOperation.Operation {Sk T : Type} (kind : QKind) (L : SketchCore Sk T)
    (dbg : Bool) (state : DSState Sk) (a_data : Int) (b_data : Blob) : Outcome (DSState Sk) :=
  let created :=
    if state.sketch.isNone then QKind.CreateSketch kind L dbg state a_data else .done state
  match created with
  | .done st =>
    match L.deserialize b_data with
    | none => .raised .library st
    | some b =>
      match st.sketch with
      | none => .crashed
      | some sk => .done ⟨some (L.merge sk b)⟩
  | other => other

/-- The function `DSQuantilesMergeOperation::Combine`. -/
def DSQuantilesMergeOperation.Combine {Sk T : Type} (L : SketchCore Sk T)
    (source target : DSState Sk) : Outcome (CombineArgs Sk) :=
  match target.sketch with
  | none => .done ⟨source, target.CreateSketchFrom source⟩
  | some t =>
    match source.sketch with
    | none => .crashed
    | some s => .done ⟨source, ⟨some (L.merge t s)⟩⟩

/-- The function `DSQuantilesMergeOperation::Finalize`. -/
def DSQuantilesMergeOperation.Finalize {Sk T : Type} (L : SketchCore Sk T)
    (state : DSState Sk) : Finalized Sk :=
  match state.sketch with
  | none => ⟨state, none⟩
  | some sk => ⟨⟨none⟩, some (L.serialize sk)⟩

/-- The function `DSQuantilesMergeOperation::IgnoreNull`. -/
def DSQuantilesMergeOperation.IgnoreNull : Bool := true

/-! ## `DSQuantilesCreateOperation` -/

/-- The function `DSQuantilesCreateOperation::Initialize`. -/
def DSQuantilesCreateOperation.Initialize {Sk : Type} (_state : DSState Sk) : DSState Sk :=
  ⟨none⟩

/-- The function `DSQuantilesCreateOperation::Operation`: `a_data` is the
config, `b_data` the value. -/
def DSQuantilesCreateOperation.Operation {Sk T : Type} (kind : QKind) (L : SketchCore Sk T)
    (dbg : Bool) (state : DSState Sk) (a_data : Int) (b_data : T) : Outcome (DSState Sk) :=
  let created :=
    if state.sketch.isNone then QKind.CreateSketch kind L dbg state a_data else .done state
  match created with
  | .done st =>
    match st.sketch with
    | none => .crashed
    | some sk => .done ⟨some (L.update sk b_data)⟩
  | other => other

/-- The function `DSQuantilesCreateOperation::Combine`. -/
def DSQuantilesCreateOperation.Combine {Sk T : Type} (L : SketchCore Sk T)
    (source target : DSState Sk) : Outcome (CombineArgs Sk) :=
  match target.sketch with
  | none => .done ⟨source, target.CreateSketchFrom source⟩
  | some t =>
    match source.sketch with
    | none => .crashed
    | some s => .done ⟨source, ⟨some (L.merge t s)⟩⟩

/-- The function `DSQuantilesCreateOperation::Finalize`. -/
def DSQuantilesCreateOperation.Finalize {Sk T : Type} (L : SketchCore Sk T)
    (state : DSState Sk) : Finalized Sk :=
  match state.sketch with
  | none => ⟨state, none⟩
  | some sk => ⟨⟨none⟩, some (L.serialize sk)⟩

/-- The function `DSQuantilesCreateOperation::IgnoreNull`. -/
def DSQuantilesCreateOperation.IgnoreNull : Bool := true

/-! ## `DSHLLCreateOperation` -/

/-- The function `DSHLLCreateOperation::Initialize`. -/
def DSHLLCreateOperation.Initialize {Sk : Type} (_state : DSState Sk) : DSState Sk :=
  ⟨none⟩

/-- The function `DSHLLCreateOperation::Operation`. -/
def DSHLLCreateOperation.Operation {Sk U T F : Type} (L : HLLLib Sk U T F)
    (dbg : Bool) (state : DSState Sk) (a_data : Int) (b_data : Value T) :
    Outcome (DSState Sk) :=
  let created :=
    if state.sketch.isNone then DSHLLState.CreateSketch L dbg state a_data else .done state
  match created with
  | .done st =>
    match st.sketch with
    | none => .crashed
    | some sk =>
      match b_data with
      | .str bytes => .done ⟨some (L.update_bytes sk bytes)⟩
      | .num x => .done ⟨some (L.update sk x)⟩
  | other => other

/-- The function `DSHLLCreateOperation::Combine`: the union is updated with
the target first, then with the source. -/
def DSHLLCreateOperation.Combine {Sk U T F : Type} (L : HLLLib Sk U T F)
    (source target : DSState Sk) : Outcome (CombineArgs Sk) :=
  match target.sketch with
  | none => .done ⟨source, target.CreateSketchFrom source⟩
  | some t =>
    match L.union_ctor (L.get_lg_config_k t) with
    | none => .raised .library ⟨source, target⟩
    | some u =>
      let u1 := L.union_update u t
      match source.sketch with
      | none => .crashed
      | some s => .done ⟨source, ⟨some (L.get_result (L.union_update u1 s) .HLL_4)⟩⟩

/-- The function `DSHLLCreateOperation::Finalize`. -/
def DSHLLCreateOperation.Finalize {Sk U T F : Type} (L : HLLLib Sk U T F)
    (state : DSState Sk) : Finalized Sk :=
  match state.sketch with
  | none => ⟨state, none⟩
  | some sk => ⟨⟨none⟩, some (L.serialize_updatable sk)⟩

/-- The function `DSHLLCreateOperation::IgnoreNull`. -/
def DSHLLCreateOperation.IgnoreNull : Bool := true

/-! ## `DSHLLMergeOperation` -/

/-- The function `DSHLLMergeOperation::Initialize`. -/
def DSHLLMergeOperation.Initialize {Sk : Type} (_state : DSState Sk) : DSState Sk :=
  ⟨none⟩

/-- The function `DSHLLMergeOperation::Operation`: the union is constructed
from `a_data` on every call. -/
def DSHLLMergeOperation.Operation {Sk U T F : Type} (L : HLLLib Sk U T F)
    (dbg : Bool) (state : DSState Sk) (a_data : Int) (b_data : Blob) : Outcome (DSState Sk) :=
  let created :=
    if state.sketch.isNone then DSHLLState.CreateSketch L dbg state a_data else .done state
  match created with
  | .done st =>
    match L.deserialize b_data with
    | none => .raised .library st
    | some b_sketch =>
      match L.union_ctor a_data with
      | none => .raised .library st
      | some u =>
        match st.sketch with
        | none => .crashed
        | some sk =>
          .done ⟨some (L.get_result (L.union_update (L.union_update u sk) b_sketch) .HLL_4)⟩
  | other => other

/-- The function `DSHLLMergeOperation::Combine`: the union is updated with the
source first, then with the target. -/
def DSHLLMergeOperation.Combine {Sk U T F : Type} (L : HLLLib Sk U T F)
    (source target : DSState Sk) : Outcome (CombineArgs Sk) :=
  match target.sketch with
  | none => .done ⟨source, target.CreateSketchFrom source⟩
  | some t =>
    match L.union_ctor (L.get_lg_config_k t) with
    | none => .raised .library ⟨source, target⟩
    | some u =>
      match source.sketch with
      | none => .crashed
      | some s =>
        .done ⟨source, ⟨some (L.get_result (L.union_update (L.union_update u s) t) .HLL_4)⟩⟩

/-- The function `DSHLLMergeOperation::Finalize`. -/
def DSHLLMergeOperation.Finalize {Sk U T F : Type} (L : HLLLib Sk U T F)
    (state : DSState Sk) : Finalized Sk :=
  match state.sketch with
  | none => ⟨state, none⟩
  | some sk => ⟨⟨none⟩, some (L.serialize_updatable sk)⟩

/-- The function `DSHLLMergeOperation::IgnoreNull`. -/
def DSHLLMergeOperation.IgnoreNull : Bool := true

/-! ## `DSCPCMergeOperation` -/

/-- The function `DSCPCMergeOperation::Initialize`. -/
def DSCPCMergeOperation.Initialize {Sk : Type} (_state : DSState Sk) : DSState Sk :=
  ⟨none⟩

/-- The function `DSCPCMergeOperation::Operation`: the union is constructed
from `a_data` on every call. -/
def DSCPCMergeOperation.Operation {Sk U T F : Type} (L : CPCLib Sk U T F)
    (dbg : Bool) (state : DSState Sk) (a_data : Int) (b_data : Blob) : Outcome (DSState Sk) :=
  let created :=
    if state.sketch.isNone then DSCPCState.CreateSketch L dbg state a_data else .done state
  match created with
  | .done st =>
    match L.deserialize b_data with
    | none => .raised .library st
    | some b_sketch =>
      match L.union_ctor a_data with
      | none => .raised .library st
      | some u =>
        match st.sketch with
        | none => .crashed
        | some sk => .done ⟨some (L.get_result (L.union_update (L.union_update u sk) b_sketch))⟩
  | other => other

/-- The function `DSCPCMergeOperation::Combine`: source first, then target. -/
def DSCPCMergeOperation.Combine {Sk U T F : Type} (L : CPCLib Sk U T F)
    (source target : DSState Sk) : Outcome (CombineArgs Sk) :=
  match target.sketch with
  | none => .done ⟨source, target.CreateSketchFrom source⟩
  | some t =>
    match L.union_ctor (L.get_lg_k t) with
    | none => .raised .library ⟨source, target⟩
    | some u =>
      match source.sketch with
      | none => .crashed
      | some s => .done ⟨source, ⟨some (L.get_result (L.union_update (L.union_update u s) t))⟩⟩

/-- The function `DSCPCMergeOperation::Finalize`. -/
def DSCPCMergeOperation.Finalize {Sk U T F : Type} (L : CPCLib Sk U T F)
    (state : DSState Sk) : Finalized Sk :=
  match state.sketch with
  | none => ⟨state, none⟩
  | some sk => ⟨⟨none⟩, some (L.serialize sk)⟩

/-- The function `DSCPCMergeOperation::IgnoreNull`. -/
def DSCPCMergeOperation.IgnoreNull : Bool := true

/-! ## `DSCPCCreateOperation` -/

/-- The function `DSCPCCreateOperation::Initialize`. -/
def DSCPCCreateOperation.Initialize {Sk : Type} (_state : DSState Sk) : DSState Sk :=
  ⟨none⟩

/-- The function `DSCPCCreateOperation::Operation`. -/
def DSCPCCreateOperation.Operation {Sk U T F : Type} (L : CPCLib Sk U T F)
    (dbg : Bool) (state : DSState Sk) (a_data : Int) (b_data : Value T) :
    Outcome (DSState Sk) :=
  let created :=
    if state.sketch.isNone then DSCPCState.CreateSketch L dbg state a_data else .done state
  match created with
  | .done st =>
    match st.sketch with
    | none => .crashed
    | some sk =>
      match b_data with
      | .str bytes => .done ⟨some (L.update_bytes sk bytes)⟩
      | .num x => .done ⟨some (L.update sk x)⟩
  | other => other

/-- The function `DSCPCCreateOperation::Combine`: target first, then source. -/
def DSCPCCreateOperation.Combine {Sk U T F : Type} (L : CPCLib Sk U T F)
    (source target : DSState Sk) : Outcome (CombineArgs Sk) :=
  match target.sketch with
  | none => .done ⟨source, target.CreateSketchFrom source⟩
  | some t =>
    match L.union_ctor (L.get_lg_k t) with
    | none => .raised .library ⟨source, target⟩
    | some u =>
      let u1 := L.union_update u t
      match source.sketch with
      | none => .crashed
      | some s => .done ⟨source, ⟨some (L.get_result (L.union_update u1 s))⟩⟩

/-- The function `DSCPCCreateOperation::Finalize`. -/
def DSCPCCreateOperation.Finalize {Sk U T F : Type} (L : CPCLib Sk U T F)
    (state : DSState Sk) : Finalized Sk :=
  match state.sketch with
  | none => ⟨state, none⟩
  | some sk => ⟨⟨none⟩, some (L.serialize sk)⟩

/-- The function `DSCPCCreateOperation::IgnoreNull`. -/
def DSCPCCreateOperation.IgnoreNull : Bool := true

/-! ## Scalar query functions

Every query function deserializes the blob of each row and returns one
library query; `none` means that the row raised an exception. -/

/-- The row lambda common to the query functions: `deserialize`, then the
library call `f`. -/
def queryRow {Sk α : Type} (deserialize : Blob → Option Sk) (f : Sk → Option α)
    (sketch_data : Blob) : Option α :=
  match deserialize sketch_data with
  | none => none
  | some sketch => f sketch

/-- The DuckDB struct `list_entry_t`. -/
structure list_entry_t where
  offset : Nat
  length : Nat
  deriving DecidableEq, Repr

/-- What a list-valued row lambda produces: the returned entry and the child
vector of the result after the row. -/
structure ListRow (α : Type) where
  entry : list_entry_t
  child : List α
  deriving DecidableEq, Repr

/-- The loop `passing_points[i] = split_points_list_children_data[i + offset]`
for `i < length`; `none` when a read falls outside the child data. -/
def passing_points {T : Type} (split_points_list_children_data : List T)
    (split_points_data : list_entry_t) : Option (List T) :=
  (List.range split_points_data.length).mapM
    (fun i => split_points_list_children_data[i + split_points_data.offset]?)

/-- The tail of the cdf and pmf lambdas: `current_size` is the list size of
the result, the library values are stored at `child_vals[current_size + i]`
(converted by `conv` to the element type of `child_vals`), the list size grows
and the entry `(current_size, values.size())` is returned. -/
def appendListRow {F α : Type} (conv : F → α) (result : List α) (values : List F) :
    ListRow α :=
  ⟨⟨result.length, values.length⟩, result ++ values.map conv⟩

/-! ### Quantiles -/

/-- The row lambda of `DSQuantilesis_empty<T>`. -/
def DSQuantilesis_empty {Sk T F : Type} (L : QuantilesLib Sk T F) (sketch_data : Blob) :
    Option Bool :=
  queryRow L.deserialize (fun sketch => some (L.is_empty sketch)) sketch_data

/-- The row lambda of `DSQuantilesk<T>`. -/
def DSQuantilesk {Sk T F : Type} (L : QuantilesLib Sk T F) (sketch_data : Blob) :
    Option Nat :=
  queryRow L.deserialize (fun sketch => some (L.get_k sketch)) sketch_data

/-- The row lambda of `DSQuantilescdf<T>`: the values of `get_CDF` are stored
through `child_vals`, a `T *`, hence converted from `double` to `T` by `conv`. -/
def DSQuantilescdf {Sk T F : Type} (L : QuantilesLib Sk T F) (conv : F → T)
    (split_points_list_children_data : List T) (result : List T) (sketch_data : Blob)
    (split_points_data : list_entry_t) (inclusive_data : Bool) : Option (ListRow T) :=
  queryRow L.deserialize (fun sketch =>
    (passing_points split_points_list_children_data split_points_data).bind (fun pts =>
      (L.get_CDF sketch pts inclusive_data).map (appendListRow conv result))) sketch_data

/-- The row lambda of `DSQuantilespmf<T>`: the values of `get_PMF` are stored
through `child_vals`, a `double *`, hence unconverted. -/
def DSQuantilespmf {Sk T F : Type} (L : QuantilesLib Sk T F)
    (split_points_list_children_data : List T) (result : List F) (sketch_data : Blob)
    (split_points_data : list_entry_t) (inclusive_data : Bool) : Option (ListRow F) :=
  queryRow L.deserialize (fun sketch =>
    (passing_points split_points_list_children_data split_points_data).bind (fun pts =>
      (L.get_PMF sketch pts inclusive_data).map (appendListRow id result))) sketch_data

/-- The row lambda of `DSQuantilesnormalized_rank_error<T>`. -/
def DSQuantilesnormalized_rank_error {Sk T F : Type} (L : QuantilesLib Sk T F)
    (sketch_data : Blob) (is_pmf_data : Bool) : Option F :=
  queryRow L.deserialize (fun sketch => some (L.get_normalized_rank_error sketch is_pmf_data))
    sketch_data

/-- The row lambda of `DSQuantilesdescribe<T>`. -/
def DSQuantilesdescribe {Sk T F : Type} (L : QuantilesLib Sk T F) (sketch_data : Blob)
    (include_levels_data include_items_data : Bool) : Option String :=
  queryRow L.deserialize
    (fun sketch => some (L.to_string sketch include_levels_data include_items_data)) sketch_data

/-- The row lambda of `DSQuantilesrank<T>`. -/
def DSQuantilesrank {Sk T F : Type} (L : QuantilesLib Sk T F) (sketch_data : Blob)
    (item_data : T) (inclusive_data : Bool) : Option F :=
  queryRow L.deserialize (fun sketch => L.get_rank sketch item_data inclusive_data) sketch_data

/-- The row lambda of `DSQuantilesquantile<T>`. -/
def DSQuantilesquantile {Sk T F : Type} (L : QuantilesLib Sk T F) (sketch_data : Blob)
    (rank_data : F) (inclusive_data : Bool) : Option T :=
  queryRow L.deserialize (fun sketch => L.get_quantile sketch rank_data inclusive_data)
    sketch_data

/-- The row lambda of `DSQuantilesn<T>`. -/
def DSQuantilesn {Sk T F : Type} (L : QuantilesLib Sk T F) (sketch_data : Blob) :
    Option Nat :=
  queryRow L.deserialize (fun sketch => some (L.get_n sketch)) sketch_data

/-- The row lambda of `DSQuantilesis_estimation_mode<T>`. -/
def DSQuantilesis_estimation_mode {Sk T F : Type} (L : QuantilesLib Sk T F)
    (sketch_data : Blob) : Option Bool :=
  queryRow L.deserialize (fun sketch => some (L.is_estimation_mode sketch)) sketch_data

/-- The row lambda of `DSQuantilesnum_retained<T>`. -/
def DSQuantilesnum_retained {Sk T F : Type} (L : QuantilesLib Sk T F) (sketch_data : Blob) :
    Option Nat :=
  queryRow L.deserialize (fun sketch => some (L.get_num_retained sketch)) sketch_data

/-- The row lambda of `DSQuantilesmin_item<T>`. -/
def DSQuantilesmin_item {Sk T F : Type} (L : QuantilesLib Sk T F) (sketch_data : Blob) :
    Option T :=
  queryRow L.deserialize (fun sketch => L.get_min_item sketch) sketch_data

/-- The row lambda of `DSQuantilesmax_item<T>`. -/
def DSQuantilesmax_item {Sk T F : Type} (L : QuantilesLib Sk T F) (sketch_data : Blob) :
    Option T :=
  queryRow L.deserialize (fun sketch => L.get_max_item sketch) sketch_data

/-! ### KLL -/

/-- The row lambda of `DSKLLis_empty<T>`. -/
def DSKLLis_empty {Sk T F : Type} (L : QuantilesLib Sk T F) (sketch_data : Blob) :
    Option Bool :=
  queryRow L.deserialize (fun sketch => some (L.is_empty sketch)) sketch_data

/-- The row lambda of `DSKLLk<T>`. -/
def DSKLLk {Sk T F : Type} (L : QuantilesLib Sk T F) (sketch_data : Blob) :
    Option Nat :=
  queryRow L.deserialize (fun sketch => some (L.get_k sketch)) sketch_data

/-- The row lambda of `DSKLLcdf<T>`: the values of `get_CDF` are stored
through `child_vals`, a `T *`, hence converted from `double` to `T` by `conv`. -/
def DSKLLcdf {Sk T F : Type} (L : QuantilesLib Sk T F) (conv : F → T)
    (split_points_list_children_data : List T) (result : List T) (sketch_data : Blob)
    (split_points_data : list_entry_t) (inclusive_data : Bool) : Option (ListRow T) :=
  queryRow L.deserialize (fun sketch =>
    (passing_points split_points_list_children_data split_points_data).bind (fun pts =>
      (L.get_CDF sketch pts inclusive_data).map (appendListRow conv result))) sketch_data

/-- The row lambda of `DSKLLpmf<T>`: the values of `get_PMF` are stored
through `child_vals`, a `double *`, hence unconverted. -/
def DSKLLpmf {Sk T F : Type} (L : QuantilesLib Sk T F)
    (split_points_list_children_data : List T) (result : List F) (sketch_data : Blob)
    (split_points_data : list_entry_t) (inclusive_data : Bool) : Option (ListRow F) :=
  queryRow L.deserialize (fun sketch =>
    (passing_points split_points_list_children_data split_points_data).bind (fun pts =>
      (L.get_PMF sketch pts inclusive_data).map (appendListRow id result))) sketch_data

/-- The row lambda of `DSKLLnormalized_rank_error<T>`. -/
def DSKLLnormalized_rank_error {Sk T F : Type} (L : QuantilesLib Sk T F)
    (sketch_data : Blob) (is_pmf_data : Bool) : Option F :=
  queryRow L.deserialize (fun sketch => some (L.get_normalized_rank_error sketch is_pmf_data))
    sketch_data

/-- The row lambda of `DSKLLdescribe<T>`. -/
def DSKLLdescribe {Sk T F : Type} (L : QuantilesLib Sk T F) (sketch_data : Blob)
    (include_levels_data include_items_data : Bool) : Option String :=
  queryRow L.deserialize
    (fun sketch => some (L.to_string sketch include_levels_data include_items_data)) sketch_data

/-- The row lambda of `DSKLLrank<T>`. -/
def DSKLLrank {Sk T F : Type} (L : QuantilesLib Sk T F) (sketch_data : Blob)
    (item_data : T) (inclusive_data : Bool) : Option F :=
  queryRow L.deserialize (fun sketch => L.get_rank sketch item_data inclusive_data) sketch_data

/-- The row lambda of `DSKLLquantile<T>`. -/
def DSKLLquantile {Sk T F : Type} (L : QuantilesLib Sk T F) (sketch_data : Blob)
    (rank_data : F) (inclusive_data : Bool) : Option T :=
  queryRow L.deserialize (fun sketch => L.get_quantile sketch rank_data inclusive_data)
    sketch_data

/-- The row lambda of `DSKLLn<T>`. -/
def DSKLLn {Sk T F : Type} (L : QuantilesLib Sk T F) (sketch_data : Blob) :
    Option Nat :=
  queryRow L.deserialize (fun sketch => some (L.get_n sketch)) sketch_data

/-- The row lambda of `DSKLLis_estimation_mode<T>`. -/
def DSKLLis_estimation_mode {Sk T F : Type} (L : QuantilesLib Sk T F)
    (sketch_data : Blob) : Option Bool :=
  queryRow L.deserialize (fun sketch => some (L.is_estimation_mode sketch)) sketch_data

/-- The row lambda of `DSKLLnum_retained<T>`. -/
def DSKLLnum_retained {Sk T F : Type} (L : QuantilesLib Sk T F) (sketch_data : Blob) :
    Option Nat :=
  queryRow L.deserialize (fun sketch => some (L.get_num_retained sketch)) sketch_data

/-- The row lambda of `DSKLLmin_item<T>`. -/
def DSKLLmin_item {Sk T F : Type} (L : QuantilesLib Sk T F) (sketch_data : Blob) :
    Option T :=
  queryRow L.deserialize (fun sketch => L.get_min_item sketch) sketch_data

/-- The row lambda of `DSKLLmax_item<T>`. -/
def DSKLLmax_item {Sk T F : Type} (L : QuantilesLib Sk T F) (sketch_data : Blob) :
    Option T :=
  queryRow L.deserialize (fun sketch => L.get_max_item sketch) sketch_data

/-! ### REQ -/

/-- The row lambda of `DSREQis_empty<T>`. -/
def DSREQis_empty {Sk T F : Type} (L : QuantilesLib Sk T F) (sketch_data : Blob) :
    Option Bool :=
  queryRow L.deserialize (fun sketch => some (L.is_empty sketch)) sketch_data

/-- The row lambda of `DSREQk<T>`. -/
def DSREQk {Sk T F : Type} (L : QuantilesLib Sk T F) (sketch_data : Blob) :
    Option Nat :=
  queryRow L.deserialize (fun sketch => some (L.get_k sketch)) sketch_data

/-- The row lambda of `DSREQcdf<T>`: the values of `get_CDF` are stored
through `child_vals`, a `T *`, hence converted from `double` to `T` by `conv`. -/
def DSREQcdf {Sk T F : Type} (L : QuantilesLib Sk T F) (conv : F → T)
    (split_points_list_children_data : List T) (result : List T) (sketch_data : Blob)
    (split_points_data : list_entry_t) (inclusive_data : Bool) : Option (ListRow T) :=
  queryRow L.deserialize (fun sketch =>
    (passing_points split_points_list_children_data split_points_data).bind (fun pts =>
      (L.get_CDF sketch pts inclusive_data).map (appendListRow conv result))) sketch_data

/-- The row lambda of `DSREQpmf<T>`: the values of `get_PMF` are stored
through `child_vals`, a `double *`, hence unconverted. -/
def DSREQpmf {Sk T F : Type} (L : QuantilesLib Sk T F)
    (split_points_list_children_data : List T) (result : List F) (sketch_data : Blob)
    (split_points_data : list_entry_t) (inclusive_data : Bool) : Option (ListRow F) :=
  queryRow L.deserialize (fun sketch =>
    (passing_points split_points_list_children_data split_points_data).bind (fun pts =>
      (L.get_PMF sketch pts inclusive_data).map (appendListRow id result))) sketch_data

/-- The row lambda of `DSREQdescribe<T>`. -/
def DSREQdescribe {Sk T F : Type} (L : QuantilesLib Sk T F) (sketch_data : Blob)
    (include_levels_data include_items_data : Bool) : Option String :=
  queryRow L.deserialize
    (fun sketch => some (L.to_string sketch include_levels_data include_items_data)) sketch_data

/-- The row lambda of `DSREQrank<T>`. -/
def DSREQrank {Sk T F : Type} (L : QuantilesLib Sk T F) (sketch_data : Blob)
    (item_data : T) (inclusive_data : Bool) : Option F :=
  queryRow L.deserialize (fun sketch => L.get_rank sketch item_data inclusive_data) sketch_data

/-- The row lambda of `DSREQquantile<T>`. -/
def DSREQquantile {Sk T F : Type} (L : QuantilesLib Sk T F) (sketch_data : Blob)
    (rank_data : F) (inclusive_data : Bool) : Option T :=
  queryRow L.deserialize (fun sketch => L.get_quantile sketch rank_data inclusive_data)
    sketch_data

/-- The row lambda of `DSREQn<T>`. -/
def DSREQn {Sk T F : Type} (L : QuantilesLib Sk T F) (sketch_data : Blob) :
    Option Nat :=
  queryRow L.deserialize (fun sketch => some (L.get_n sketch)) sketch_data

/-- The row lambda of `DSREQis_estimation_mode<T>`. -/
def DSREQis_estimation_mode {Sk T F : Type} (L : QuantilesLib Sk T F)
    (sketch_data : Blob) : Option Bool :=
  queryRow L.deserialize (fun sketch => some (L.is_estimation_mode sketch)) sketch_data

/-- The row lambda of `DSREQnum_retained<T>`. -/
def DSREQnum_retained {Sk T F : Type} (L : QuantilesLib Sk T F) (sketch_data : Blob) :
    Option Nat :=
  queryRow L.deserialize (fun sketch => some (L.get_num_retained sketch)) sketch_data

/-- The row lambda of `DSREQmin_item<T>`. -/
def DSREQmin_item {Sk T F : Type} (L : QuantilesLib Sk T F) (sketch_data : Blob) :
    Option T :=
  queryRow L.deserialize (fun sketch => L.get_min_item sketch) sketch_data

/-- The row lambda of `DSREQmax_item<T>`. -/
def DSREQmax_item {Sk T F : Type} (L : QuantilesLib Sk T F) (sketch_data : Blob) :
    Option T :=
  queryRow L.deserialize (fun sketch => L.get_max_item sketch) sketch_data

/-! ### TDigest -/

/-- The row lambda of `DSTDigestis_empty<T>`. -/
def DSTDigestis_empty {Sk T F : Type} (L : TDigestLib Sk T F) (sketch_data : Blob) :
    Option Bool :=
  queryRow L.deserialize (fun sketch => some (L.is_empty sketch)) sketch_data

/-- The row lambda of `DSTDigestk<T>`. -/
def DSTDigestk {Sk T F : Type} (L : TDigestLib Sk T F) (sketch_data : Blob) : Option Nat :=
  queryRow L.deserialize (fun sketch => some (L.get_k sketch)) sketch_data

/-- The row lambda of `DSTDigestcdf<T>`: values stored through a `T *`. -/
def DSTDigestcdf {Sk T F : Type} (L : TDigestLib Sk T F) (conv : F → T)
    (split_points_list_children_data : List T) (result : List T) (sketch_data : Blob)
    (split_points_data : list_entry_t) : Option (ListRow T) :=
  queryRow L.deserialize (fun sketch =>
    (passing_points split_points_list_children_data split_points_data).bind (fun pts =>
      (L.get_CDF sketch pts).map (appendListRow conv result))) sketch_data

/-- The row lambda of `DSTDigestpmf<T>`: values stored through a `double *`. -/
def DSTDigestpmf {Sk T F : Type} (L : TDigestLib Sk T F)
    (split_points_list_children_data : List T) (result : List F) (sketch_data : Blob)
    (split_points_data : list_entry_t) : Option (ListRow F) :=
  queryRow L.deserialize (fun sketch =>
    (passing_points split_points_list_children_data split_points_data).bind (fun pts =>
      (L.get_PMF sketch pts).map (appendListRow id result))) sketch_data

/-- The row lambda of `DSTDigestdescribe<T>`. -/
def DSTDigestdescribe {Sk T F : Type} (L : TDigestLib Sk T F) (sketch_data : Blob)
    (include_centroids_data : Bool) : Option String :=
  queryRow L.deserialize (fun sketch => some (L.to_string sketch include_centroids_data))
    sketch_data

/-- The row lambda of `DSTDigestrank<T>`. -/
def DSTDigestrank {Sk T F : Type} (L : TDigestLib Sk T F) (sketch_data : Blob)
    (item_data : T) : Option F :=
  queryRow L.deserialize (fun sketch => L.get_rank sketch item_data) sketch_data

/-- The row lambda of `DSTDigesttotal_weight<T>`. -/
def DSTDigesttotal_weight {Sk T F : Type} (L : TDigestLib Sk T F) (sketch_data : Blob) :
    Option Nat :=
  queryRow L.deserialize (fun sketch => some (L.get_total_weight sketch)) sketch_data

/-- The row lambda of `DSTDigestquantile<T>`. -/
def DSTDigestquantile {Sk T F : Type} (L : TDigestLib Sk T F) (sketch_data : Blob)
    (rank_data : F) : Option T :=
  queryRow L.deserialize (fun sketch => L.get_quantile sketch rank_data) sketch_data

/-! ### HLL -/

/-- The row lambda of `DSHLLis_empty`. -/
def DSHLLis_empty {Sk U T F : Type} (L : HLLLib Sk U T F) (sketch_data : Blob) :
    Option Bool :=
  queryRow L.deserialize (fun sketch => some (L.is_empty sketch)) sketch_data

/-- The row lambda of `DSHLLdescribe`. -/
def DSHLLdescribe {Sk U T F : Type} (L : HLLLib Sk U T F) (sketch_data : Blob)
    (summary_data detail_data : Bool) : Option String :=
  queryRow L.deserialize
    (fun sketch => some (L.to_string sketch summary_data detail_data false false)) sketch_data

/-- The row lambda of `DSHLLlg_config_k`. -/
def DSHLLlg_config_k {Sk U T F : Type} (L : HLLLib Sk U T F) (sketch_data : Blob) :
    Option Nat :=
  queryRow L.deserialize (fun sketch => some (L.get_lg_config_k sketch)) sketch_data

/-- The row lambda of `DSHLLis_compact`. -/
def DSHLLis_compact {Sk U T F : Type} (L : HLLLib Sk U T F) (sketch_data : Blob) :
    Option Bool :=
  queryRow L.deserialize (fun sketch => some (L.is_compact sketch)) sketch_data

/-- The row lambda of `DSHLLestimate`. -/
def DSHLLestimate {Sk U T F : Type} (L : HLLLib Sk U T F) (sketch_data : Blob) : Option F :=
  queryRow L.deserialize (fun sketch => some (L.get_estimate sketch)) sketch_data

/-- The row lambda of `DSHLLlower_bound`. -/
def DSHLLlower_bound {Sk U T F : Type} (L : HLLLib Sk U T F) (sketch_data : Blob)
    (std_dev_data : Nat) : Option F :=
  queryRow L.deserialize (fun sketch => some (L.get_lower_bound sketch std_dev_data))
    sketch_data

/-- The row lambda of `DSHLLupper_bound`. -/
def DSHLLupper_bound {Sk U T F : Type} (L : HLLLib Sk U T F) (sketch_data : Blob)
    (std_dev_data : Nat) : Option F :=
  queryRow L.deserialize (fun sketch => some (L.get_upper_bound sketch std_dev_data))
    sketch_data

/-! ### CPC -/

/-- The row lambda of `DSCPCis_empty`. -/
def DSCPCis_empty {Sk U T F : Type} (L : CPCLib Sk U T F) (sketch_data : Blob) :
    Option Bool :=
  queryRow L.deserialize (fun sketch => some (L.is_empty sketch)) sketch_data

/-- The row lambda of `DSCPCdescribe`. -/
def DSCPCdescribe {Sk U T F : Type} (L : CPCLib Sk U T F) (sketch_data : Blob) :
    Option String :=
  queryRow L.deserialize (fun sketch => some (L.to_string sketch)) sketch_data

/-- The row lambda of `DSCPCestimate`. -/
def DSCPCestimate {Sk U T F : Type} (L : CPCLib Sk U T F) (sketch_data : Blob) : Option F :=
  queryRow L.deserialize (fun sketch => some (L.get_estimate sketch)) sketch_data

/-- The row lambda of `DSCPClower_bound`. -/
def DSCPClower_bound {Sk U T F : Type} (L : CPCLib Sk U T F) (sketch_data : Blob)
    (std_dev_data : Nat) : Option F :=
  queryRow L.deserialize (fun sketch => some (L.get_lower_bound sketch std_dev_data))
    sketch_data

/-- The row lambda of `DSCPCupper_bound`. -/
def DSCPCupper_bound {Sk U T F : Type} (L : CPCLib Sk U T F) (sketch_data : Blob)
    (std_dev_data : Nat) : Option F :=
  queryRow L.deserialize (fun sketch => some (L.get_upper_bound sketch std_dev_data))
    sketch_data

/-! ## Helpers for stating properties -/

/-- The state left by a step that completed; `none` when it raised or crashed. -/
def Outcome.result? {σ : Type} : Outcome σ → Option σ
  | .done s => some s
  | .raised _ _ => none
  | .crashed => none

/-- The property `p` holds of the state carried by the outcome, if any. -/
def Outcome.Holds {σ : Type} (p : σ → Prop) : Outcome σ → Prop
  | .done s => p s
  | .raised _ s => p s
  | .crashed => True

/-- The count `n` of a state of a quantile-family aggregate, a state without a
sketch counting as `0`. -/
def stateN {Sk T F : Type} (L : QuantilesLib Sk T F) (st : DSState Sk) : Nat :=
  match st.sketch with
  | none => 0
  | some sk => L.get_n sk

/-! ## Reference instances of the library classes

Small executable stand-ins for the DataSketches classes: they retain every
item, so their answers are exact.  They follow the documented contract of the
library: the `k` arguments are received as `uint16_t` (quantile family) or
`uint8_t` (HLL, CPC and their unions), a merged quantile sketch takes the
smaller `k`, and a union never has a larger `lg_k` than its `lg_max_k` or
than any sketch it absorbed. -/

namespace Ref

/-- An exact quantile sketch: the resolution `k` and the items, kept sorted. -/
structure QSketch where
  k : Nat
  items : List Nat
  deriving DecidableEq, Repr

/-- Fraction of the items that are at most (or less than) `v`. -/
def QSketch.rank (s : QSketch) (v : Nat) (inclusive : Bool) : ℚ :=
  ((s.items.filter (fun x => if inclusive then decide (x ≤ v) else decide (x < v))).length : ℚ)
    / (s.items.length : ℚ)

/-- Successive differences of a list, starting from `prev`. -/
def diffs : ℚ → List ℚ → List ℚ
  | _, [] => []
  | prev, x :: xs => (x - prev) :: diffs x xs

/-- Construction, update, merge and the codec of the exact quantile sketch. -/
def core : SketchCore QSketch Nat where
  ctor k := if 0 < k % 65536 then some ⟨(k % 65536).toNat, []⟩ else none
  update s v := ⟨s.k, s.items.orderedInsert (· ≤ ·) v⟩
  merge a b := ⟨min a.k b.k, (a.items ++ b.items).insertionSort (· ≤ ·)⟩
  serialize s := s.k :: s.items
  deserialize b :=
    match b with
    | [] => none
    | k :: items => some ⟨k, items⟩

/-- The exact sketch as `quantiles_sketch`, `kll_sketch` or `req_sketch`. -/
def quantiles : QuantilesLib QSketch Nat ℚ where
  toSketchCore := core
  is_empty s := s.items.isEmpty
  get_k s := s.k
  get_n s := s.items.length
  get_num_retained s := s.items.length
  is_estimation_mode _ := false
  get_normalized_rank_error s is_pmf := (if is_pmf then 2 else 1) / (s.k : ℚ)
  to_string s _ include_items :=
    if include_items then toString s.k ++ ":" ++ toString s.items else toString s.k
  get_rank s v inclusive := if s.items.isEmpty then none else some (s.rank v inclusive)
  get_quantile s r _ := s.items[min (s.items.length - 1) ⌊r * (s.items.length : ℚ)⌋.toNat]?
  get_min_item s := s.items.head?
  get_max_item s := s.items.getLast?
  get_CDF s pts inclusive :=
    if s.items.isEmpty then none else some (pts.map (fun v => s.rank v inclusive) ++ [1])
  get_PMF s pts inclusive :=
    if s.items.isEmpty then none
    else some (diffs 0 (pts.map (fun v => s.rank v inclusive) ++ [1]))

/-- The exact sketch as `tdigest`. -/
def tdigest : TDigestLib QSketch Nat ℚ where
  toSketchCore := core
  is_empty s := s.items.isEmpty
  get_k s := s.k
  get_total_weight s := s.items.length
  to_string s include_centroids :=
    if include_centroids then toString s.k ++ ":" ++ toString s.items else toString s.k
  get_rank s v := if s.items.isEmpty then none else some (s.rank v true)
  get_quantile s r := s.items[min (s.items.length - 1) ⌊r * (s.items.length : ℚ)⌋.toNat]?
  get_CDF s pts :=
    if s.items.isEmpty then none else some (pts.map (fun v => s.rank v true) ++ [1])
  get_PMF s pts :=
    if s.items.isEmpty then none else some (diffs 0 (pts.map (fun v => s.rank v true) ++ [1]))

/-- An exact HLL sketch: the size knob, the target type and the distinct
items, kept sorted. -/
structure CSketch where
  lg_k : Nat
  tgt : target_hll_type
  items : List Nat
  deriving DecidableEq, Repr

/-- An exact CPC sketch: the size knob and the distinct items, kept sorted. -/
structure PSketch where
  lg_k : Nat
  items : List Nat
  deriving DecidableEq, Repr

/-- The union accumulator of the exact distinct-count sketches. -/
structure CUnion where
  lg_max_k : Nat
  lg_k : Nat
  items : List Nat
  deriving DecidableEq, Repr

/-- The item a byte string is absorbed as. -/
def itemOfBytes (bytes : Blob) : Nat :=
  bytes.foldl (fun h b => h * 256 + b % 256) 1

/-- Insertion of an item into a sorted list of distinct items. -/
def addItem (v : Nat) (items : List Nat) : List Nat :=
  if v ∈ items then items else items.orderedInsert (· ≤ ·) v

/-- The distinct items of two lists, sorted. -/
def unionItems (a b : List Nat) : List Nat :=
  ((a ++ b).dedup).insertionSort (· ≤ ·)

/-- Wire code of a target type. -/
def tgtCode : target_hll_type → Nat
  | .HLL_4 => 0
  | .HLL_6 => 1
  | .HLL_8 => 2

/-- Decoding of a target type. -/
def tgtOfCode : Nat → Option target_hll_type
  | 0 => some .HLL_4
  | 1 => some .HLL_6
  | 2 => some .HLL_8
  | _ => none

/-- Relative half-width of the confidence interval at `n` standard deviations. -/
def relErr (lg_k n : Nat) : ℚ :=
  (n : ℚ) / (2 ^ lg_k : ℚ)

/-- The exact distinct-count sketch as `hll_sketch` with `hll_union`. -/
def hll : HLLLib CSketch CUnion Nat ℚ where
  ctor lg := if 4 ≤ lg % 256 ∧ lg % 256 ≤ 21 then some ⟨lg % 256, .HLL_4, []⟩ else none
  update s v := ⟨s.lg_k, s.tgt, addItem v s.items⟩
  update_bytes s bytes := ⟨s.lg_k, s.tgt, addItem (itemOfBytes bytes) s.items⟩
  get_lg_config_k s := s.lg_k
  get_target_type s := s.tgt
  union_ctor lg :=
    if 4 ≤ lg % 256 ∧ lg % 256 ≤ 21 then some ⟨(lg % 256).toNat, (lg % 256).toNat, []⟩ else none
  union_update u s := ⟨u.lg_max_k, min u.lg_k s.lg_k, unionItems u.items s.items⟩
  get_result u t := ⟨u.lg_k, t, u.items⟩
  serialize_updatable s := 1 :: s.lg_k :: tgtCode s.tgt :: s.items
  serialize_compact s := 0 :: s.lg_k :: tgtCode s.tgt :: s.items
  deserialize b :=
    match b with
    | _ :: lg :: c :: items => (tgtOfCode c).map (fun t => ⟨lg, t, items⟩)
    | _ => none
  is_empty s := s.items.isEmpty
  is_compact _ := false
  to_string s summary detail _ _ :=
    (if summary then toString s.lg_k else "") ++ (if detail then toString s.items else "")
  get_estimate s := (s.items.length : ℚ)
  get_lower_bound s n := (s.items.length : ℚ) * (1 - relErr s.lg_k n)
  get_upper_bound s n := (s.items.length : ℚ) * (1 + relErr s.lg_k n)

/-- The exact distinct-count sketch as `cpc_sketch` with `cpc_union`. -/
def cpc : CPCLib PSketch CUnion Nat ℚ where
  ctor lg := if 4 ≤ lg % 256 ∧ lg % 256 ≤ 26 then some ⟨lg % 256, []⟩ else none
  update s v := ⟨s.lg_k, addItem v s.items⟩
  update_bytes s bytes := ⟨s.lg_k, addItem (itemOfBytes bytes) s.items⟩
  get_lg_k s := s.lg_k
  union_ctor lg :=
    if 4 ≤ lg % 256 ∧ lg % 256 ≤ 26 then some ⟨(lg % 256).toNat, (lg % 256).toNat, []⟩ else none
  union_update u s := ⟨u.lg_max_k, min u.lg_k s.lg_k, unionItems u.items s.items⟩
  get_result u := ⟨u.lg_k, u.items⟩
  serialize s := s.lg_k :: s.items
  deserialize b :=
    match b with
    | lg :: items => some ⟨lg, items⟩
    | [] => none
  is_empty s := s.items.isEmpty
  to_string s := toString s.lg_k ++ ":" ++ toString s.items
  get_estimate s := (s.items.length : ℚ)
  get_lower_bound s n := (s.items.length : ℚ) * (1 - relErr s.lg_k n)
  get_upper_bound s n := (s.items.length : ℚ) * (1 + relErr s.lg_k n)

/-- Conversion of a `double` to an unsigned integer type: the fraction is
dropped. -/
def truncate (x : ℚ) : Nat :=
  ⌊x⌋.toNat

end Ref

/-! ## Further notions used by the properties -/

/-- The union accumulator `u` of `DSHLLCreateOperation::Combine` at the call
of `get_result`, when the source holds `s` and the target holds `t`: built by
`hll_union u(target.sketch->get_lg_config_k())`, updated with the target, then
with the source.  `none` when the constructor throws. -/
def DSHLLCreateOperation.CombineUnion {Sk U T F : Type} (L : HLLLib Sk U T F) (s t : Sk) :
    Option U :=
  (L.union_ctor (L.get_lg_config_k t)).map (fun u => L.union_update (L.union_update u t) s)

/-- The union accumulator of `DSHLLMergeOperation::Combine` at the call of
`get_result`: built from the target's `lg_config_k`, updated with the source,
then with the target. -/
def DSHLLMergeOperation.CombineUnion {Sk U T F : Type} (L : HLLLib Sk U T F) (s t : Sk) :
    Option U :=
  (L.union_ctor (L.get_lg_config_k t)).map (fun u => L.union_update (L.union_update u s) t)

/-- The union accumulator of `DSCPCCreateOperation::Combine` at the call of
`get_result`: built by `cpc_union u(target.sketch->get_lg_k())`, updated with
the target, then with the source. -/
def DSCPCCreateOperation.CombineUnion {Sk U T F : Type} (L : CPCLib Sk U T F) (s t : Sk) :
    Option U :=
  (L.union_ctor (L.get_lg_k t)).map (fun u => L.union_update (L.union_update u t) s)

/-- The union accumulator of `DSCPCMergeOperation::Combine` at the call of
`get_result`: built from the target's `lg_k`, updated with the source, then
with the target. -/
def DSCPCMergeOperation.CombineUnion {Sk U T F : Type} (L : CPCLib Sk U T F) (s t : Sk) :
    Option U :=
  (L.union_ctor (L.get_lg_k t)).map (fun u => L.union_update (L.union_update u s) t)

/-- The serialization members the sketch classes offer between them. -/
inductive SerializeFn where
  | serialize
  | serialize_compact
  | serialize_updatable
  deriving DecidableEq, Repr

/-- The serialization members of a quantile-family class: `serialize()` only. -/
def SketchCore.serializeFn {Sk T : Type} (L : SketchCore Sk T) : SerializeFn → Option (Sk → Blob)
  | .serialize => some L.serialize
  | .serialize_compact => none
  | .serialize_updatable => none

/-- The serialization members of `hll_sketch`: `serialize_compact()` and
`serialize_updatable()`. -/
def HLLLib.serializeFn {Sk U T F : Type} (L : HLLLib Sk U T F) :
    SerializeFn → Option (Sk → Blob)
  | .serialize => none
  | .serialize_compact => some L.serialize_compact
  | .serialize_updatable => some L.serialize_updatable

/-- The serialization members of `cpc_sketch`: `serialize()` only. -/
def CPCLib.serializeFn {Sk U T F : Type} (L : CPCLib Sk U T F) :
    SerializeFn → Option (Sk → Blob)
  | .serialize => some L.serialize
  | .serialize_compact => none
  | .serialize_updatable => none

/-- Modelled from the spec: the per-row dispatch of the host engine's binary
aggregate executor, which is not part of the repository.  A row whose value is
NULL is skipped when the operation struct reports `IgnoreNull() = true`
("NULL values are ignored (do not affect n, do not error)"); otherwise
`Operation` is called on the row, for a NULL value with the unspecified
content `slot` of the vector. -/
def hostAccumulate {σ β : Type} (IgnoreNull : Bool) (Operation : σ → Int → β → Outcome σ)
    (state : σ) (a_data : Int) (b_data : Option β) (slot : β) : Outcome σ :=
  match b_data with
  | some v => Operation state a_data v
  | none => if IgnoreNull then .done state else Operation state a_data slot

/-! ## Sketch types and registration

The functions `Load*Sketch` create the sketch types and register the function
sets.  A sketch type is a `BLOB` with an alias; it is embedded as its alias
name.  The name of a logical type and the C++ type of its values belong to the
host engine. -/

/-- The function `toLowerCase`: `std::tolower` on every character. -/
def toLowerCase (input : String) : String :=
  String.mk (input.data.map Char.toLower)

/-- The logical types that occur in the registrations. -/
inductive LogicalTypeId where
  | BOOLEAN
  | TINYINT
  | SMALLINT
  | INTEGER
  | BIGINT
  | FLOAT
  | DOUBLE
  | UTINYINT
  | USMALLINT
  | UINTEGER
  | UBIGINT
  | VARCHAR
  | BLOB
  deriving DecidableEq, Repr

/-- The host's `LogicalType::ToString` on these types. -/
def LogicalTypeId.ToString : LogicalTypeId → String
  | .BOOLEAN => "BOOLEAN"
  | .TINYINT => "TINYINT"
  | .SMALLINT => "SMALLINT"
  | .INTEGER => "INTEGER"
  | .BIGINT => "BIGINT"
  | .FLOAT => "FLOAT"
  | .DOUBLE => "DOUBLE"
  | .UTINYINT => "UTINYINT"
  | .USMALLINT => "USMALLINT"
  | .UINTEGER => "UINTEGER"
  | .UBIGINT => "UBIGINT"
  | .VARCHAR => "VARCHAR"
  | .BLOB => "BLOB"

/-- The C++ types used as template arguments and vector element types. -/
inductive CppType where
  | bool
  | int8_t
  | int16_t
  | int32_t
  | int64_t
  | float
  | double
  | uint8_t
  | uint16_t
  | uint32_t
  | uint64_t
  | string_t
  deriving DecidableEq, Repr

/-- The C++ type in which the host stores the values of a logical type. -/
def LogicalTypeId.cppType : LogicalTypeId → CppType
  | .BOOLEAN => .bool
  | .TINYINT => .int8_t
  | .SMALLINT => .int16_t
  | .INTEGER => .int32_t
  | .BIGINT => .int64_t
  | .FLOAT => .float
  | .DOUBLE => .double
  | .UTINYINT => .uint8_t
  | .USMALLINT => .uint16_t
  | .UINTEGER => .uint32_t
  | .UBIGINT => .uint64_t
  | .VARCHAR => .string_t
  | .BLOB => .string_t

/-- The alias given by `CreateQuantilesSketchType(instance, embedded_type)`. -/
def CreateQuantilesSketchType (embedded_type : LogicalTypeId) : String :=
  "sketch_quantiles_" ++ toLowerCase embedded_type.ToString

/-- The alias given by `CreateKLLSketchType(instance, embedded_type)`. -/
def CreateKLLSketchType (embedded_type : LogicalTypeId) : String :=
  "sketch_kll_" ++ toLowerCase embedded_type.ToString

/-- The alias given by `CreateREQSketchType(instance, embedded_type)`. -/
def CreateREQSketchType (embedded_type : LogicalTypeId) : String :=
  "sketch_req_" ++ toLowerCase embedded_type.ToString

/-- The alias given by `CreateTDigestSketchType(instance, embedded_type)`. -/
def CreateTDigestSketchType (embedded_type : LogicalTypeId) : String :=
  "sketch_tdigest_" ++ toLowerCase embedded_type.ToString

/-- The alias given by `CreateHLLCountingSketchType(instance)`. -/
def CreateHLLCountingSketchType : String :=
  "sketch_hll"

/-- The alias given by `CreateCPCCountingSketchType(instance)`. -/
def CreateCPCCountingSketchType : String :=
  "sketch_cpc"

/-- The type of an argument or of a result in a registration. -/
inductive ArgType where
  /-- A sketch type, by its alias. -/
  | sketch (name : String)
  /-- The type `LogicalType::LIST(elem)`. -/
  | list (elem : LogicalTypeId)
  /-- A plain logical type. -/
  | plain (type : LogicalTypeId)
  deriving DecidableEq, Repr

/-- One `AddFunction` of a function set: argument types, result type, the
template argument `T` of the registered function (`none` for the untemplated
HLL and CPC functions) and, for an aggregate, whether it is built from the
merge operation struct. -/
structure Registration where
  arguments : List ArgType
  return_type : ArgType
  T : Option CppType
  merge : Bool
  deriving DecidableEq, Repr

/-- The ten numeric element types with their template arguments, in the order
in which every numeric function set lists them. -/
def numericTypes : List (LogicalTypeId × CppType) :=
  [(.TINYINT, .int8_t), (.SMALLINT, .int16_t), (.INTEGER, .int32_t), (.BIGINT, .int64_t),
    (.FLOAT, .float), (.DOUBLE, .double), (.UTINYINT, .uint8_t), (.USMALLINT, .uint16_t),
    (.UINTEGER, .uint32_t), (.UBIGINT, .uint64_t)]

/-- The two element types of the TDigest function sets. -/
def tdigestTypes : List (LogicalTypeId × CppType) :=
  [(.FLOAT, .float), (.DOUBLE, .double)]

/-- The twelve element types of the HLL and CPC create aggregates. -/
def countingTypes : List (LogicalTypeId × CppType) :=
  numericTypes ++ [(.VARCHAR, .string_t), (.BLOB, .string_t)]

/-- The function `DSQuantilesCreateAggregate<T>(type, result_type)`, also the
shape of the KLL, REQ, TDigest, HLL and CPC create aggregates: a binary
aggregate over `(INTEGER, type)`. -/
def CreateAggregate (T : CppType) (type : LogicalTypeId) (result_type : String) :
    Registration :=
  ⟨[.plain .INTEGER, .plain type], .sketch result_type, some T, false⟩

/-- The function `DSQuantilesMergeAggregate<T>(type, result_type)`, also the
shape of the KLL, REQ and TDigest merge aggregates: a binary aggregate over
`(INTEGER, result_type)`. -/
def MergeAggregate (T : CppType) (_type : LogicalTypeId) (result_type : String) :
    Registration :=
  ⟨[.plain .INTEGER, .sketch result_type], .sketch result_type, some T, true⟩

/-- The functions `DSHLLMergeAggregate(result_type)` and
`DSCPCMergeAggregate(result_type)`. -/
def CountingMergeAggregate (result_type : String) : Registration :=
  ⟨[.plain .INTEGER, .sketch result_type], .sketch result_type, none, true⟩

/-- The aggregate function set `datasketch_quantiles`. -/
def datasketch_quantiles : List Registration :=
  numericTypes.flatMap (fun p =>
    [CreateAggregate p.2 p.1 (CreateQuantilesSketchType p.1),
      MergeAggregate p.2 p.1 (CreateQuantilesSketchType p.1)])

/-- The aggregate function set `datasketch_kll`. -/
def datasketch_kll : List Registration :=
  numericTypes.flatMap (fun p =>
    [CreateAggregate p.2 p.1 (CreateKLLSketchType p.1),
      MergeAggregate p.2 p.1 (CreateKLLSketchType p.1)])

/-- The aggregate function set `datasketch_req`. -/
def datasketch_req : List Registration :=
  numericTypes.flatMap (fun p =>
    [CreateAggregate p.2 p.1 (CreateREQSketchType p.1),
      MergeAggregate p.2 p.1 (CreateREQSketchType p.1)])

/-- The aggregate function set `datasketch_tdigest`. -/
def datasketch_tdigest : List Registration :=
  tdigestTypes.flatMap (fun p =>
    [CreateAggregate p.2 p.1 (CreateTDigestSketchType p.1),
      MergeAggregate p.2 p.1 (CreateTDigestSketchType p.1)])

/-- The aggregate function set `datasketch_hll`. -/
def datasketch_hll : List Registration :=
  countingTypes.map (fun p => CreateAggregate p.2 p.1 CreateHLLCountingSketchType)

/-- The aggregate function set `datasketch_hll_union`. -/
def datasketch_hll_union : List Registration :=
  [CountingMergeAggregate CreateHLLCountingSketchType]

/-- The aggregate function set `datasketch_cpc`. -/
def datasketch_cpc : List Registration :=
  countingTypes.map (fun p => CreateAggregate p.2 p.1 CreateCPCCountingSketchType)

/-- The aggregate function set `datasketch_cpc_union`. -/
def datasketch_cpc_union : List Registration :=
  [CountingMergeAggregate CreateCPCCountingSketchType]

/-- The registration of a cdf or pmf function of Quantiles, KLL or REQ for the
element type `type`: `({sketch, LIST(type), BOOLEAN}, LIST(type), f<T>)`. -/
def listFunction3 (sketch : String) (type : LogicalTypeId) (T : CppType) : Registration :=
  ⟨[.sketch sketch, .list type, .plain .BOOLEAN], .list type, some T, false⟩

/-- The registration of a cdf or pmf function of TDigest for the element type
`type`: `({sketch, LIST(type)}, LIST(type), f<T>)`. -/
def listFunction2 (sketch : String) (type : LogicalTypeId) (T : CppType) : Registration :=
  ⟨[.sketch sketch, .list type], .list type, some T, false⟩

/-- The scalar function set `datasketch_quantiles_cdf`. -/
def datasketch_quantiles_cdf : List Registration :=
  numericTypes.map (fun p => listFunction3 (CreateQuantilesSketchType p.1) p.1 p.2)

/-- The scalar function set `datasketch_quantiles_pmf`. -/
def datasketch_quantiles_pmf : List Registration :=
  numericTypes.map (fun p => listFunction3 (CreateQuantilesSketchType p.1) p.1 p.2)

/-- The scalar function set `datasketch_kll_cdf`. -/
def datasketch_kll_cdf : List Registration :=
  numericTypes.map (fun p => listFunction3 (CreateKLLSketchType p.1) p.1 p.2)

/-- The scalar function set `datasketch_kll_pmf`. -/
def datasketch_kll_pmf : List Registration :=
  numericTypes.map (fun p => listFunction3 (CreateKLLSketchType p.1) p.1 p.2)

/-- The scalar function set `datasketch_req_cdf`. -/
def datasketch_req_cdf : List Registration :=
  numericTypes.map (fun p => listFunction3 (CreateREQSketchType p.1) p.1 p.2)

/-- The scalar function set `datasketch_req_pmf`. -/
def datasketch_req_pmf : List Registration :=
  numericTypes.map (fun p => listFunction3 (CreateREQSketchType p.1) p.1 p.2)

/-- The scalar function set `datasketch_tdigest_cdf`. -/
def datasketch_tdigest_cdf : List Registration :=
  tdigestTypes.map (fun p => listFunction2 (CreateTDigestSketchType p.1) p.1 p.2)

/-- The scalar function set `datasketch_tdigest_pmf`. -/
def datasketch_tdigest_pmf : List Registration :=
  tdigestTypes.map (fun p => listFunction2 (CreateTDigestSketchType p.1) p.1 p.2)

/-- The C++ element type of the registered result list: what the caller reads
the child vector as. -/
def Registration.resultElement (r : Registration) : Option CppType :=
  match r.return_type with
  | .list elem => some elem.cppType
  | _ => none

/-- The element type of `child_vals` in the cdf functions:
`FlatVector::GetData<T>(child_entry)`. -/
def cdf_child_vals (T : CppType) : CppType :=
  T

/-- The element type of `child_vals` in the pmf functions:
`FlatVector::GetData<double>(child_entry)`. -/
def pmf_child_vals (_T : CppType) : CppType :=
  .double

/-- The six kinds of sketch. -/
inductive SketchKind where
  | Quantiles
  | KLL
  | REQ
  | TDigest
  | HLL
  | CPC
  deriving DecidableEq, Repr

/-- The aggregate function set that creates sketches of the kind. -/
def SketchKind.createSet : SketchKind → List Registration
  | .Quantiles => datasketch_quantiles
  | .KLL => datasketch_kll
  | .REQ => datasketch_req
  | .TDigest => datasketch_tdigest
  | .HLL => datasketch_hll
  | .CPC => datasketch_cpc

/-- The sketch types that the create aggregates of a kind return, each with
the element type it is returned for. -/
def SketchKind.sketchTypes (kind : SketchKind) : List (LogicalTypeId × String) :=
  kind.createSet.filterMap (fun r =>
    match r.merge, r.arguments, r.return_type with
    | false, [_, .plain type], .sketch name => some (type, name)
    | _, _, _ => none)

/-- Every registered pair of a kind and an element type, with its sketch type. -/
def registeredSketchTypes : List ((SketchKind × LogicalTypeId) × String) :=
  [SketchKind.Quantiles, .KLL, .REQ, .TDigest, .HLL, .CPC].flatMap (fun kind =>
    kind.sketchTypes.map (fun p => ((kind, p.1), p.2)))

/-! ## Calls of the list-valued query functions -/

/-- One row of a call of a cdf or pmf function: the sketch, the row's entry in
the split points list vector, and the inclusivity flag. -/
structure ListQueryRow where
  sketch_data : Blob
  split_points_data : list_entry_t
  inclusive_data : Bool
  deriving DecidableEq, Repr

/-- The host executor's loop over the rows of a call (the rows with a NULL
argument are not handed to the lambda and are left out): the rows are
processed in order, each row lambda sees the result list vector as the
previous row left it, and an exception in a row ends the call (`none`).  The
outcome is the list of returned entries and the final child vector. -/
def runListRows {ρ α : Type} (row : List α → ρ → Option (ListRow α)) :
    List α → List ρ → Option (List list_entry_t × List α)
  | result, [] => some ([], result)
  | result, r :: rest =>
    match row result r with
    | none => none
    | some out =>
      match runListRows row out.child rest with
      | none => none
      | some (entries, final) => some (out.entry :: entries, final)

/-- A call of `DSQuantilescdf<T>` on the rows `rows`, the result list vector
being `result` at the start. -/
def DSQuantilescdfRows {Sk T F : Type} (L : QuantilesLib Sk T F) (conv : F → T)
    (split_points_list_children_data : List T) (result : List T) (rows : List ListQueryRow) :
    Option (List list_entry_t × List T) :=
  runListRows (fun res r => DSQuantilescdf L conv split_points_list_children_data res
    r.sketch_data r.split_points_data r.inclusive_data) result rows

/-- A call of `DSQuantilespmf<T>` on the rows `rows`. -/
def DSQuantilespmfRows {Sk T F : Type} (L : QuantilesLib Sk T F)
    (split_points_list_children_data : List T) (result : List F) (rows : List ListQueryRow) :
    Option (List list_entry_t × List F) :=
  runListRows (fun res r => DSQuantilespmf L split_points_list_children_data res
    r.sketch_data r.split_points_data r.inclusive_data) result rows

/-- The entries lie back to back from position `start`: each offset is the
position at which the previous entry ends. -/
def Contiguous : Nat → List list_entry_t → Prop
  | _, [] => True
  | start, e :: es => e.offset = start ∧ Contiguous (start + e.length) es

/-- Whether a registration takes a `VARCHAR` or `BLOB` argument or is
instantiated with `string_t`. -/
def Registration.takesBytes (r : Registration) : Bool :=
  decide (ArgType.plain .VARCHAR ∈ r.arguments) || decide (ArgType.plain .BLOB ∈ r.arguments)
    || decide (r.T = some CppType.string_t)

/-- The element types for which a kind registers a create aggregate, in the
order of registration. -/
def SketchKind.elementTypes (kind : SketchKind) : List LogicalTypeId :=
  kind.sketchTypes.map Prod.fst

/-! ## Sequences of aggregate calls -/

/-- The entry points of an operation struct that act on a state, at fixed
template arguments; `β` is the type of the second argument of `Operation`. -/
structure AggregateOps (Sk β : Type) where
  Initialize : DSState Sk → DSState Sk
  Operation : DSState Sk → Int → β → Outcome (DSState Sk)
  Combine : DSState Sk → DSState Sk → Outcome (CombineArgs Sk)
  Finalize : DSState Sk → Finalized Sk

/-- The entry points of `DSQuantilesCreateOperation` for a state struct. -/
def DSQuantilesCreateOperation.ops {Sk T : Type} (kind : QKind) (L : SketchCore Sk T)
    (dbg : Bool) : AggregateOps Sk T :=
  ⟨DSQuantilesCreateOperation.Initialize, DSQuantilesCreateOperation.Operation kind L dbg,
    DSQuantilesCreateOperation.Combine L, DSQuantilesCreateOperation.Finalize L⟩

/-- The entry points of `DSQuantilesMergeOperation` for a state struct. -/
def DSQuantilesMergeOperation.ops {Sk T : Type} (kind : QKind) (L : SketchCore Sk T)
    (dbg : Bool) : AggregateOps Sk Blob :=
  ⟨DSQuantilesMergeOperation.Initialize, DSQuantilesMergeOperation.Operation kind L dbg,
    DSQuantilesMergeOperation.Combine L, DSQuantilesMergeOperation.Finalize L⟩

/-- The entry points of `DSHLLCreateOperation`. -/
def DSHLLCreateOperation.ops {Sk U T F : Type} (L : HLLLib Sk U T F) (dbg : Bool) :
    AggregateOps Sk (Value T) :=
  ⟨DSHLLCreateOperation.Initialize, DSHLLCreateOperation.Operation L dbg,
    DSHLLCreateOperation.Combine L, DSHLLCreateOperation.Finalize L⟩

/-- The entry points of `DSHLLMergeOperation`. -/
def DSHLLMergeOperation.ops {Sk U T F : Type} (L : HLLLib Sk U T F) (dbg : Bool) :
    AggregateOps Sk Blob :=
  ⟨DSHLLMergeOperation.Initialize, DSHLLMergeOperation.Operation L dbg,
    DSHLLMergeOperation.Combine L, DSHLLMergeOperation.Finalize L⟩

/-- The entry points of `DSCPCCreateOperation`. -/
def DSCPCCreateOperation.ops {Sk U T F : Type} (L : CPCLib Sk U T F) (dbg : Bool) :
    AggregateOps Sk (Value T) :=
  ⟨DSCPCCreateOperation.Initialize, DSCPCCreateOperation.Operation L dbg,
    DSCPCCreateOperation.Combine L, DSCPCCreateOperation.Finalize L⟩

/-- The entry points of `DSCPCMergeOperation`. -/
def DSCPCMergeOperation.ops {Sk U T F : Type} (L : CPCLib Sk U T F) (dbg : Bool) :
    AggregateOps Sk Blob :=
  ⟨DSCPCMergeOperation.Initialize, DSCPCMergeOperation.Operation L dbg,
    DSCPCMergeOperation.Combine L, DSCPCMergeOperation.Finalize L⟩

/-- The states an aggregate state can be in after a sequence of calls of the
entry points: a state is initialized; `Operation` is called on it with any
config and value; it is the target of a `Combine` whose source is such a state
too; it is finalized.  The state in which a call that raised left its target
counts as well. -/
inductive AggregateOps.Reachable {Sk β : Type} (A : AggregateOps Sk β) : DSState Sk → Prop where
  | start (st : DSState Sk) : A.Reachable (A.Initialize st)
  | operation {st st1 : DSState Sk} {a_data : Int} {b_data : β} :
      A.Reachable st → A.Operation st a_data b_data = .done st1 → A.Reachable st1
  | operation_raised {st st1 : DSState Sk} {a_data : Int} {b_data : β} {e : Failure} :
      A.Reachable st → A.Operation st a_data b_data = .raised e st1 → A.Reachable st1
  | combine {source target : DSState Sk} {out : CombineArgs Sk} :
      A.Reachable source → A.Reachable target → A.Combine source target = .done out →
      A.Reachable out.target
  | combine_raised {source target : DSState Sk} {out : CombineArgs Sk} {e : Failure} :
      A.Reachable source → A.Reachable target → A.Combine source target = .raised e out →
      A.Reachable out.target
  | finalize {st : DSState Sk} : A.Reachable st → A.Reachable (A.Finalize st).state

/-! ## Calls of `CreateSketch` -/

/-- A call of one of the two `CreateSketch` overloads of a state struct, with
the state it is called on. -/
inductive CreateSketchCall (Sk : Type) where
  /-- The call `state.CreateSketch(a_data)`. -/
  | config (state : DSState Sk) (a_data : Int)
  /-- The call `target.CreateSketch(source)`. -/
  | existing (target source : DSState Sk)
  deriving DecidableEq, Repr

/-- The state on which `CreateSketch` is called. -/
def CreateSketchCall.receiver {Sk : Type} : CreateSketchCall Sk → DSState Sk
  | .config state _ => state
  | .existing target _ => target

/-- A call of an entry point of an operation struct, with its arguments. -/
inductive AggregateCall (Sk β : Type) where
  | Initialize (state : DSState Sk)
  | Operation (state : DSState Sk) (a_data : Int) (b_data : β)
  | Combine (source target : DSState Sk)
  | Finalize (state : DSState Sk)

/-- The calls of `CreateSketch` that an entry point of
`DSQuantilesMergeOperation` makes: `Operation` calls `state.CreateSketch(a_data)`
under `if (!state.sketch)`, `Combine` calls `target.CreateSketch(source)` under
`if (!target.sketch)`, `Initialize` and `Finalize` make none. -/
def DSQuantilesMergeOperation.CreateSketchCalls {Sk β : Type} :
    AggregateCall Sk β → List (CreateSketchCall Sk)
  | .Initialize _ => []
  | .Operation state a_data _ => if state.sketch.isNone then [.config state a_data] else []
  | .Combine source target => if target.sketch.isNone then [.existing target source] else []
  | .Finalize _ => []

/-- The calls of `CreateSketch` that an entry point of
`DSQuantilesCreateOperation` makes. -/
def DSQuantilesCreateOperation.CreateSketchCalls {Sk β : Type} :
    AggregateCall Sk β → List (CreateSketchCall Sk)
  | .Initialize _ => []
  | .Operation state a_data _ => if state.sketch.isNone then [.config state a_data] else []
  | .Combine source target => if target.sketch.isNone then [.existing target source] else []
  | .Finalize _ => []

/-- The calls of `CreateSketch` that an entry point of `DSHLLCreateOperation`
makes. -/
def DSHLLCreateOperation.CreateSketchCalls {Sk β : Type} :
    AggregateCall Sk β → List (CreateSketchCall Sk)
  | .Initialize _ => []
  | .Operation state a_data _ => if state.sketch.isNone then [.config state a_data] else []
  | .Combine source target => if target.sketch.isNone then [.existing target source] else []
  | .Finalize _ => []

/-- The calls of `CreateSketch` that an entry point of `DSHLLMergeOperation`
makes. -/
def DSHLLMergeOperation.CreateSketchCalls {Sk β : Type} :
    AggregateCall Sk β → List (CreateSketchCall Sk)
  | .Initialize _ => []
  | .Operation state a_data _ => if state.sketch.isNone then [.config state a_data] else []
  | .Combine source target => if target.sketch.isNone then [.existing target source] else []
  | .Finalize _ => []

/-- The calls of `CreateSketch` that an entry point of `DSCPCMergeOperation`
makes. -/
def DSCPCMergeOperation.CreateSketchCalls {Sk β : Type} :
    AggregateCall Sk β → List (CreateSketchCall Sk)
  | .Initialize _ => []
  | .Operation state a_data _ => if state.sketch.isNone then [.config state a_data] else []
  | .Combine source target => if target.sketch.isNone then [.existing target source] else []
  | .Finalize _ => []

/-- The calls of `CreateSketch` that an entry point of `DSCPCCreateOperation`
makes. -/
def DSCPCCreateOperation.CreateSketchCalls {Sk β : Type} :
    AggregateCall Sk β → List (CreateSketchCall Sk)
  | .Initialize _ => []
  | .Operation state a_data _ => if state.sketch.isNone then [.config state a_data] else []
  | .Combine source target => if target.sketch.isNone then [.existing target source] else []
  | .Finalize _ => []

/-- The host's loop over the values of one group: `Operation` is called once
for each value, in order, with the same config; a call that does not complete
ends the run with its outcome. -/
def accumulate {σ β : Type} (Operation : σ → Int → β → Outcome σ) (a_data : Int) :
    σ → List β → Outcome σ
  | state, [] => .done state
  | state, b_data :: rest =>
    match Operation state a_data b_data with
    | .done st => accumulate Operation a_data st rest
    | other => other

/-- The implicit conversion from `double` to an integer type made by the store
`child_vals[current_size + i] = cdf_result[i]` when `T` is an integer type: the
fractional part is discarded (truncation toward zero).  The result is given as
the integer it denotes. -/
def double_to_integer (x : ℚ) : Int :=
  if 0 ≤ x then ⌊x⌋ else ⌈x⌉

/-! ## Theorems -/

section Aggregates

variable {SkQ TQ SkH UH TH FH SkC UC TC FC : Type}

/-- On a state without a sketch, `CreateSketch(k)` of a quantile-family state
struct either raises, leaving the state without a sketch, or completes with a
state that holds a sketch. -/
theorem quantile_state_create_none (kind : QKind) (Q : SketchCore SkQ TQ) (dbg : Bool) (k : Int) :
    (∃ e, QKind.CreateSketch kind Q dbg ⟨none⟩ k = .raised e ⟨none⟩)
      ∨ (∃ sk, QKind.CreateSketch kind Q dbg ⟨none⟩ k = .done ⟨some sk⟩) := by
  cases kind <;>
    simp only [QKind.CreateSketch, DSQuantilesState.CreateSketch, DSKLLState.CreateSketch,
      DSREQState.CreateSketch, DSTDigestState.CreateSketch] <;>
    split_ifs <;> first
      | exact Or.inl ⟨_, rfl⟩
      | (split
         · exact Or.inl ⟨_, rfl⟩
         · exact Or.inr ⟨_, rfl⟩)

/-- The same alternative for `DSHLLState::CreateSketch`. -/
theorem hll_state_create_none (H : HLLLib SkH UH TH FH) (dbg : Bool) (k : Int) :
    (∃ e, DSHLLState.CreateSketch H dbg ⟨none⟩ k = .raised e ⟨none⟩)
      ∨ (∃ sk, DSHLLState.CreateSketch H dbg ⟨none⟩ k = .done ⟨some sk⟩) := by
  simp only [DSHLLState.CreateSketch]
  split_ifs <;> first
    | exact Or.inl ⟨_, rfl⟩
    | (split
       · exact Or.inl ⟨_, rfl⟩
       · exact Or.inr ⟨_, rfl⟩)

/-- The same alternative for `DSCPCState::CreateSketch`. -/
theorem cpc_state_create_none (C : CPCLib SkC UC TC FC) (dbg : Bool) (k : Int) :
    (∃ e, DSCPCState.CreateSketch C dbg ⟨none⟩ k = .raised e ⟨none⟩)
      ∨ (∃ sk, DSCPCState.CreateSketch C dbg ⟨none⟩ k = .done ⟨some sk⟩) := by
  simp only [DSCPCState.CreateSketch]
  split_ifs <;> first
    | exact Or.inl ⟨_, rfl⟩
    | (split
       · exact Or.inl ⟨_, rfl⟩
       · exact Or.inr ⟨_, rfl⟩)

/-- C1: for each of the six operation structs, `Finalize` returns NULL exactly
when the state holds no sketch; `Finalize` right after `Initialize` returns
NULL; and on a state holding a sketch the result is the serialized bytes of
that sketch (`serialize`, and `serialize_updatable` for HLL). -/
theorem finalize_null_iff_no_sketch (Q : SketchCore SkQ TQ) (H : HLLLib SkH UH TH FH)
    (C : CPCLib SkC UC TC FC) (stQ : DSState SkQ) (stH : DSState SkH) (stC : DSState SkC)
    (sQ : SkQ) (sH : SkH) (sC : SkC) :
    (((DSQuantilesCreateOperation.Finalize Q stQ).target = none ↔ stQ.sketch = none)
      ∧ (DSQuantilesCreateOperation.Finalize Q
          (DSQuantilesCreateOperation.Initialize stQ)).target = none
      ∧ (DSQuantilesCreateOperation.Finalize Q ⟨some sQ⟩).target = some (Q.serialize sQ))
    ∧ (((DSQuantilesMergeOperation.Finalize Q stQ).target = none ↔ stQ.sketch = none)
      ∧ (DSQuantilesMergeOperation.Finalize Q
          (DSQuantilesMergeOperation.Initialize stQ)).target = none
      ∧ (DSQuantilesMergeOperation.Finalize Q ⟨some sQ⟩).target = some (Q.serialize sQ))
    ∧ (((DSHLLCreateOperation.Finalize H stH).target = none ↔ stH.sketch = none)
      ∧ (DSHLLCreateOperation.Finalize H (DSHLLCreateOperation.Initialize stH)).target = none
      ∧ (DSHLLCreateOperation.Finalize H ⟨some sH⟩).target = some (H.serialize_updatable sH))
    ∧ (((DSHLLMergeOperation.Finalize H stH).target = none ↔ stH.sketch = none)
      ∧ (DSHLLMergeOperation.Finalize H (DSHLLMergeOperation.Initialize stH)).target = none
      ∧ (DSHLLMergeOperation.Finalize H ⟨some sH⟩).target = some (H.serialize_updatable sH))
    ∧ (((DSCPCCreateOperation.Finalize C stC).target = none ↔ stC.sketch = none)
      ∧ (DSCPCCreateOperation.Finalize C (DSCPCCreateOperation.Initialize stC)).target = none
      ∧ (DSCPCCreateOperation.Finalize C ⟨some sC⟩).target = some (C.serialize sC))
    ∧ (((DSCPCMergeOperation.Finalize C stC).target = none ↔ stC.sketch = none)
      ∧ (DSCPCMergeOperation.Finalize C (DSCPCMergeOperation.Initialize stC)).target = none
      ∧ (DSCPCMergeOperation.Finalize C ⟨some sC⟩).target = some (C.serialize sC)) := by
  obtain ⟨q⟩ := stQ
  obtain ⟨h⟩ := stH
  obtain ⟨c⟩ := stC
  refine ⟨⟨?_, rfl, rfl⟩, ⟨?_, rfl, rfl⟩, ⟨?_, rfl, rfl⟩, ⟨?_, rfl, rfl⟩, ⟨?_, rfl, rfl⟩,
    ⟨?_, rfl, rfl⟩⟩
  · cases q <;> simp [DSQuantilesCreateOperation.Finalize]
  · cases q <;> simp [DSQuantilesMergeOperation.Finalize]
  · cases h <;> simp [DSHLLCreateOperation.Finalize]
  · cases h <;> simp [DSHLLMergeOperation.Finalize]
  · cases c <;> simp [DSCPCCreateOperation.Finalize]
  · cases c <;> simp [DSCPCMergeOperation.Finalize]

/-- C2 (evaluation of the code): with a source that holds no sketch, `Combine`
completes and leaves the target unchanged when the target holds no sketch
either; when the target holds a sketch `t`, no operation struct completes:
the two quantile-family structs dereference the null `source.sketch` at
`merge(*source.sketch)`, and the HLL and CPC structs either fail to build the
union or dereference it at `u.update(*source.sketch)`. -/
theorem combine_null_source (Q : SketchCore SkQ TQ) (H : HLLLib SkH UH TH FH)
    (C : CPCLib SkC UC TC FC) (tQ : SkQ) (tH : SkH) (tC : SkC) :
    (DSQuantilesCreateOperation.Combine Q ⟨none⟩ ⟨none⟩ = .done ⟨⟨none⟩, ⟨none⟩⟩
      ∧ DSQuantilesMergeOperation.Combine Q ⟨none⟩ ⟨none⟩ = .done ⟨⟨none⟩, ⟨none⟩⟩
      ∧ DSHLLCreateOperation.Combine H ⟨none⟩ ⟨none⟩ = .done ⟨⟨none⟩, ⟨none⟩⟩
      ∧ DSHLLMergeOperation.Combine H ⟨none⟩ ⟨none⟩ = .done ⟨⟨none⟩, ⟨none⟩⟩
      ∧ DSCPCCreateOperation.Combine C ⟨none⟩ ⟨none⟩ = .done ⟨⟨none⟩, ⟨none⟩⟩
      ∧ DSCPCMergeOperation.Combine C ⟨none⟩ ⟨none⟩ = .done ⟨⟨none⟩, ⟨none⟩⟩)
    ∧ (DSQuantilesCreateOperation.Combine Q ⟨none⟩ ⟨some tQ⟩ = .crashed
      ∧ DSQuantilesMergeOperation.Combine Q ⟨none⟩ ⟨some tQ⟩ = .crashed
      ∧ (DSHLLCreateOperation.Combine H ⟨none⟩ ⟨some tH⟩).result? = none
      ∧ (DSHLLMergeOperation.Combine H ⟨none⟩ ⟨some tH⟩).result? = none
      ∧ (DSCPCCreateOperation.Combine C ⟨none⟩ ⟨some tC⟩).result? = none
      ∧ (DSCPCMergeOperation.Combine C ⟨none⟩ ⟨some tC⟩).result? = none) := by
  refine ⟨⟨rfl, rfl, rfl, rfl, rfl, rfl⟩, rfl, rfl, ?_, ?_, ?_, ?_⟩
  · simp only [DSHLLCreateOperation.Combine]
    cases H.union_ctor (H.get_lg_config_k tH) <;> rfl
  · simp only [DSHLLMergeOperation.Combine]
    cases H.union_ctor (H.get_lg_config_k tH) <;> rfl
  · simp only [DSCPCCreateOperation.Combine]
    cases C.union_ctor (C.get_lg_k tC) <;> rfl
  · simp only [DSCPCMergeOperation.Combine]
    cases C.union_ctor (C.get_lg_k tC) <;> rfl

/-- C3: for each operation struct, `Combine` into a target that holds no
sketch, from a source holding `s`, completes with the target holding `s` and
the source still holding `s`; and whatever the two states are, the source
state carried by the outcome of `Combine` is the source it was given. -/
theorem combine_adopts_copy (Q : SketchCore SkQ TQ) (H : HLLLib SkH UH TH FH)
    (C : CPCLib SkC UC TC FC) (sQ : SkQ) (sH : SkH) (sC : SkC)
    (srcQ tgtQ : DSState SkQ) (srcH tgtH : DSState SkH) (srcC tgtC : DSState SkC) :
    (DSQuantilesCreateOperation.Combine Q ⟨some sQ⟩ ⟨none⟩ = .done ⟨⟨some sQ⟩, ⟨some sQ⟩⟩
      ∧ DSQuantilesMergeOperation.Combine Q ⟨some sQ⟩ ⟨none⟩ = .done ⟨⟨some sQ⟩, ⟨some sQ⟩⟩
      ∧ DSHLLCreateOperation.Combine H ⟨some sH⟩ ⟨none⟩ = .done ⟨⟨some sH⟩, ⟨some sH⟩⟩
      ∧ DSHLLMergeOperation.Combine H ⟨some sH⟩ ⟨none⟩ = .done ⟨⟨some sH⟩, ⟨some sH⟩⟩
      ∧ DSCPCCreateOperation.Combine C ⟨some sC⟩ ⟨none⟩ = .done ⟨⟨some sC⟩, ⟨some sC⟩⟩
      ∧ DSCPCMergeOperation.Combine C ⟨some sC⟩ ⟨none⟩ = .done ⟨⟨some sC⟩, ⟨some sC⟩⟩)
    ∧ ((DSQuantilesCreateOperation.Combine Q srcQ tgtQ).Holds (fun r => r.source = srcQ)
      ∧ (DSQuantilesMergeOperation.Combine Q srcQ tgtQ).Holds (fun r => r.source = srcQ)
      ∧ (DSHLLCreateOperation.Combine H srcH tgtH).Holds (fun r => r.source = srcH)
      ∧ (DSHLLMergeOperation.Combine H srcH tgtH).Holds (fun r => r.source = srcH)
      ∧ (DSCPCCreateOperation.Combine C srcC tgtC).Holds (fun r => r.source = srcC)
      ∧ (DSCPCMergeOperation.Combine C srcC tgtC).Holds (fun r => r.source = srcC)) := by
  obtain ⟨a⟩ := srcQ
  obtain ⟨b⟩ := tgtQ
  obtain ⟨c⟩ := srcH
  obtain ⟨d⟩ := tgtH
  obtain ⟨e⟩ := srcC
  obtain ⟨f⟩ := tgtC
  refine ⟨⟨rfl, rfl, rfl, rfl, rfl, rfl⟩, ?_, ?_, ?_, ?_, ?_, ?_⟩
  · cases a <;> cases b <;> simp [DSQuantilesCreateOperation.Combine, Outcome.Holds]
  · cases a <;> cases b <;> simp [DSQuantilesMergeOperation.Combine, Outcome.Holds]
  · cases c <;> cases d <;> simp only [DSHLLCreateOperation.Combine, Outcome.Holds] <;>
      cases H.union_ctor (H.get_lg_config_k _) <;> simp [Outcome.Holds]
  · cases c <;> cases d <;> simp only [DSHLLMergeOperation.Combine, Outcome.Holds] <;>
      cases H.union_ctor (H.get_lg_config_k _) <;> simp [Outcome.Holds]
  · cases e <;> cases f <;> simp only [DSCPCCreateOperation.Combine, Outcome.Holds] <;>
      cases C.union_ctor (C.get_lg_k _) <;> simp [Outcome.Holds]
  · cases e <;> cases f <;> simp only [DSCPCMergeOperation.Combine, Outcome.Holds] <;>
      cases C.union_ctor (C.get_lg_k _) <;> simp [Outcome.Holds]

/-- C4: `Finalize` is consuming.  For each operation struct and each state
holding a sketch `s`, the state left by `Finalize` holds no sketch, and a
second `Finalize` on it returns NULL and leaves the state without a sketch
(it takes the `ReturnNull` branch: nothing is serialized or deleted). -/
theorem finalize_consumes (Q : SketchCore SkQ TQ) (H : HLLLib SkH UH TH FH)
    (C : CPCLib SkC UC TC FC) (sQ : SkQ) (sH : SkH) (sC : SkC) :
    ((DSQuantilesCreateOperation.Finalize Q ⟨some sQ⟩).state = ⟨none⟩
      ∧ DSQuantilesCreateOperation.Finalize Q
          (DSQuantilesCreateOperation.Finalize Q ⟨some sQ⟩).state = ⟨⟨none⟩, none⟩)
    ∧ ((DSQuantilesMergeOperation.Finalize Q ⟨some sQ⟩).state = ⟨none⟩
      ∧ DSQuantilesMergeOperation.Finalize Q
          (DSQuantilesMergeOperation.Finalize Q ⟨some sQ⟩).state = ⟨⟨none⟩, none⟩)
    ∧ ((DSHLLCreateOperation.Finalize H ⟨some sH⟩).state = ⟨none⟩
      ∧ DSHLLCreateOperation.Finalize H
          (DSHLLCreateOperation.Finalize H ⟨some sH⟩).state = ⟨⟨none⟩, none⟩)
    ∧ ((DSHLLMergeOperation.Finalize H ⟨some sH⟩).state = ⟨none⟩
      ∧ DSHLLMergeOperation.Finalize H
          (DSHLLMergeOperation.Finalize H ⟨some sH⟩).state = ⟨⟨none⟩, none⟩)
    ∧ ((DSCPCCreateOperation.Finalize C ⟨some sC⟩).state = ⟨none⟩
      ∧ DSCPCCreateOperation.Finalize C
          (DSCPCCreateOperation.Finalize C ⟨some sC⟩).state = ⟨⟨none⟩, none⟩)
    ∧ ((DSCPCMergeOperation.Finalize C ⟨some sC⟩).state = ⟨none⟩
      ∧ DSCPCMergeOperation.Finalize C
          (DSCPCMergeOperation.Finalize C ⟨some sC⟩).state = ⟨⟨none⟩, none⟩) :=
  ⟨⟨rfl, rfl⟩, ⟨rfl, rfl⟩, ⟨rfl, rfl⟩, ⟨rfl, rfl⟩, ⟨rfl, rfl⟩, ⟨rfl, rfl⟩⟩

/-- C5: accumulation is first-wins on the config.  For each create operation
(the quantile-family one with any of its four state structs), on a state that
holds a sketch `s` the step with config `k1` and the step with config `k2`
leave the same state, namely `s` updated with the value; and on a state
without a sketch the config `k` is used by `CreateSketch` only: the step is
`CreateSketch(k)` followed by the step on the created state, under any other
config `k2`. -/
theorem create_operation_first_wins (kind : QKind) (Q : SketchCore SkQ TQ)
    (H : HLLLib SkH UH TH FH) (C : CPCLib SkC UC TC FC) (dbg : Bool)
    (sQ : SkQ) (sH : SkH) (sC : SkC) (k k1 k2 : Int)
    (vQ : TQ) (vH : Value TH) (vC : Value TC) :
    (DSQuantilesCreateOperation.Operation kind Q dbg ⟨some sQ⟩ k1 vQ
        = DSQuantilesCreateOperation.Operation kind Q dbg ⟨some sQ⟩ k2 vQ
      ∧ DSQuantilesCreateOperation.Operation kind Q dbg ⟨some sQ⟩ k1 vQ
        = .done ⟨some (Q.update sQ vQ)⟩
      ∧ DSQuantilesCreateOperation.Operation kind Q dbg ⟨none⟩ k vQ
        = (match QKind.CreateSketch kind Q dbg ⟨none⟩ k with
          | .done st => DSQuantilesCreateOperation.Operation kind Q dbg st k2 vQ
          | other => other))
    ∧ (DSHLLCreateOperation.Operation H dbg ⟨some sH⟩ k1 vH
        = DSHLLCreateOperation.Operation H dbg ⟨some sH⟩ k2 vH
      ∧ DSHLLCreateOperation.Operation H dbg ⟨none⟩ k vH
        = (match DSHLLState.CreateSketch H dbg ⟨none⟩ k with
          | .done st => DSHLLCreateOperation.Operation H dbg st k2 vH
          | other => other))
    ∧ (DSCPCCreateOperation.Operation C dbg ⟨some sC⟩ k1 vC
        = DSCPCCreateOperation.Operation C dbg ⟨some sC⟩ k2 vC
      ∧ DSCPCCreateOperation.Operation C dbg ⟨none⟩ k vC
        = (match DSCPCState.CreateSketch C dbg ⟨none⟩ k with
          | .done st => DSCPCCreateOperation.Operation C dbg st k2 vC
          | other => other)) := by
  refine ⟨⟨rfl, rfl, ?_⟩, ⟨rfl, ?_⟩, ⟨rfl, ?_⟩⟩
  · simp only [DSQuantilesCreateOperation.Operation, Option.isNone_none, if_true]
    rcases quantile_state_create_none kind Q dbg k with ⟨e, h⟩ | ⟨sk, h⟩
    · rw [h]
    · rw [h]
      rfl
  · simp only [DSHLLCreateOperation.Operation, Option.isNone_none, if_true]
    rcases hll_state_create_none H dbg k with ⟨e, h⟩ | ⟨sk, h⟩
    · rw [h]
    · rw [h]
      rfl
  · simp only [DSCPCCreateOperation.Operation, Option.isNone_none, if_true]
    rcases cpc_state_create_none C dbg k with ⟨e, h⟩ | ⟨sk, h⟩
    · rw [h]
    · rw [h]
      rfl

/-- C6 (counterexample): with the reference HLL and CPC classes, a state that
holds a sketch of `lg_k = 12` and a serialized sketch of `lg_k = 12`, the merge
step under config `12` leaves a sketch of `lg_k = 12` and the merge step under
config `8` leaves one of `lg_k = 8`: the config is not first-wins. -/
theorem merge_operation_config_matters :
    (DSHLLMergeOperation.Operation Ref.hll false ⟨some ⟨12, .HLL_4, [1, 2]⟩⟩ 12 [1, 12, 0, 3]
        = .done ⟨some ⟨12, .HLL_4, [1, 2, 3]⟩⟩
      ∧ DSHLLMergeOperation.Operation Ref.hll false ⟨some ⟨12, .HLL_4, [1, 2]⟩⟩ 8 [1, 12, 0, 3]
        = .done ⟨some ⟨8, .HLL_4, [1, 2, 3]⟩⟩
      ∧ DSHLLMergeOperation.Operation Ref.hll false ⟨some ⟨12, .HLL_4, [1, 2]⟩⟩ 12 [1, 12, 0, 3]
        ≠ DSHLLMergeOperation.Operation Ref.hll false ⟨some ⟨12, .HLL_4, [1, 2]⟩⟩ 8 [1, 12, 0, 3])
    ∧ (DSCPCMergeOperation.Operation Ref.cpc false ⟨some ⟨12, [1, 2]⟩⟩ 12 [12, 3]
        = .done ⟨some ⟨12, [1, 2, 3]⟩⟩
      ∧ DSCPCMergeOperation.Operation Ref.cpc false ⟨some ⟨12, [1, 2]⟩⟩ 8 [12, 3]
        = .done ⟨some ⟨8, [1, 2, 3]⟩⟩
      ∧ DSCPCMergeOperation.Operation Ref.cpc false ⟨some ⟨12, [1, 2]⟩⟩ 12 [12, 3]
        ≠ DSCPCMergeOperation.Operation Ref.cpc false ⟨some ⟨12, [1, 2]⟩⟩ 8 [12, 3]) := by
  decide

/-- C6 (amended): on a state that already holds a sketch, the quantile-family
merge operation (with any of its four state structs) is first-wins on the
config: the steps under `k1` and under `k2` leave the same state.  The HLL and
CPC merge operations construct the union accumulator from the config on every
call; their steps under `k1` and `k2` leave the same state whenever the
accumulators constructed from `k1` and from `k2` are the same. -/
theorem merge_operation_first_wins_amended (kind : QKind) (Q : SketchCore SkQ TQ)
    (H : HLLLib SkH UH TH FH) (C : CPCLib SkC UC TC FC) (dbg : Bool)
    (sQ : SkQ) (sH : SkH) (sC : SkC) (k1 k2 : Int) (b : Blob) :
    DSQuantilesMergeOperation.Operation kind Q dbg ⟨some sQ⟩ k1 b
        = DSQuantilesMergeOperation.Operation kind Q dbg ⟨some sQ⟩ k2 b
    ∧ (H.union_ctor k1 = H.union_ctor k2 →
        DSHLLMergeOperation.Operation H dbg ⟨some sH⟩ k1 b
          = DSHLLMergeOperation.Operation H dbg ⟨some sH⟩ k2 b)
    ∧ (C.union_ctor k1 = C.union_ctor k2 →
        DSCPCMergeOperation.Operation C dbg ⟨some sC⟩ k1 b
          = DSCPCMergeOperation.Operation C dbg ⟨some sC⟩ k2 b) := by
  refine ⟨rfl, ?_, ?_⟩
  · intro h
    simp only [DSHLLMergeOperation.Operation, h]
    rfl
  · intro h
    simp only [DSCPCMergeOperation.Operation, h]
    rfl

/-- Witness for the amended C6: the reference unions receive their size as a
`uint8_t`, so the configs `12` and `268` construct the same accumulator and
the two merge steps leave the same state. -/
theorem merge_operation_first_wins_amended_witness :
    DSHLLMergeOperation.Operation Ref.hll false ⟨some ⟨12, .HLL_4, [1, 2]⟩⟩ 12 [1, 12, 0, 3]
        = DSHLLMergeOperation.Operation Ref.hll false ⟨some ⟨12, .HLL_4, [1, 2]⟩⟩ 268 [1, 12, 0, 3]
    ∧ DSCPCMergeOperation.Operation Ref.cpc false ⟨some ⟨12, [1, 2]⟩⟩ 12 [12, 3]
        = DSCPCMergeOperation.Operation Ref.cpc false ⟨some ⟨12, [1, 2]⟩⟩ 268 [12, 3] :=
  have h := merge_operation_first_wins_amended QKind.Quantiles Ref.core Ref.hll Ref.cpc false
    ⟨128, [1]⟩ ⟨12, .HLL_4, [1, 2]⟩ ⟨12, [1, 2]⟩ 12 268
  ⟨(h [1, 12, 0, 3]).2.1 (by decide), (h [12, 3]).2.2 (by decide)⟩

/-- C7 (evaluation of the code): take a state `a` without a sketch and a state
`b` holding `s`.  Combining `b` into `a` completes and leaves `a` holding `s`;
combining `a` into `b` does not complete, for any of the six operation
structs (the quantile-family ones dereference the null `source.sketch`). -/
theorem combine_not_symmetric (Q : SketchCore SkQ TQ) (H : HLLLib SkH UH TH FH)
    (C : CPCLib SkC UC TC FC) (sQ : SkQ) (sH : SkH) (sC : SkC) :
    ((DSQuantilesCreateOperation.Combine Q ⟨some sQ⟩ ⟨none⟩).result?
        = some ⟨⟨some sQ⟩, ⟨some sQ⟩⟩
      ∧ DSQuantilesCreateOperation.Combine Q ⟨none⟩ ⟨some sQ⟩ = .crashed)
    ∧ ((DSQuantilesMergeOperation.Combine Q ⟨some sQ⟩ ⟨none⟩).result?
        = some ⟨⟨some sQ⟩, ⟨some sQ⟩⟩
      ∧ DSQuantilesMergeOperation.Combine Q ⟨none⟩ ⟨some sQ⟩ = .crashed)
    ∧ ((DSHLLCreateOperation.Combine H ⟨some sH⟩ ⟨none⟩).result?
        = some ⟨⟨some sH⟩, ⟨some sH⟩⟩
      ∧ (DSHLLCreateOperation.Combine H ⟨none⟩ ⟨some sH⟩).result? = none)
    ∧ ((DSHLLMergeOperation.Combine H ⟨some sH⟩ ⟨none⟩).result?
        = some ⟨⟨some sH⟩, ⟨some sH⟩⟩
      ∧ (DSHLLMergeOperation.Combine H ⟨none⟩ ⟨some sH⟩).result? = none)
    ∧ ((DSCPCCreateOperation.Combine C ⟨some sC⟩ ⟨none⟩).result?
        = some ⟨⟨some sC⟩, ⟨some sC⟩⟩
      ∧ (DSCPCCreateOperation.Combine C ⟨none⟩ ⟨some sC⟩).result? = none)
    ∧ ((DSCPCMergeOperation.Combine C ⟨some sC⟩ ⟨none⟩).result?
        = some ⟨⟨some sC⟩, ⟨some sC⟩⟩
      ∧ (DSCPCMergeOperation.Combine C ⟨none⟩ ⟨some sC⟩).result? = none) := by
  refine ⟨⟨rfl, rfl⟩, ⟨rfl, rfl⟩, ⟨rfl, ?_⟩, ⟨rfl, ?_⟩, ⟨rfl, ?_⟩, ⟨rfl, ?_⟩⟩
  · simp only [DSHLLCreateOperation.Combine]
    cases H.union_ctor (H.get_lg_config_k sH) <;> rfl
  · simp only [DSHLLMergeOperation.Combine]
    cases H.union_ctor (H.get_lg_config_k sH) <;> rfl
  · simp only [DSCPCCreateOperation.Combine]
    cases C.union_ctor (C.get_lg_k sC) <;> rfl
  · simp only [DSCPCMergeOperation.Combine]
    cases C.union_ctor (C.get_lg_k sC) <;> rfl

/-- C8 (evaluation of the code): take `a` and `c` without a sketch and `b`
holding `s`.  Neither fold of the three states completes for the
quantile-family operation structs, whether `Combine(x, y)` is read as
(source, target), as in the code, or as (target, source): each fold contains
a `Combine` whose source holds no sketch and whose target holds one. -/
theorem combine_folds_fail (Q : SketchCore SkQ TQ) (s : SkQ) :
    (((DSQuantilesCreateOperation.Combine Q ⟨none⟩ ⟨some s⟩).result?.bind
          (fun ab => (DSQuantilesCreateOperation.Combine Q ab.target ⟨none⟩).result?) = none
      ∧ (DSQuantilesCreateOperation.Combine Q ⟨some s⟩ ⟨none⟩).result?.bind
          (fun bc => (DSQuantilesCreateOperation.Combine Q ⟨none⟩ bc.target).result?) = none)
    ∧ ((DSQuantilesCreateOperation.Combine Q ⟨some s⟩ ⟨none⟩).result?.bind
          (fun ab => (DSQuantilesCreateOperation.Combine Q ⟨none⟩ ab.target).result?) = none
      ∧ (DSQuantilesCreateOperation.Combine Q ⟨none⟩ ⟨some s⟩).result?.bind
          (fun bc => (DSQuantilesCreateOperation.Combine Q bc.target ⟨none⟩).result?) = none))
    ∧ (((DSQuantilesMergeOperation.Combine Q ⟨none⟩ ⟨some s⟩).result?.bind
          (fun ab => (DSQuantilesMergeOperation.Combine Q ab.target ⟨none⟩).result?) = none
      ∧ (DSQuantilesMergeOperation.Combine Q ⟨some s⟩ ⟨none⟩).result?.bind
          (fun bc => (DSQuantilesMergeOperation.Combine Q ⟨none⟩ bc.target).result?) = none)
    ∧ ((DSQuantilesMergeOperation.Combine Q ⟨some s⟩ ⟨none⟩).result?.bind
          (fun ab => (DSQuantilesMergeOperation.Combine Q ⟨none⟩ ab.target).result?) = none
      ∧ (DSQuantilesMergeOperation.Combine Q ⟨none⟩ ⟨some s⟩).result?.bind
          (fun bc => (DSQuantilesMergeOperation.Combine Q bc.target ⟨none⟩).result?) = none)) :=
  ⟨⟨⟨rfl, rfl⟩, ⟨rfl, rfl⟩⟩, ⟨⟨rfl, rfl⟩, ⟨rfl, rfl⟩⟩⟩

end Aggregates

section Counts

variable {Sk T F : Type}

/-- C9 (evaluation of the code): for the quantile-family operation structs,
given that the library merge adds `n`: whenever `Combine` completes, the
source is as before, the `n` of the target is `n(source) + n(target)` (a state
without a sketch counting as `0`) and so has not decreased; `Combine` never
raises; and it dereferences a null pointer exactly when the source holds no
sketch while the target holds one, where the claim asks for
`n(target)` unchanged. -/
theorem combine_adds_n (L : QuantilesLib Sk T F)
    (hmerge : ∀ a b, L.get_n (L.merge a b) = L.get_n a + L.get_n b)
    (source target : DSState Sk) :
    (match DSQuantilesCreateOperation.Combine L.toSketchCore source target with
      | .done r => r.source = source
          ∧ stateN L r.target = stateN L source + stateN L target
          ∧ stateN L target ≤ stateN L r.target
      | .raised _ _ => False
      | .crashed => source.sketch = none ∧ target.sketch.isSome = true)
    ∧ (match DSQuantilesMergeOperation.Combine L.toSketchCore source target with
      | .done r => r.source = source
          ∧ stateN L r.target = stateN L source + stateN L target
          ∧ stateN L target ≤ stateN L r.target
      | .raised _ _ => False
      | .crashed => source.sketch = none ∧ target.sketch.isSome = true)
    ∧ (∀ t, DSQuantilesCreateOperation.Combine L.toSketchCore ⟨none⟩ ⟨some t⟩ = .crashed
        ∧ DSQuantilesMergeOperation.Combine L.toSketchCore ⟨none⟩ ⟨some t⟩ = .crashed) := by
  obtain ⟨a⟩ := source
  obtain ⟨b⟩ := target
  refine ⟨?_, ?_, fun t => ⟨rfl, rfl⟩⟩
  · cases a <;> cases b <;>
      simp [DSQuantilesCreateOperation.Combine, DSState.CreateSketchFrom, stateN, hmerge,
        Nat.add_comm]
  · cases a <;> cases b <;>
      simp [DSQuantilesMergeOperation.Combine, DSState.CreateSketchFrom, stateN, hmerge,
        Nat.add_comm]

/-- The reference merge adds `n`. -/
theorem Ref.quantiles_merge_n (a b : Ref.QSketch) :
    Ref.quantiles.get_n (Ref.quantiles.merge a b)
      = Ref.quantiles.get_n a + Ref.quantiles.get_n b := by
  simp [Ref.quantiles, Ref.core]

/-- Witness for C9: two reference REQ sketches created with `k = 50` and
`k = 200`, holding two and one items. -/
theorem combine_adds_n_witness :
    (match DSQuantilesCreateOperation.Combine Ref.quantiles.toSketchCore
        ⟨some ⟨50, [1, 2]⟩⟩ ⟨some ⟨200, [3]⟩⟩ with
      | .done r => r.source = ⟨some ⟨50, [1, 2]⟩⟩
          ∧ stateN Ref.quantiles r.target
            = stateN Ref.quantiles ⟨some ⟨50, [1, 2]⟩⟩ + stateN Ref.quantiles ⟨some ⟨200, [3]⟩⟩
          ∧ stateN Ref.quantiles ⟨some ⟨200, [3]⟩⟩ ≤ stateN Ref.quantiles r.target
      | .raised _ _ => False
      | .crashed => (⟨some ⟨50, [1, 2]⟩⟩ : DSState Ref.QSketch).sketch = none
          ∧ (⟨some ⟨200, [3]⟩⟩ : DSState Ref.QSketch).sketch.isSome = true) :=
  (combine_adds_n Ref.quantiles Ref.quantiles_merge_n ⟨some ⟨50, [1, 2]⟩⟩ ⟨some ⟨200, [3]⟩⟩).1

end Counts

section RoundTrip

variable {SkQ TQ FQ SkK TK FK SkR TR FR SkT TT FT SkH UH TH FH SkC UC TC FC : Type}

/-- A query row on a blob that deserializes to `s` is the query on `s`. -/
theorem queryRow_of_deserialize {Sk α : Type} (deserialize : Blob → Option Sk)
    (f : Sk → Option α) (blob : Blob) (s : Sk) (h : deserialize blob = some s) :
    queryRow deserialize f blob = f s := by
  simp [queryRow, h]

/-- C10: round trip through `Finalize`.  Given that `deserialize` inverts the
serialization used by `Finalize` (`serialize`; `serialize_updatable` for HLL),
for each kind and each state holding a sketch `s`, `Finalize` (of the create
and of the merge operation alike) yields a blob, and every query function of
the kind applied to that blob returns the answer of the library query on `s`
(for `cdf` and `pmf`: the library values for the row's split points, stored in
the result list by the function). -/
theorem finalize_round_trip
    (LQ : QuantilesLib SkQ TQ FQ) (LK : QuantilesLib SkK TK FK) (LR : QuantilesLib SkR TR FR)
    (LT : TDigestLib SkT TT FT) (H : HLLLib SkH UH TH FH) (C : CPCLib SkC UC TC FC)
    (hQ : ∀ s, LQ.deserialize (LQ.serialize s) = some s)
    (hK : ∀ s, LK.deserialize (LK.serialize s) = some s)
    (hR : ∀ s, LR.deserialize (LR.serialize s) = some s)
    (hT : ∀ s, LT.deserialize (LT.serialize s) = some s)
    (hH : ∀ s, H.deserialize (H.serialize_updatable s) = some s)
    (hC : ∀ s, C.deserialize (C.serialize s) = some s)
    (convQ : FQ → TQ) (convK : FK → TK) (convR : FR → TR) (convT : FT → TT)
    (sQ : SkQ) (sK : SkK) (sR : SkR) (sT : SkT) (sH : SkH) (sC : SkC) :
    (∃ blob, (DSQuantilesCreateOperation.Finalize LQ.toSketchCore ⟨some sQ⟩).target = some blob
      ∧ (DSQuantilesMergeOperation.Finalize LQ.toSketchCore ⟨some sQ⟩).target = some blob
      ∧ DSQuantilesis_empty LQ blob = some (LQ.is_empty sQ)
      ∧ DSQuantilesk LQ blob = some (LQ.get_k sQ)
      ∧ (∀ ch res e incl, DSQuantilescdf LQ convQ ch res blob e incl
          = (passing_points ch e).bind (fun pts =>
              (LQ.get_CDF sQ pts incl).map (appendListRow convQ res)))
      ∧ (∀ ch res e incl, DSQuantilespmf LQ ch res blob e incl
          = (passing_points ch e).bind (fun pts =>
              (LQ.get_PMF sQ pts incl).map (appendListRow id res)))
      ∧ (∀ p, DSQuantilesnormalized_rank_error LQ blob p
          = some (LQ.get_normalized_rank_error sQ p))
      ∧ (∀ a b, DSQuantilesdescribe LQ blob a b = some (LQ.to_string sQ a b))
      ∧ (∀ v incl, DSQuantilesrank LQ blob v incl = LQ.get_rank sQ v incl)
      ∧ (∀ r incl, DSQuantilesquantile LQ blob r incl = LQ.get_quantile sQ r incl)
      ∧ DSQuantilesn LQ blob = some (LQ.get_n sQ)
      ∧ DSQuantilesis_estimation_mode LQ blob = some (LQ.is_estimation_mode sQ)
      ∧ DSQuantilesnum_retained LQ blob = some (LQ.get_num_retained sQ)
      ∧ DSQuantilesmin_item LQ blob = LQ.get_min_item sQ
      ∧ DSQuantilesmax_item LQ blob = LQ.get_max_item sQ)
    ∧ (∃ blob, (DSQuantilesCreateOperation.Finalize LK.toSketchCore ⟨some sK⟩).target = some blob
      ∧ (DSQuantilesMergeOperation.Finalize LK.toSketchCore ⟨some sK⟩).target = some blob
      ∧ DSKLLis_empty LK blob = some (LK.is_empty sK)
      ∧ DSKLLk LK blob = some (LK.get_k sK)
      ∧ (∀ ch res e incl, DSKLLcdf LK convK ch res blob e incl
          = (passing_points ch e).bind (fun pts =>
              (LK.get_CDF sK pts incl).map (appendListRow convK res)))
      ∧ (∀ ch res e incl, DSKLLpmf LK ch res blob e incl
          = (passing_points ch e).bind (fun pts =>
              (LK.get_PMF sK pts incl).map (appendListRow id res)))
      ∧ (∀ p, DSKLLnormalized_rank_error LK blob p
          = some (LK.get_normalized_rank_error sK p))
      ∧ (∀ a b, DSKLLdescribe LK blob a b = some (LK.to_string sK a b))
      ∧ (∀ v incl, DSKLLrank LK blob v incl = LK.get_rank sK v incl)
      ∧ (∀ r incl, DSKLLquantile LK blob r incl = LK.get_quantile sK r incl)
      ∧ DSKLLn LK blob = some (LK.get_n sK)
      ∧ DSKLLis_estimation_mode LK blob = some (LK.is_estimation_mode sK)
      ∧ DSKLLnum_retained LK blob = some (LK.get_num_retained sK)
      ∧ DSKLLmin_item LK blob = LK.get_min_item sK
      ∧ DSKLLmax_item LK blob = LK.get_max_item sK)
    ∧ (∃ blob, (DSQuantilesCreateOperation.Finalize LR.toSketchCore ⟨some sR⟩).target = some blob
      ∧ (DSQuantilesMergeOperation.Finalize LR.toSketchCore ⟨some sR⟩).target = some blob
      ∧ DSREQis_empty LR blob = some (LR.is_empty sR)
      ∧ DSREQk LR blob = some (LR.get_k sR)
      ∧ (∀ ch res e incl, DSREQcdf LR convR ch res blob e incl
          = (passing_points ch e).bind (fun pts =>
              (LR.get_CDF sR pts incl).map (appendListRow convR res)))
      ∧ (∀ ch res e incl, DSREQpmf LR ch res blob e incl
          = (passing_points ch e).bind (fun pts =>
              (LR.get_PMF sR pts incl).map (appendListRow id res)))
      ∧ (∀ a b, DSREQdescribe LR blob a b = some (LR.to_string sR a b))
      ∧ (∀ v incl, DSREQrank LR blob v incl = LR.get_rank sR v incl)
      ∧ (∀ r incl, DSREQquantile LR blob r incl = LR.get_quantile sR r incl)
      ∧ DSREQn LR blob = some (LR.get_n sR)
      ∧ DSREQis_estimation_mode LR blob = some (LR.is_estimation_mode sR)
      ∧ DSREQnum_retained LR blob = some (LR.get_num_retained sR)
      ∧ DSREQmin_item LR blob = LR.get_min_item sR
      ∧ DSREQmax_item LR blob = LR.get_max_item sR)
    ∧ (∃ blob, (DSQuantilesCreateOperation.Finalize LT.toSketchCore ⟨some sT⟩).target = some blob
      ∧ (DSQuantilesMergeOperation.Finalize LT.toSketchCore ⟨some sT⟩).target = some blob
      ∧ DSTDigestis_empty LT blob = some (LT.is_empty sT)
      ∧ DSTDigestk LT blob = some (LT.get_k sT)
      ∧ (∀ ch res e, DSTDigestcdf LT convT ch res blob e
          = (passing_points ch e).bind (fun pts =>
              (LT.get_CDF sT pts).map (appendListRow convT res)))
      ∧ (∀ ch res e, DSTDigestpmf LT ch res blob e
          = (passing_points ch e).bind (fun pts =>
              (LT.get_PMF sT pts).map (appendListRow id res)))
      ∧ (∀ a, DSTDigestdescribe LT blob a = some (LT.to_string sT a))
      ∧ (∀ v, DSTDigestrank LT blob v = LT.get_rank sT v)
      ∧ DSTDigesttotal_weight LT blob = some (LT.get_total_weight sT)
      ∧ (∀ r, DSTDigestquantile LT blob r = LT.get_quantile sT r))
    ∧ (∃ blob, (DSHLLCreateOperation.Finalize H ⟨some sH⟩).target = some blob
      ∧ (DSHLLMergeOperation.Finalize H ⟨some sH⟩).target = some blob
      ∧ DSHLLis_empty H blob = some (H.is_empty sH)
      ∧ (∀ a b, DSHLLdescribe H blob a b = some (H.to_string sH a b false false))
      ∧ DSHLLlg_config_k H blob = some (H.get_lg_config_k sH)
      ∧ DSHLLis_compact H blob = some (H.is_compact sH)
      ∧ DSHLLestimate H blob = some (H.get_estimate sH)
      ∧ (∀ n, DSHLLlower_bound H blob n = some (H.get_lower_bound sH n))
      ∧ (∀ n, DSHLLupper_bound H blob n = some (H.get_upper_bound sH n)))
    ∧ (∃ blob, (DSCPCCreateOperation.Finalize C ⟨some sC⟩).target = some blob
      ∧ (DSCPCMergeOperation.Finalize C ⟨some sC⟩).target = some blob
      ∧ DSCPCis_empty C blob = some (C.is_empty sC)
      ∧ DSCPCdescribe C blob = some (C.to_string sC)
      ∧ DSCPCestimate C blob = some (C.get_estimate sC)
      ∧ (∀ n, DSCPClower_bound C blob n = some (C.get_lower_bound sC n))
      ∧ (∀ n, DSCPCupper_bound C blob n = some (C.get_upper_bound sC n))) := by
  refine ⟨⟨_, rfl, rfl, ?_⟩, ⟨_, rfl, rfl, ?_⟩, ⟨_, rfl, rfl, ?_⟩, ⟨_, rfl, rfl, ?_⟩,
    ⟨_, rfl, rfl, ?_⟩, ⟨_, rfl, rfl, ?_⟩⟩
  · simp [DSQuantilesis_empty, DSQuantilesk, DSQuantilescdf, DSQuantilespmf,
      DSQuantilesnormalized_rank_error, DSQuantilesdescribe, DSQuantilesrank,
      DSQuantilesquantile, DSQuantilesn, DSQuantilesis_estimation_mode,
      DSQuantilesnum_retained, DSQuantilesmin_item, DSQuantilesmax_item,
      queryRow_of_deserialize _ _ _ _ (hQ sQ)]
  · simp [DSKLLis_empty, DSKLLk, DSKLLcdf, DSKLLpmf, DSKLLnormalized_rank_error,
      DSKLLdescribe, DSKLLrank, DSKLLquantile, DSKLLn, DSKLLis_estimation_mode,
      DSKLLnum_retained, DSKLLmin_item, DSKLLmax_item,
      queryRow_of_deserialize _ _ _ _ (hK sK)]
  · simp [DSREQis_empty, DSREQk, DSREQcdf, DSREQpmf, DSREQdescribe, DSREQrank,
      DSREQquantile, DSREQn, DSREQis_estimation_mode, DSREQnum_retained, DSREQmin_item,
      DSREQmax_item, queryRow_of_deserialize _ _ _ _ (hR sR)]
  · simp [DSTDigestis_empty, DSTDigestk, DSTDigestcdf, DSTDigestpmf, DSTDigestdescribe,
      DSTDigestrank, DSTDigesttotal_weight, DSTDigestquantile,
      queryRow_of_deserialize _ _ _ _ (hT sT)]
  · simp [DSHLLis_empty, DSHLLdescribe, DSHLLlg_config_k, DSHLLis_compact, DSHLLestimate,
      DSHLLlower_bound, DSHLLupper_bound, queryRow_of_deserialize _ _ _ _ (hH sH)]
  · simp [DSCPCis_empty, DSCPCdescribe, DSCPCestimate, DSCPClower_bound, DSCPCupper_bound,
      queryRow_of_deserialize _ _ _ _ (hC sC)]

/-- The reference HLL codec: `deserialize` inverts `serialize_updatable`. -/
theorem Ref.hll_round_trip (s : Ref.CSketch) :
    Ref.hll.deserialize (Ref.hll.serialize_updatable s) = some s := by
  obtain ⟨lg, t, items⟩ := s
  cases t <;> rfl

/-- Witness for C10: reference sketches of each kind, finalized and queried. -/
theorem finalize_round_trip_witness :
    DSQuantilesn Ref.quantiles [128, 1, 2, 3] = some 3
    ∧ DSKLLmin_item Ref.quantiles [200, 1, 2, 3] = some 1
    ∧ DSREQmax_item Ref.quantiles [50, 1, 2, 3] = some 3
    ∧ DSTDigesttotal_weight Ref.tdigest [100, 4, 5] = some 2
    ∧ DSHLLlg_config_k Ref.hll [1, 12, 0, 5, 7] = some 12
    ∧ DSCPCis_empty Ref.cpc [11, 5] = some false := by
  obtain ⟨⟨bQ, hbQ, -, hQ⟩, ⟨bK, hbK, -, hK⟩, ⟨bR, hbR, -, hR⟩, ⟨bT, hbT, -, hT⟩,
      ⟨bH, hbH, -, hH⟩, ⟨bC, hbC, -, hC⟩⟩ :=
    finalize_round_trip Ref.quantiles Ref.quantiles Ref.quantiles Ref.tdigest Ref.hll Ref.cpc
      (fun _ => rfl) (fun _ => rfl) (fun _ => rfl) (fun _ => rfl) Ref.hll_round_trip
      (fun _ => rfl) Ref.truncate Ref.truncate Ref.truncate Ref.truncate
      ⟨128, [1, 2, 3]⟩ ⟨200, [1, 2, 3]⟩ ⟨50, [1, 2, 3]⟩ ⟨100, [4, 5]⟩ ⟨12, .HLL_4, [5, 7]⟩
      ⟨11, [5]⟩
  cases Option.some.inj hbQ
  cases Option.some.inj hbK
  cases Option.some.inj hbR
  cases Option.some.inj hbT
  cases Option.some.inj hbH
  cases Option.some.inj hbC
  exact ⟨hQ.2.2.2.2.2.2.2.2.1, hK.2.2.2.2.2.2.2.2.2.2.2.1, hR.2.2.2.2.2.2.2.2.2.2.2,
    hT.2.2.2.2.2.2.1, hH.2.2.1, hC.1⟩

end RoundTrip


section Config

variable {Sk T SkH UH TH FH SkC UC TC FC : Type}

/-- C11 (evaluation of the code): `CreateSketch(int32_t k)` of the Quantiles,
KLL and REQ state structs on a state without a sketch.  With assertions
checked, a `k` outside the asserted range (`0 < k <= 32768`, for REQ
`4 <= k <= 1024`) is rejected and the state stays without a sketch, and a `k`
inside it is handed unchanged to the library constructor, whose result is the
outcome.  With assertions compiled out the range plays no part: every `k` is
handed to the library constructor.  With the reference classes, which receive
`k` as `uint16_t`, the out-of-range configs `65664` and `65548` then create
sketches of `k = 128` and `k = 12`. -/
theorem create_sketch_range_check (L : SketchCore Sk T) (k : Int) :
    (DSQuantilesState.CreateSketch L true ⟨none⟩ k
        = (if 0 < k ∧ k ≤ 32768 then
            (match L.ctor k with
              | none => .raised .library ⟨none⟩
              | some sk => .done ⟨some sk⟩)
          else .raised .assertion ⟨none⟩)
      ∧ DSKLLState.CreateSketch L true ⟨none⟩ k
        = (if 0 < k ∧ k ≤ 32768 then
            (match L.ctor k with
              | none => .raised .library ⟨none⟩
              | some sk => .done ⟨some sk⟩)
          else .raised .assertion ⟨none⟩)
      ∧ DSREQState.CreateSketch L true ⟨none⟩ k
        = (if 4 ≤ k ∧ k ≤ 1024 then
            (match L.ctor k with
              | none => .raised .library ⟨none⟩
              | some sk => .done ⟨some sk⟩)
          else .raised .assertion ⟨none⟩))
    ∧ (DSQuantilesState.CreateSketch L false ⟨none⟩ k
        = (match L.ctor k with
            | none => .raised .library ⟨none⟩
            | some sk => .done ⟨some sk⟩)
      ∧ DSKLLState.CreateSketch L false ⟨none⟩ k
        = (match L.ctor k with
            | none => .raised .library ⟨none⟩
            | some sk => .done ⟨some sk⟩)
      ∧ DSREQState.CreateSketch L false ⟨none⟩ k
        = (match L.ctor k with
            | none => .raised .library ⟨none⟩
            | some sk => .done ⟨some sk⟩))
    ∧ (DSQuantilesState.CreateSketch Ref.core false ⟨none⟩ 65664 = .done ⟨some ⟨128, []⟩⟩
      ∧ DSKLLState.CreateSketch Ref.core false ⟨none⟩ 65664 = .done ⟨some ⟨128, []⟩⟩
      ∧ DSREQState.CreateSketch Ref.core false ⟨none⟩ 65548 = .done ⟨some ⟨12, []⟩⟩
      ∧ DSQuantilesCreateOperation.Operation QKind.Quantiles Ref.core false ⟨none⟩ 65664 7
        = .done ⟨some ⟨128, [7]⟩⟩) := by
  refine ⟨⟨?_, ?_, ?_⟩, ⟨?_, ?_, ?_⟩, by decide⟩
  · by_cases h1 : 0 < k <;> by_cases h2 : k ≤ 32768 <;>
      simp [DSQuantilesState.CreateSketch, D_ASSERT, h1, h2]
  · by_cases h1 : 0 < k <;> by_cases h2 : k ≤ 32768 <;>
      simp [DSKLLState.CreateSketch, D_ASSERT, h1, h2]
  · by_cases h1 : 4 ≤ k <;> by_cases h2 : k ≤ 1024 <;>
      simp [DSREQState.CreateSketch, D_ASSERT, h1, h2]
  · simp [DSQuantilesState.CreateSketch, D_ASSERT]
  · simp [DSKLLState.CreateSketch, D_ASSERT]
  · simp [DSREQState.CreateSketch, D_ASSERT]

/-- C12 (evaluation of the code): the TDigest and HLL state structs take the
config as `uint16_t` and the CPC state struct as `uint8_t`, so the configs `k`
and `k + 65536` (for CPC `k` and `k + 256`) give the same `CreateSketch`
outcome and the same first accumulation step, whatever the library; with the
reference CPC class the configs `12` and `268` both create a sketch of
`lg_k = 12`.  The Quantiles, KLL and REQ state structs hand the `int32_t` value
`k` itself to the constructor unless an assertion rejects it. -/
theorem config_is_narrowed (kind : QKind) (Q : SketchCore Sk T) (H : HLLLib SkH UH TH FH)
    (C : CPCLib SkC UC TC FC) (dbg : Bool) (stQ : DSState Sk) (stH : DSState SkH)
    (stC : DSState SkC) (k : Int) (vQ : T) (vH : Value TH) (vC : Value TC) :
    (DSTDigestState.CreateSketch Q dbg stQ (k + 65536) = DSTDigestState.CreateSketch Q dbg stQ k
      ∧ DSHLLState.CreateSketch H dbg stH (k + 65536) = DSHLLState.CreateSketch H dbg stH k
      ∧ DSCPCState.CreateSketch C dbg stC (k + 256) = DSCPCState.CreateSketch C dbg stC k)
    ∧ (DSQuantilesCreateOperation.Operation QKind.TDigest Q dbg stQ (k + 65536) vQ
        = DSQuantilesCreateOperation.Operation QKind.TDigest Q dbg stQ k vQ
      ∧ DSHLLCreateOperation.Operation H dbg stH (k + 65536) vH
        = DSHLLCreateOperation.Operation H dbg stH k vH
      ∧ DSCPCCreateOperation.Operation C dbg stC (k + 256) vC
        = DSCPCCreateOperation.Operation C dbg stC k vC)
    ∧ (DSCPCCreateOperation.Operation Ref.cpc false ⟨none⟩ 12 (.num 5)
        = .done ⟨some ⟨12, [5]⟩⟩
      ∧ DSCPCCreateOperation.Operation Ref.cpc false ⟨none⟩ 268 (.num 5)
        = .done ⟨some ⟨12, [5]⟩⟩)
    ∧ (kind ≠ QKind.TDigest →
        QKind.CreateSketch kind Q dbg ⟨none⟩ k = .raised .assertion ⟨none⟩
          ∨ QKind.CreateSketch kind Q dbg ⟨none⟩ k
            = (match Q.ctor k with
                | none => .raised .library ⟨none⟩
                | some sk => .done ⟨some sk⟩)) := by
  have hT : DSTDigestState.CreateSketch Q dbg stQ (k + 65536)
      = DSTDigestState.CreateSketch Q dbg stQ k := by
    simp [DSTDigestState.CreateSketch, Int.add_emod_self]
  have hH : DSHLLState.CreateSketch H dbg stH (k + 65536)
      = DSHLLState.CreateSketch H dbg stH k := by
    simp [DSHLLState.CreateSketch, Int.add_emod_self]
  have hC : DSCPCState.CreateSketch C dbg stC (k + 256)
      = DSCPCState.CreateSketch C dbg stC k := by
    simp [DSCPCState.CreateSketch, Int.add_emod_self]
  refine ⟨⟨hT, hH, hC⟩, ⟨?_, ?_, ?_⟩, by decide, ?_⟩
  · simp only [DSQuantilesCreateOperation.Operation, QKind.CreateSketch, hT]
  · simp only [DSHLLCreateOperation.Operation, hH]
  · simp only [DSCPCCreateOperation.Operation, hC]
  · intro hk
    cases kind
    · by_cases h1 : 0 < k <;> by_cases h2 : k ≤ 32768 <;> cases dbg <;>
        simp [QKind.CreateSketch, DSQuantilesState.CreateSketch, D_ASSERT, h1, h2]
    · by_cases h1 : 0 < k <;> by_cases h2 : k ≤ 32768 <;> cases dbg <;>
        simp [QKind.CreateSketch, DSKLLState.CreateSketch, D_ASSERT, h1, h2]
    · by_cases h1 : 4 ≤ k <;> by_cases h2 : k ≤ 1024 <;> cases dbg <;>
        simp [QKind.CreateSketch, DSREQState.CreateSketch, D_ASSERT, h1, h2]
    · exact absurd rfl hk

/-- Witness for C12: the Quantiles state struct, with assertions checked, at
the in-range config `128`. -/
theorem config_is_narrowed_witness :
    QKind.CreateSketch QKind.Quantiles Ref.core true ⟨none⟩ 128 = .raised .assertion ⟨none⟩
      ∨ QKind.CreateSketch QKind.Quantiles Ref.core true ⟨none⟩ 128
        = (match Ref.core.ctor 128 with
            | none => .raised .library ⟨none⟩
            | some sk => .done ⟨some sk⟩) :=
  (config_is_narrowed QKind.Quantiles Ref.core Ref.hll Ref.cpc true ⟨none⟩ ⟨none⟩ ⟨none⟩ 128
    (7 : Nat) (.num (7 : Nat)) (.num (7 : Nat))).2.2.2 (by decide)

end Config

section Unions

variable {SkQ TQ SkH UH TH FH SkC UC TC FC : Type}

/-- C13 (counterexample): with the reference classes, a target of `lg_k = 12`
and a source of `lg_k = 8`, the accumulator of `Combine` is the one constructed
with `12`, the target's knob, and not the one constructed with
`min 12 8 = 8`. -/
theorem combine_union_not_sized_by_min :
    (DSHLLCreateOperation.CombineUnion Ref.hll ⟨8, .HLL_4, [3]⟩ ⟨12, .HLL_4, [1, 2]⟩
        = some ⟨12, 8, [1, 2, 3]⟩
      ∧ (Ref.hll.union_ctor (min (12 : Nat) 8 : Nat)).map
          (fun u => Ref.hll.union_update (Ref.hll.union_update u ⟨12, .HLL_4, [1, 2]⟩)
            ⟨8, .HLL_4, [3]⟩)
        = some ⟨8, 8, [1, 2, 3]⟩
      ∧ DSHLLCreateOperation.CombineUnion Ref.hll ⟨8, .HLL_4, [3]⟩ ⟨12, .HLL_4, [1, 2]⟩
        ≠ (Ref.hll.union_ctor
            (min (Ref.hll.get_lg_config_k ⟨12, .HLL_4, [1, 2]⟩)
              (Ref.hll.get_lg_config_k ⟨8, .HLL_4, [3]⟩) : Nat)).map
            (fun u => Ref.hll.union_update (Ref.hll.union_update u ⟨12, .HLL_4, [1, 2]⟩)
              ⟨8, .HLL_4, [3]⟩))
    ∧ (DSCPCCreateOperation.CombineUnion Ref.cpc ⟨8, [3]⟩ ⟨12, [1, 2]⟩
        = some ⟨12, 8, [1, 2, 3]⟩
      ∧ (Ref.cpc.union_ctor (min (12 : Nat) 8 : Nat)).map
          (fun u => Ref.cpc.union_update (Ref.cpc.union_update u ⟨12, [1, 2]⟩) ⟨8, [3]⟩)
        = some ⟨8, 8, [1, 2, 3]⟩
      ∧ DSCPCCreateOperation.CombineUnion Ref.cpc ⟨8, [3]⟩ ⟨12, [1, 2]⟩
        ≠ (Ref.cpc.union_ctor
            (min (Ref.cpc.get_lg_k ⟨12, [1, 2]⟩) (Ref.cpc.get_lg_k ⟨8, [3]⟩) : Nat)).map
            (fun u => Ref.cpc.union_update (Ref.cpc.union_update u ⟨12, [1, 2]⟩) ⟨8, [3]⟩)) := by
  decide

/-- C13 (amended): for HLL and for CPC, when `Combine` is applied to a source
holding `s` and a target holding `t`, the union accumulator is constructed
with the target's knob `lg_k(t)` and then updated with both operands (target
then source in the create structs, source then target in the merge structs);
the new target sketch is the result of that accumulator.  The knob is the
coarser of the two whenever `lg_k(t) <= lg_k(s)`. -/
theorem combine_union_sized_by_target (H : HLLLib SkH UH TH FH) (C : CPCLib SkC UC TC FC)
    (sH tH : SkH) (sC tC : SkC) :
    (DSHLLCreateOperation.Combine H ⟨some sH⟩ ⟨some tH⟩
        = (match DSHLLCreateOperation.CombineUnion H sH tH with
            | none => .raised .library ⟨⟨some sH⟩, ⟨some tH⟩⟩
            | some u => .done ⟨⟨some sH⟩, ⟨some (H.get_result u .HLL_4)⟩⟩)
      ∧ DSHLLMergeOperation.Combine H ⟨some sH⟩ ⟨some tH⟩
        = (match DSHLLMergeOperation.CombineUnion H sH tH with
            | none => .raised .library ⟨⟨some sH⟩, ⟨some tH⟩⟩
            | some u => .done ⟨⟨some sH⟩, ⟨some (H.get_result u .HLL_4)⟩⟩)
      ∧ DSCPCCreateOperation.Combine C ⟨some sC⟩ ⟨some tC⟩
        = (match DSCPCCreateOperation.CombineUnion C sC tC with
            | none => .raised .library ⟨⟨some sC⟩, ⟨some tC⟩⟩
            | some u => .done ⟨⟨some sC⟩, ⟨some (C.get_result u)⟩⟩)
      ∧ DSCPCMergeOperation.Combine C ⟨some sC⟩ ⟨some tC⟩
        = (match DSCPCMergeOperation.CombineUnion C sC tC with
            | none => .raised .library ⟨⟨some sC⟩, ⟨some tC⟩⟩
            | some u => .done ⟨⟨some sC⟩, ⟨some (C.get_result u)⟩⟩))
    ∧ (DSHLLCreateOperation.CombineUnion H sH tH
        = (H.union_ctor (H.get_lg_config_k tH)).map
            (fun u => H.union_update (H.union_update u tH) sH)
      ∧ DSHLLMergeOperation.CombineUnion H sH tH
        = (H.union_ctor (H.get_lg_config_k tH)).map
            (fun u => H.union_update (H.union_update u sH) tH)
      ∧ DSCPCCreateOperation.CombineUnion C sC tC
        = (C.union_ctor (C.get_lg_k tC)).map
            (fun u => C.union_update (C.union_update u tC) sC)
      ∧ DSCPCMergeOperation.CombineUnion C sC tC
        = (C.union_ctor (C.get_lg_k tC)).map
            (fun u => C.union_update (C.union_update u sC) tC))
    ∧ (H.get_lg_config_k tH ≤ H.get_lg_config_k sH →
        DSHLLCreateOperation.CombineUnion H sH tH
          = (H.union_ctor (min (H.get_lg_config_k tH) (H.get_lg_config_k sH) : Nat)).map
              (fun u => H.union_update (H.union_update u tH) sH)
        ∧ DSHLLMergeOperation.CombineUnion H sH tH
          = (H.union_ctor (min (H.get_lg_config_k tH) (H.get_lg_config_k sH) : Nat)).map
              (fun u => H.union_update (H.union_update u sH) tH))
    ∧ (C.get_lg_k tC ≤ C.get_lg_k sC →
        DSCPCCreateOperation.CombineUnion C sC tC
          = (C.union_ctor (min (C.get_lg_k tC) (C.get_lg_k sC) : Nat)).map
              (fun u => C.union_update (C.union_update u tC) sC)
        ∧ DSCPCMergeOperation.CombineUnion C sC tC
          = (C.union_ctor (min (C.get_lg_k tC) (C.get_lg_k sC) : Nat)).map
              (fun u => C.union_update (C.union_update u sC) tC)) := by
  refine ⟨⟨?_, ?_, ?_, ?_⟩, ⟨rfl, rfl, rfl, rfl⟩, ?_, ?_⟩
  · simp only [DSHLLCreateOperation.Combine, DSHLLCreateOperation.CombineUnion]
    cases H.union_ctor (H.get_lg_config_k tH) <;> rfl
  · simp only [DSHLLMergeOperation.Combine, DSHLLMergeOperation.CombineUnion]
    cases H.union_ctor (H.get_lg_config_k tH) <;> rfl
  · simp only [DSCPCCreateOperation.Combine, DSCPCCreateOperation.CombineUnion]
    cases C.union_ctor (C.get_lg_k tC) <;> rfl
  · simp only [DSCPCMergeOperation.Combine, DSCPCMergeOperation.CombineUnion]
    cases C.union_ctor (C.get_lg_k tC) <;> rfl
  · intro h
    simp [DSHLLCreateOperation.CombineUnion, DSHLLMergeOperation.CombineUnion, Nat.min_eq_left h]
  · intro h
    simp [DSCPCCreateOperation.CombineUnion, DSCPCMergeOperation.CombineUnion, Nat.min_eq_left h]

/-- Witness for the amended C13: a reference target of `lg_k = 8` and source
of `lg_k = 12`. -/
theorem combine_union_sized_by_target_witness :
    (DSHLLCreateOperation.CombineUnion Ref.hll ⟨12, .HLL_4, [3]⟩ ⟨8, .HLL_4, [1, 2]⟩
        = (Ref.hll.union_ctor
            (min (Ref.hll.get_lg_config_k ⟨8, .HLL_4, [1, 2]⟩)
              (Ref.hll.get_lg_config_k ⟨12, .HLL_4, [3]⟩) : Nat)).map
            (fun u => Ref.hll.union_update (Ref.hll.union_update u ⟨8, .HLL_4, [1, 2]⟩)
              ⟨12, .HLL_4, [3]⟩)
      ∧ DSHLLMergeOperation.CombineUnion Ref.hll ⟨12, .HLL_4, [3]⟩ ⟨8, .HLL_4, [1, 2]⟩
        = (Ref.hll.union_ctor
            (min (Ref.hll.get_lg_config_k ⟨8, .HLL_4, [1, 2]⟩)
              (Ref.hll.get_lg_config_k ⟨12, .HLL_4, [3]⟩) : Nat)).map
            (fun u => Ref.hll.union_update (Ref.hll.union_update u ⟨12, .HLL_4, [3]⟩)
              ⟨8, .HLL_4, [1, 2]⟩))
    ∧ (DSCPCCreateOperation.CombineUnion Ref.cpc ⟨12, [3]⟩ ⟨8, [1, 2]⟩
        = (Ref.cpc.union_ctor
            (min (Ref.cpc.get_lg_k ⟨8, [1, 2]⟩) (Ref.cpc.get_lg_k ⟨12, [3]⟩) : Nat)).map
            (fun u => Ref.cpc.union_update (Ref.cpc.union_update u ⟨8, [1, 2]⟩) ⟨12, [3]⟩)
      ∧ DSCPCMergeOperation.CombineUnion Ref.cpc ⟨12, [3]⟩ ⟨8, [1, 2]⟩
        = (Ref.cpc.union_ctor
            (min (Ref.cpc.get_lg_k ⟨8, [1, 2]⟩) (Ref.cpc.get_lg_k ⟨12, [3]⟩) : Nat)).map
            (fun u => Ref.cpc.union_update (Ref.cpc.union_update u ⟨12, [3]⟩) ⟨8, [1, 2]⟩)) :=
  have h := combine_union_sized_by_target Ref.hll Ref.cpc ⟨12, .HLL_4, [3]⟩ ⟨8, .HLL_4, [1, 2]⟩
    ⟨12, [3]⟩ ⟨8, [1, 2]⟩
  ⟨h.2.2.1 (by decide), h.2.2.2 (by decide)⟩

/-- C14 (counterexample): `cpc_sketch` offers no updatable serialization, and
the blob that the two CPC operation structs finalize for the reference sketch
is the output of `serialize()`. -/
theorem cpc_finalize_not_updatable :
    (DSCPCCreateOperation.Finalize Ref.cpc ⟨some ⟨12, [1, 2]⟩⟩).target = some [12, 1, 2]
    ∧ (DSCPCMergeOperation.Finalize Ref.cpc ⟨some ⟨12, [1, 2]⟩⟩).target = some [12, 1, 2]
    ∧ (Ref.cpc.serializeFn .serialize_updatable).map (fun f => f ⟨12, [1, 2]⟩) = none
    ∧ (DSCPCCreateOperation.Finalize Ref.cpc ⟨some ⟨12, [1, 2]⟩⟩).target
      ≠ (Ref.cpc.serializeFn .serialize_updatable).map (fun f => f ⟨12, [1, 2]⟩)
    ∧ (DSCPCMergeOperation.Finalize Ref.cpc ⟨some ⟨12, [1, 2]⟩⟩).target
      ≠ (Ref.cpc.serializeFn .serialize_updatable).map (fun f => f ⟨12, [1, 2]⟩) := by
  decide

/-- C14 (amended): on a state holding a sketch, the blob of the quantile-family
operations is the output of the library's `serialize()`, the blob of the two
HLL operations is the output of `serialize_updatable()`, and the blob of the
two CPC operations is the output of `serialize()`, the one serialization of
`cpc_sketch`. -/
theorem finalize_wire_form (Q : SketchCore SkQ TQ) (H : HLLLib SkH UH TH FH)
    (C : CPCLib SkC UC TC FC) (sQ : SkQ) (sH : SkH) (sC : SkC) :
    ((DSQuantilesCreateOperation.Finalize Q ⟨some sQ⟩).target
        = (Q.serializeFn .serialize).map (fun f => f sQ)
      ∧ (DSQuantilesMergeOperation.Finalize Q ⟨some sQ⟩).target
        = (Q.serializeFn .serialize).map (fun f => f sQ))
    ∧ ((DSHLLCreateOperation.Finalize H ⟨some sH⟩).target
        = (H.serializeFn .serialize_updatable).map (fun f => f sH)
      ∧ (DSHLLMergeOperation.Finalize H ⟨some sH⟩).target
        = (H.serializeFn .serialize_updatable).map (fun f => f sH)
      ∧ (DSHLLCreateOperation.Finalize H ⟨some sH⟩).target = some (H.serialize_updatable sH))
    ∧ ((DSCPCCreateOperation.Finalize C ⟨some sC⟩).target
        = (C.serializeFn .serialize).map (fun f => f sC)
      ∧ (DSCPCMergeOperation.Finalize C ⟨some sC⟩).target
        = (C.serializeFn .serialize).map (fun f => f sC)
      ∧ (DSCPCCreateOperation.Finalize C ⟨some sC⟩).target = some (C.serialize sC)) :=
  ⟨⟨rfl, rfl⟩, ⟨rfl, rfl, rfl⟩, ⟨rfl, rfl, rfl⟩⟩

/-- C15 (counterexample): with the reference HLL and CPC classes, a state
holding a sketch of `lg_k = 12`, the config `8` and a serialized sketch of
`lg_k = 12`: the merge step leaves a sketch of `lg_k = 8`, `Combine` from a
source holding the deserialized sketch leaves one of `lg_k = 12`. -/
theorem merge_operation_differs_from_combine :
    ((DSHLLMergeOperation.Operation Ref.hll false ⟨some ⟨12, .HLL_4, [1, 2]⟩⟩ 8
          [1, 12, 0, 3]).result?.map (fun st => st.sketch)
        = some (some ⟨8, .HLL_4, [1, 2, 3]⟩)
      ∧ Ref.hll.deserialize [1, 12, 0, 3] = some ⟨12, .HLL_4, [3]⟩
      ∧ (DSHLLMergeOperation.Combine Ref.hll ⟨some ⟨12, .HLL_4, [3]⟩⟩
          ⟨some ⟨12, .HLL_4, [1, 2]⟩⟩).result?.map (fun r => r.target.sketch)
        = some (some ⟨12, .HLL_4, [1, 2, 3]⟩))
    ∧ ((DSCPCMergeOperation.Operation Ref.cpc false ⟨some ⟨12, [1, 2]⟩⟩ 8
          [12, 3]).result?.map (fun st => st.sketch)
        = some (some ⟨8, [1, 2, 3]⟩)
      ∧ Ref.cpc.deserialize [12, 3] = some ⟨12, [3]⟩
      ∧ (DSCPCMergeOperation.Combine Ref.cpc ⟨some ⟨12, [3]⟩⟩
          ⟨some ⟨12, [1, 2]⟩⟩).result?.map (fun r => r.target.sketch)
        = some (some ⟨12, [1, 2, 3]⟩)) := by
  decide

/-- C15 (amended): for a state holding `s` and a blob that deserializes to
`d`, the quantile-family merge step leaves the sketch that `Combine` leaves in
a target holding `s` from a source holding `d`, namely `s` merged with `d`.
The HLL and CPC merge steps build the union from the config `k` and update it
with `s` then `d`, while `Combine` builds it from the knob of `s` and updates
it with `d` then `s`: they leave the same sketch whenever the two constructor
calls give the same accumulator and, on that accumulator, the two update
orders give the same result. -/
theorem merge_operation_vs_combine (kind : QKind) (Q : SketchCore SkQ TQ)
    (H : HLLLib SkH UH TH FH) (C : CPCLib SkC UC TC FC) (dbg : Bool) (k : Int)
    (sQ dQ : SkQ) (sH dH : SkH) (sC dC : SkC) (bQ bH bC : Blob)
    (hQ : Q.deserialize bQ = some dQ) (hH : H.deserialize bH = some dH)
    (hC : C.deserialize bC = some dC) :
    ((DSQuantilesMergeOperation.Operation kind Q dbg ⟨some sQ⟩ k bQ).result?.map
          (fun st => st.sketch) = some (some (Q.merge sQ dQ))
      ∧ (DSQuantilesMergeOperation.Combine Q ⟨some dQ⟩ ⟨some sQ⟩).result?.map
          (fun r => r.target.sketch) = some (some (Q.merge sQ dQ)))
    ∧ (H.union_ctor k = H.union_ctor (H.get_lg_config_k sH) →
        (∀ u, H.union_ctor (H.get_lg_config_k sH) = some u →
          H.union_update (H.union_update u sH) dH
            = H.union_update (H.union_update u dH) sH) →
        (DSHLLMergeOperation.Operation H dbg ⟨some sH⟩ k bH).result?.map
            (fun st => st.sketch)
          = (DSHLLMergeOperation.Combine H ⟨some dH⟩ ⟨some sH⟩).result?.map
              (fun r => r.target.sketch))
    ∧ (C.union_ctor k = C.union_ctor (C.get_lg_k sC) →
        (∀ u, C.union_ctor (C.get_lg_k sC) = some u →
          C.union_update (C.union_update u sC) dC
            = C.union_update (C.union_update u dC) sC) →
        (DSCPCMergeOperation.Operation C dbg ⟨some sC⟩ k bC).result?.map
            (fun st => st.sketch)
          = (DSCPCMergeOperation.Combine C ⟨some dC⟩ ⟨some sC⟩).result?.map
              (fun r => r.target.sketch)) := by
  refine ⟨⟨?_, rfl⟩, ?_, ?_⟩
  · simp [DSQuantilesMergeOperation.Operation, hQ, Outcome.result?]
  · intro hk hu
    simp only [DSHLLMergeOperation.Operation, DSHLLMergeOperation.Combine, hH, hk,
      Option.isNone_some, Bool.false_eq_true, if_false]
    cases hc : H.union_ctor (H.get_lg_config_k sH) with
    | none => rfl
    | some u => simp [Outcome.result?, hu u hc]
  · intro hk hu
    simp only [DSCPCMergeOperation.Operation, DSCPCMergeOperation.Combine, hC, hk,
      Option.isNone_some, Bool.false_eq_true, if_false]
    cases hc : C.union_ctor (C.get_lg_k sC) with
    | none => rfl
    | some u => simp [Outcome.result?, hu u hc]

/-- Witness for the amended C15: reference sketches of `lg_k = 12`, merged
under the config `12`. -/
theorem merge_operation_vs_combine_witness :
    (DSHLLMergeOperation.Operation Ref.hll false ⟨some ⟨12, .HLL_4, [1, 2]⟩⟩ 12
          [1, 12, 0, 3]).result?.map (fun st => st.sketch)
        = (DSHLLMergeOperation.Combine Ref.hll ⟨some ⟨12, .HLL_4, [3]⟩⟩
            ⟨some ⟨12, .HLL_4, [1, 2]⟩⟩).result?.map (fun r => r.target.sketch)
    ∧ (DSCPCMergeOperation.Operation Ref.cpc false ⟨some ⟨12, [1, 2]⟩⟩ 12
          [12, 3]).result?.map (fun st => st.sketch)
        = (DSCPCMergeOperation.Combine Ref.cpc ⟨some ⟨12, [3]⟩⟩
            ⟨some ⟨12, [1, 2]⟩⟩).result?.map (fun r => r.target.sketch) :=
  have h := merge_operation_vs_combine QKind.Quantiles Ref.core Ref.hll Ref.cpc false 12
    ⟨128, [1]⟩ ⟨128, [2]⟩ ⟨12, .HLL_4, [1, 2]⟩ ⟨12, .HLL_4, [3]⟩ ⟨12, [1, 2]⟩ ⟨12, [3]⟩
    [128, 2] [1, 12, 0, 3] [12, 3] rfl rfl rfl
  ⟨h.2.1 (by decide) (fun u hu => by cases Option.some.inj hu; decide),
    h.2.2 (by decide) (fun u hu => by cases Option.some.inj hu; decide)⟩

/-- C16: each of the six operation structs reports `IgnoreNull() = true`, so
the host's dispatch of a row whose value is NULL completes and leaves the
state as it was (the presence of a sketch, and with it the count `n`), for
every state, config and operation struct. -/
theorem null_values_ignored (kind : QKind) (Q : SketchCore SkQ TQ) (H : HLLLib SkH UH TH FH)
    (C : CPCLib SkC UC TC FC) (dbg : Bool) (k : Int)
    (stQ : DSState SkQ) (stH : DSState SkH) (stC : DSState SkC)
    (slotQ : TQ) (slotH : Value TH) (slotC : Value TC) (slotB : Blob) :
    (DSQuantilesCreateOperation.IgnoreNull = true
      ∧ DSQuantilesMergeOperation.IgnoreNull = true
      ∧ DSHLLCreateOperation.IgnoreNull = true
      ∧ DSHLLMergeOperation.IgnoreNull = true
      ∧ DSCPCCreateOperation.IgnoreNull = true
      ∧ DSCPCMergeOperation.IgnoreNull = true)
    ∧ (hostAccumulate DSQuantilesCreateOperation.IgnoreNull
          (DSQuantilesCreateOperation.Operation kind Q dbg) stQ k none slotQ = .done stQ
      ∧ hostAccumulate DSQuantilesMergeOperation.IgnoreNull
          (DSQuantilesMergeOperation.Operation kind Q dbg) stQ k none slotB = .done stQ
      ∧ hostAccumulate DSHLLCreateOperation.IgnoreNull
          (DSHLLCreateOperation.Operation H dbg) stH k none slotH = .done stH
      ∧ hostAccumulate DSHLLMergeOperation.IgnoreNull
          (DSHLLMergeOperation.Operation H dbg) stH k none slotB = .done stH
      ∧ hostAccumulate DSCPCCreateOperation.IgnoreNull
          (DSCPCCreateOperation.Operation C dbg) stC k none slotC = .done stC
      ∧ hostAccumulate DSCPCMergeOperation.IgnoreNull
          (DSCPCMergeOperation.Operation C dbg) stC k none slotB = .done stC) :=
  ⟨⟨rfl, rfl, rfl, rfl, rfl, rfl⟩, ⟨rfl, rfl, rfl, rfl, rfl, rfl⟩⟩

end Unions

/-! ### List-valued query functions -/

/-- `mapM` over a one-element list. -/
theorem mapM_option_single {α β : Type} (f : α → Option β) (a : α) :
    [a].mapM f = (f a).map (fun x => [x]) := by
  rw [List.mapM_cons, List.mapM_nil]
  cases f a <;> rfl

/-- The loop that fills `passing_points` reads the slice of the child data
that starts at `off` and has `n` elements, and fails when the slice is not
within the child data. -/
theorem passing_points_eq {T : Type} (children : List T) (off n : Nat) :
    passing_points children ⟨off, n⟩
      = if off + n ≤ children.length ∨ n = 0 then some ((children.drop off).take n)
        else none := by
  show (List.range n).mapM (fun i => children[i + off]?) = _
  induction n with
  | zero =>
    rw [List.range_zero, List.mapM_nil]
    simp
  | succ n ih =>
    rw [List.range_succ, List.mapM_append, ih, mapM_option_single]
    by_cases h : off + (n + 1) ≤ children.length
    · have h1 : off + n ≤ children.length ∨ n = 0 := Or.inl (by omega)
      have h2 : n + off < children.length := by omega
      have h3 : (List.drop off children)[n]? = some children[n + off] := by
        rw [List.getElem?_drop, Nat.add_comm off n, List.getElem?_eq_getElem h2]
      rw [if_pos (Or.inl h), if_pos h1, List.take_succ, h3, List.getElem?_eq_getElem h2]
      rfl
    · have h0 : ¬(off + (n + 1) ≤ children.length ∨ n + 1 = 0) := by omega
      have h2 : children.length ≤ n + off := by omega
      rw [if_neg h0, List.getElem?_eq_none h2]
      split <;> rfl

/-- Entries lying back to back do not overlap. -/
theorem contiguous_pairwise (start : Nat) (es : List list_entry_t) (h : Contiguous start es) :
    es.Pairwise (fun a b => a.offset + a.length ≤ b.offset)
      ∧ ∀ e ∈ es, start ≤ e.offset := by
  induction es generalizing start with
  | nil => simp
  | cons e es ih =>
    obtain ⟨h1, h2⟩ := h
    obtain ⟨ih1, ih2⟩ := ih _ h2
    refine ⟨List.pairwise_cons.2 ⟨fun b hb => ?_, ih1⟩, ?_⟩
    · have := ih2 b hb
      omega
    · intro x hx
      rcases List.mem_cons.1 hx with rfl | hx
      · omega
      · have := ih2 x hx
        omega

/-- The offset of the `i`-th of the entries lying back to back. -/
theorem contiguous_offset (start : Nat) (es : List list_entry_t) (h : Contiguous start es)
    (i : Nat) (e : list_entry_t) (hi : es[i]? = some e) :
    e.offset = start + ((es.take i).map (fun x => x.length)).sum := by
  induction es generalizing start i with
  | nil => simp at hi
  | cons x es ih =>
    obtain ⟨h1, h2⟩ := h
    cases i with
    | zero =>
      simp at hi
      subst hi
      simp [h1]
    | succ i =>
      simp at hi
      have := ih _ h2 i hi
      simp [this]
      omega

/-- Layout of the entries returned by a call whose row lambda appends its
values to the result list vector. -/
theorem runListRows_shape {ρ α : Type} (row : List α → ρ → Option (ListRow α)) (g : ρ → Nat)
    (hrow : ∀ result r out, row result r = some out →
      out.entry.offset = result.length ∧ out.child.length = result.length + out.entry.length
        ∧ out.entry.length = g r)
    (rows : List ρ) (init : List α) (entries : List list_entry_t) (final : List α)
    (h : runListRows row init rows = some (entries, final)) :
    entries.map (fun e => e.length) = rows.map g ∧ Contiguous init.length entries
      ∧ final.length = init.length + (entries.map (fun e => e.length)).sum
      ∧ ∀ r ∈ rows, ∃ res out, row res r = some out := by
  induction rows generalizing init entries final with
  | nil =>
    simp only [runListRows, Option.some.injEq, Prod.mk.injEq] at h
    obtain ⟨rfl, rfl⟩ := h
    simp [Contiguous]
  | cons r rest ih =>
    unfold runListRows at h
    split at h
    · cases h
    · rename_i out hr
      split at h
      · cases h
      · rename_i es fin hrest
        simp only [Option.some.injEq, Prod.mk.injEq] at h
        obtain ⟨rfl, rfl⟩ := h
        obtain ⟨h1, h2, h3⟩ := hrow init r out hr
        obtain ⟨i1, i2, i3, i4⟩ := ih out.child es fin hrest
        refine ⟨by simp [i1, h3], ⟨h1, ?_⟩, ?_, ?_⟩
        · rw [← h2]; exact i2
        · simp only [List.map_cons, List.sum_cons, i3, h2]
          omega
        · intro x hx
          rcases List.mem_cons.1 hx with rfl | hx
          · exact ⟨init, out, hr⟩
          · exact i4 x hx

/-- A call completes when each of its rows does. -/
theorem runListRows_isSome {ρ α : Type} (row : List α → ρ → Option (ListRow α))
    (rows : List ρ) (hrows : ∀ r ∈ rows, ∀ res, (row res r).isSome = true) (init : List α) :
    (runListRows row init rows).isSome = true := by
  induction rows generalizing init with
  | nil => rfl
  | cons r rest ih =>
    have h1 := hrows r (List.mem_cons_self r rest) init
    obtain ⟨out, hout⟩ := Option.isSome_iff_exists.1 h1
    have h2 := ih (fun x hx => hrows x (List.mem_cons_of_mem r hx)) out.child
    obtain ⟨p, hp⟩ := Option.isSome_iff_exists.1 h2
    obtain ⟨es, fin⟩ := p
    simp [runListRows, hout, hp]

/-- When the loop completes, the points are the slice of the row. -/
theorem passing_points_slice {T : Type} (children : List T) (e : list_entry_t) (pts : List T)
    (h : passing_points children e = some pts) :
    pts = (children.drop e.offset).take e.length ∧ pts.length = e.length := by
  obtain ⟨off, n⟩ := e
  rw [passing_points_eq] at h
  split at h
  · rename_i hc
    cases h
    refine ⟨rfl, ?_⟩
    rw [List.length_take, List.length_drop]
    simp only
    omega
  · cases h

/-- What a completed row lambda of a cdf or pmf function has done. -/
theorem list_row_spec {Sk T F α : Type} (deserialize : Blob → Option Sk)
    (get : Sk → List T → Option (List F)) (conv : F → α) (children : List T)
    (result : List α) (blob : Blob) (e : list_entry_t) (out : ListRow α)
    (h : queryRow deserialize (fun sketch =>
      (passing_points children e).bind (fun pts =>
        (get sketch pts).map (appendListRow conv result))) blob = some out) :
    ∃ s v, deserialize blob = some s
      ∧ get s ((children.drop e.offset).take e.length) = some v
      ∧ ((children.drop e.offset).take e.length).length = e.length
      ∧ out = appendListRow conv result v := by
  unfold queryRow at h
  split at h
  · cases h
  · rename_i s hs
    cases hp : passing_points children e with
    | none => simp [hp] at h
    | some pts =>
      obtain ⟨hpts, hlen⟩ := passing_points_slice children e pts hp
      rw [hp] at h
      simp only [Option.bind, Option.map_eq_some'] at h
      obtain ⟨v, hv, rfl⟩ := h
      subst hpts
      exact ⟨s, v, hs, hv, hlen, rfl⟩

/-- The call on the first `i` rows returns the first `i` entries. -/
theorem runListRows_take {ρ α : Type} (row : List α → ρ → Option (ListRow α))
    (rows : List ρ) (init : List α) (entries : List list_entry_t) (final : List α)
    (h : runListRows row init rows = some (entries, final)) (i : Nat) :
    ∃ mid, runListRows row init (rows.take i) = some (entries.take i, mid) := by
  induction rows generalizing init entries final i with
  | nil =>
    simp only [runListRows, Option.some.injEq, Prod.mk.injEq] at h
    obtain ⟨rfl, rfl⟩ := h
    exact ⟨init, by simp [runListRows]⟩
  | cons r rest ih =>
    cases i with
    | zero => exact ⟨init, by simp [runListRows]⟩
    | succ i =>
      unfold runListRows at h
      split at h
      · cases h
      · rename_i out hr
        split at h
        · cases h
        · rename_i es fin hrest
          simp only [Option.some.injEq, Prod.mk.injEq] at h
          obtain ⟨rfl, rfl⟩ := h
          obtain ⟨mid, hmid⟩ := ih out.child es fin hrest i
          exact ⟨mid, by simp [runListRows, hr, hmid]⟩

section Shape

variable {Sk T F : Type}

/-- The entry and child vector returned by a row of `DSQuantilescdf`. -/
theorem cdf_row_facts (L : QuantilesLib Sk T F) (conv : F → T) (children : List T)
    (hCDF : ∀ s pts incl v, L.get_CDF s pts incl = some v → v.length = pts.length + 1)
    (result : List T) (r : ListQueryRow) (out : ListRow T)
    (h : DSQuantilescdf L conv children result r.sketch_data r.split_points_data
      r.inclusive_data = some out) :
    out.entry.offset = result.length ∧ out.child.length = result.length + out.entry.length
      ∧ out.entry.length = r.split_points_data.length + 1 := by
  obtain ⟨s, v, -, hv, hlen, rfl⟩ := list_row_spec L.deserialize
    (fun sk pts => L.get_CDF sk pts r.inclusive_data) conv children result _ _ out h
  have := hCDF _ _ _ _ hv
  simp [appendListRow, this, hlen]

/-- The entry and child vector returned by a row of `DSQuantilespmf`. -/
theorem pmf_row_facts (L : QuantilesLib Sk T F) (children : List T)
    (hPMF : ∀ s pts incl v, L.get_PMF s pts incl = some v → v.length = pts.length + 1)
    (result : List F) (r : ListQueryRow) (out : ListRow F)
    (h : DSQuantilespmf L children result r.sketch_data r.split_points_data
      r.inclusive_data = some out) :
    out.entry.offset = result.length ∧ out.child.length = result.length + out.entry.length
      ∧ out.entry.length = r.split_points_data.length + 1 := by
  obtain ⟨s, v, -, hv, hlen, rfl⟩ := list_row_spec L.deserialize
    (fun sk pts => L.get_PMF sk pts r.inclusive_data) id children result _ _ out h
  have := hPMF _ _ _ _ hv
  simp [appendListRow, this, hlen]

/-- Lengths, offsets and final size of a completed call. -/
theorem list_rows_layout {ρ α : Type} (row : List α → ρ → Option (ListRow α)) (g : ρ → Nat)
    (hrow : ∀ result r out, row result r = some out →
      out.entry.offset = result.length ∧ out.child.length = result.length + out.entry.length
        ∧ out.entry.length = g r)
    (rows : List ρ) (init : List α) (entries : List list_entry_t) (final : List α)
    (h : runListRows row init rows = some (entries, final)) :
    entries.map (fun e => e.length) = rows.map g
      ∧ (∀ i e, entries[i]? = some e →
          ∃ before size, runListRows row init (rows.take i) = some (before, size)
            ∧ e.offset = size.length)
      ∧ Contiguous init.length entries
      ∧ entries.Pairwise (fun a b => a.offset + a.length ≤ b.offset)
      ∧ final.length = init.length + (entries.map (fun e => e.length)).sum := by
  obtain ⟨h1, h2, h3, -⟩ := runListRows_shape row g hrow rows init entries final h
  refine ⟨h1, ?_, h2, (contiguous_pairwise _ _ h2).1, h3⟩
  intro i e hi
  obtain ⟨mid, hmid⟩ := runListRows_take row rows init entries final h i
  obtain ⟨-, -, k3, -⟩ := runListRows_shape row g hrow _ init _ mid hmid
  exact ⟨_, mid, hmid, by rw [k3]; exact contiguous_offset _ _ h2 i e hi⟩

end Shape

section ListQueries

variable {Sk T F : Type}

/-- A row of `DSQuantilescdf` completes on a blob that deserializes, a slice
within the child data and a library answer. -/
theorem cdf_row_isSome (L : QuantilesLib Sk T F) (conv : F → T) (children : List T)
    (result : List T) (r : ListQueryRow)
    (h : ∃ s v, L.deserialize r.sketch_data = some s
      ∧ r.split_points_data.offset + r.split_points_data.length ≤ children.length
      ∧ L.get_CDF s ((children.drop r.split_points_data.offset).take
          r.split_points_data.length) r.inclusive_data = some v) :
    (DSQuantilescdf L conv children result r.sketch_data r.split_points_data
      r.inclusive_data).isSome = true := by
  obtain ⟨s, v, hs, hb, hv⟩ := h
  have hp := passing_points_eq children r.split_points_data.offset r.split_points_data.length
  rw [if_pos (Or.inl hb)] at hp
  simp [DSQuantilescdf, queryRow, hs, hp, hv]

/-- A row of `DSQuantilespmf` completes under the same conditions. -/
theorem pmf_row_isSome (L : QuantilesLib Sk T F) (children : List T)
    (result : List F) (r : ListQueryRow)
    (h : ∃ s v, L.deserialize r.sketch_data = some s
      ∧ r.split_points_data.offset + r.split_points_data.length ≤ children.length
      ∧ L.get_PMF s ((children.drop r.split_points_data.offset).take
          r.split_points_data.length) r.inclusive_data = some v) :
    (DSQuantilespmf L children result r.sketch_data r.split_points_data
      r.inclusive_data).isSome = true := by
  obtain ⟨s, v, hs, hb, hv⟩ := h
  have hp := passing_points_eq children r.split_points_data.offset r.split_points_data.length
  rw [if_pos (Or.inl hb)] at hp
  simp [DSQuantilespmf, queryRow, hs, hp, hv]

/-- C19: shape of the result of a cdf and of a pmf call, given that the
library returns one value more than it is given split points.  For a call
that returns `entries` and the final child vector `final`: the entry of each
row has the length of the row's split points plus one; its offset is the size
of the result list when the call on the rows before it has returned; the
entries lie back to back, do not overlap, and their lengths sum to the growth
of the list; and for each row the library was asked about exactly the slice
`children[offset .. offset + length)` of the row.  A call completes whenever
every row has a blob that deserializes, a slice within the child data and a
library answer. -/
theorem cdf_pmf_result_shape (L : QuantilesLib Sk T F) (conv : F → T) (children : List T)
    (hCDF : ∀ s pts incl v, L.get_CDF s pts incl = some v → v.length = pts.length + 1)
    (hPMF : ∀ s pts incl v, L.get_PMF s pts incl = some v → v.length = pts.length + 1)
    (rows : List ListQueryRow)
    (initC : List T) (entriesC : List list_entry_t) (finalC : List T)
    (initP : List F) (entriesP : List list_entry_t) (finalP : List F)
    (hC : DSQuantilescdfRows L conv children initC rows = some (entriesC, finalC))
    (hP : DSQuantilespmfRows L children initP rows = some (entriesP, finalP)) :
    (entriesC.map (fun e => e.length) = rows.map (fun r => r.split_points_data.length + 1)
      ∧ (∀ i e, entriesC[i]? = some e →
          ∃ before size, DSQuantilescdfRows L conv children initC (rows.take i)
              = some (before, size) ∧ e.offset = size.length)
      ∧ Contiguous initC.length entriesC
      ∧ entriesC.Pairwise (fun a b => a.offset + a.length ≤ b.offset)
      ∧ finalC.length = initC.length + (entriesC.map (fun e => e.length)).sum
      ∧ (∀ r ∈ rows, ∃ s v, L.deserialize r.sketch_data = some s
          ∧ L.get_CDF s ((children.drop r.split_points_data.offset).take
              r.split_points_data.length) r.inclusive_data = some v))
    ∧ (entriesP.map (fun e => e.length) = rows.map (fun r => r.split_points_data.length + 1)
      ∧ (∀ i e, entriesP[i]? = some e →
          ∃ before size, DSQuantilespmfRows L children initP (rows.take i)
              = some (before, size) ∧ e.offset = size.length)
      ∧ Contiguous initP.length entriesP
      ∧ entriesP.Pairwise (fun a b => a.offset + a.length ≤ b.offset)
      ∧ finalP.length = initP.length + (entriesP.map (fun e => e.length)).sum
      ∧ (∀ r ∈ rows, ∃ s v, L.deserialize r.sketch_data = some s
          ∧ L.get_PMF s ((children.drop r.split_points_data.offset).take
              r.split_points_data.length) r.inclusive_data = some v))
    ∧ (∀ (rows2 : List ListQueryRow) (init2 : List T),
        (∀ r ∈ rows2, ∃ s v, L.deserialize r.sketch_data = some s
          ∧ r.split_points_data.offset + r.split_points_data.length ≤ children.length
          ∧ L.get_CDF s ((children.drop r.split_points_data.offset).take
              r.split_points_data.length) r.inclusive_data = some v) →
        (DSQuantilescdfRows L conv children init2 rows2).isSome = true)
    ∧ (∀ (rows2 : List ListQueryRow) (init2 : List F),
        (∀ r ∈ rows2, ∃ s v, L.deserialize r.sketch_data = some s
          ∧ r.split_points_data.offset + r.split_points_data.length ≤ children.length
          ∧ L.get_PMF s ((children.drop r.split_points_data.offset).take
              r.split_points_data.length) r.inclusive_data = some v) →
        (DSQuantilespmfRows L children init2 rows2).isSome = true) := by
  have rowC := fun (res : List T) (r : ListQueryRow) (out : ListRow T) =>
    cdf_row_facts L conv children hCDF res r out
  have rowP := fun (res : List F) (r : ListQueryRow) (out : ListRow F) =>
    pmf_row_facts L children hPMF res r out
  obtain ⟨c1, c2, c3, c4, c5⟩ := list_rows_layout _ _ rowC rows initC entriesC finalC hC
  obtain ⟨p1, p2, p3, p4, p5⟩ := list_rows_layout _ _ rowP rows initP entriesP finalP hP
  obtain ⟨-, -, -, c6⟩ := runListRows_shape _ _ rowC rows initC entriesC finalC hC
  obtain ⟨-, -, -, p6⟩ := runListRows_shape _ _ rowP rows initP entriesP finalP hP
  refine ⟨⟨c1, c2, c3, c4, c5, ?_⟩, ⟨p1, p2, p3, p4, p5, ?_⟩, ?_, ?_⟩
  · intro r hr
    obtain ⟨res, out, hout⟩ := c6 r hr
    obtain ⟨s, v, hs, hv, -, -⟩ := list_row_spec L.deserialize
      (fun sk pts => L.get_CDF sk pts r.inclusive_data) conv children res _ _ out hout
    exact ⟨s, v, hs, hv⟩
  · intro r hr
    obtain ⟨res, out, hout⟩ := p6 r hr
    obtain ⟨s, v, hs, hv, -, -⟩ := list_row_spec L.deserialize
      (fun sk pts => L.get_PMF sk pts r.inclusive_data) id children res _ _ out hout
    exact ⟨s, v, hs, hv⟩
  · intro rows2 init2 h
    exact runListRows_isSome _ rows2
      (fun r hr res => cdf_row_isSome L conv children res r (h r hr)) init2
  · intro rows2 init2 h
    exact runListRows_isSome _ rows2
      (fun r hr res => pmf_row_isSome L children res r (h r hr)) init2

/-- The successive differences of a list are as many as its elements. -/
theorem Ref.diffs_length (prev : ℚ) (l : List ℚ) : (Ref.diffs prev l).length = l.length := by
  induction l generalizing prev with
  | nil => rfl
  | cons x xs ih => simp [Ref.diffs, ih]

/-- The reference `get_CDF` returns one value more than it is given points. -/
theorem Ref.quantiles_cdf_length (s : Ref.QSketch) (pts : List Nat) (incl : Bool)
    (v : List ℚ) (h : Ref.quantiles.get_CDF s pts incl = some v) :
    v.length = pts.length + 1 := by
  simp only [Ref.quantiles] at h
  split at h
  · cases h
  · cases h
    simp

/-- The reference `get_PMF` returns one value more than it is given points. -/
theorem Ref.quantiles_pmf_length (s : Ref.QSketch) (pts : List Nat) (incl : Bool)
    (v : List ℚ) (h : Ref.quantiles.get_PMF s pts incl = some v) :
    v.length = pts.length + 1 := by
  simp only [Ref.quantiles] at h
  split at h
  · cases h
  · cases h
    simp [Ref.diffs_length]

/-- Witness for C19: two rows on the reference sketch of `1, 2, 3, 4`, with
the split points `2, 3` and `5`; the entries have lengths `3` and `2` and lie
back to back from `0`. -/
theorem cdf_pmf_result_shape_witness :
    ∃ entriesC finalC entriesP finalP,
      DSQuantilescdfRows Ref.quantiles Ref.truncate [2, 3, 5] []
          [⟨[128, 1, 2, 3, 4], ⟨0, 2⟩, true⟩, ⟨[128, 1, 2, 3, 4], ⟨2, 1⟩, false⟩]
        = some (entriesC, finalC)
      ∧ DSQuantilespmfRows Ref.quantiles [2, 3, 5] []
          [⟨[128, 1, 2, 3, 4], ⟨0, 2⟩, true⟩, ⟨[128, 1, 2, 3, 4], ⟨2, 1⟩, false⟩]
        = some (entriesP, finalP)
      ∧ entriesC.map (fun e => e.length) = [3, 2] ∧ Contiguous 0 entriesC
      ∧ finalC.length = 0 + (entriesC.map (fun e => e.length)).sum
      ∧ entriesP.map (fun e => e.length) = [3, 2] ∧ Contiguous 0 entriesP
      ∧ finalP.length = 0 + (entriesP.map (fun e => e.length)).sum := by
  have hC : ∀ r ∈ [(⟨[128, 1, 2, 3, 4], ⟨0, 2⟩, true⟩ : ListQueryRow),
      ⟨[128, 1, 2, 3, 4], ⟨2, 1⟩, false⟩], ∃ s v, Ref.quantiles.deserialize r.sketch_data = some s
        ∧ r.split_points_data.offset + r.split_points_data.length ≤ [2, 3, 5].length
        ∧ Ref.quantiles.get_CDF s (([2, 3, 5].drop r.split_points_data.offset).take
            r.split_points_data.length) r.inclusive_data = some v := by
    intro r hr
    simp only [List.mem_cons, List.mem_singleton, List.not_mem_nil, or_false] at hr
    rcases hr with rfl | rfl <;> exact ⟨_, _, rfl, by decide, rfl⟩
  have hP : ∀ r ∈ [(⟨[128, 1, 2, 3, 4], ⟨0, 2⟩, true⟩ : ListQueryRow),
      ⟨[128, 1, 2, 3, 4], ⟨2, 1⟩, false⟩], ∃ s v, Ref.quantiles.deserialize r.sketch_data = some s
        ∧ r.split_points_data.offset + r.split_points_data.length ≤ [2, 3, 5].length
        ∧ Ref.quantiles.get_PMF s (([2, 3, 5].drop r.split_points_data.offset).take
            r.split_points_data.length) r.inclusive_data = some v := by
    intro r hr
    simp only [List.mem_cons, List.mem_singleton, List.not_mem_nil, or_false] at hr
    rcases hr with rfl | rfl <;> exact ⟨_, _, rfl, by decide, rfl⟩
  obtain ⟨⟨eC, fC⟩, hrunC⟩ := Option.isSome_iff_exists.1
    (runListRows_isSome _ _
      (fun r hr res => cdf_row_isSome Ref.quantiles Ref.truncate [2, 3, 5] res r (hC r hr)) [])
  obtain ⟨⟨eP, fP⟩, hrunP⟩ := Option.isSome_iff_exists.1
    (runListRows_isSome _ _
      (fun r hr res => pmf_row_isSome Ref.quantiles [2, 3, 5] res r (hP r hr)) [])
  obtain ⟨⟨c1, -, c3, -, c5, -⟩, ⟨p1, -, p3, -, p5, -⟩, -, -⟩ :=
    cdf_pmf_result_shape Ref.quantiles Ref.truncate [2, 3, 5] Ref.quantiles_cdf_length
      Ref.quantiles_pmf_length _ [] eC fC [] eP fP hrunC hrunP
  exact ⟨eC, fC, eP, fP, hrunC, hrunP, c1, c3, c5, p1, p3, p5⟩

end ListQueries

section Fractions

set_option maxRecDepth 100000 in
/-- Of the numbers `1 .. 1000`, five hundred are at most `500`. -/
theorem Ref.count_le_500 :
    ((List.range' 1 1000).filter (fun x => decide (x ≤ 500))).length = 500 := by
  decide

/-- The reference CDF of `1 .. 1000` at the split point `500`, inclusive. -/
theorem Ref.cdf_1000 :
    Ref.quantiles.get_CDF ⟨128, List.range' 1 1000⟩ [500] true = some [1 / 2, 1] := by
  have h : (List.range' 1 1000).isEmpty = false := by
    rw [List.isEmpty_eq_false]
    simp
  simp only [Ref.quantiles, Ref.QSketch.rank, h]
  simp [Ref.count_le_500]
  norm_num

/-- The reference PMF of `1 .. 1000` at the split point `500`, inclusive. -/
theorem Ref.pmf_1000 :
    Ref.quantiles.get_PMF ⟨128, List.range' 1 1000⟩ [500] true = some [1 / 2, 1 / 2] := by
  have h : (List.range' 1 1000).isEmpty = false := by
    rw [List.isEmpty_eq_false]
    simp
  simp only [Ref.quantiles, Ref.QSketch.rank, h]
  simp [Ref.count_le_500, Ref.diffs]
  norm_num

/-- Conversion of one half and of one to an integer type. -/
theorem Ref.truncate_values : Ref.truncate (1 / 2) = 0 ∧ Ref.truncate 1 = 1 := by
  have h : ⌊(1 / 2 : ℚ)⌋ = 0 := by norm_num
  have h1 : ⌊(1 : ℚ)⌋ = 1 := by norm_num
  constructor
  · unfold Ref.truncate
    rw [h]
    rfl
  · unfold Ref.truncate
    rw [h1]
    rfl

/-- C17 (evaluation of the code): for the reference sketch of the integers
`1 .. 1000` and the split point `500`, inclusive, the library's CDF is
`[1/2, 1]`, and the cdf functions of Quantiles, KLL and REQ, which store the
values through a pointer to the integer element type, return the list
`[0, 1]`; the pmf function, which stores through a `double` pointer, writes
the fractions `[1/2, 1/2]`. -/
theorem cdf_returns_truncated_fractions :
    Ref.quantiles.get_CDF ⟨128, List.range' 1 1000⟩ [500] true = some [1 / 2, 1]
    ∧ DSQuantilescdf Ref.quantiles Ref.truncate [500] [] (128 :: List.range' 1 1000)
        ⟨0, 1⟩ true = some ⟨⟨0, 2⟩, [0, 1]⟩
    ∧ DSKLLcdf Ref.quantiles Ref.truncate [500] [] (128 :: List.range' 1 1000)
        ⟨0, 1⟩ true = some ⟨⟨0, 2⟩, [0, 1]⟩
    ∧ DSREQcdf Ref.quantiles Ref.truncate [500] [] (128 :: List.range' 1 1000)
        ⟨0, 1⟩ true = some ⟨⟨0, 2⟩, [0, 1]⟩
    ∧ DSQuantilespmf Ref.quantiles [500] [] (128 :: List.range' 1 1000)
        ⟨0, 1⟩ true = some ⟨⟨0, 2⟩, [1 / 2, 1 / 2]⟩ := by
  have hd : Ref.quantiles.deserialize (128 :: List.range' 1 1000)
      = some ⟨128, List.range' 1 1000⟩ := rfl
  have hp : passing_points [500] ⟨0, 1⟩ = some [500] := by decide
  refine ⟨Ref.cdf_1000, ?_, ?_, ?_, ?_⟩
  · simp only [DSQuantilescdf, queryRow, hd, hp, Option.bind, Ref.cdf_1000, Option.map,
      appendListRow, List.map, Ref.truncate_values.1, Ref.truncate_values.2, List.length,
      List.nil_append]
  · simp only [DSKLLcdf, queryRow, hd, hp, Option.bind, Ref.cdf_1000, Option.map,
      appendListRow, List.map, Ref.truncate_values.1, Ref.truncate_values.2, List.length,
      List.nil_append]
  · simp only [DSREQcdf, queryRow, hd, hp, Option.bind, Ref.cdf_1000, Option.map,
      appendListRow, List.map, Ref.truncate_values.1, Ref.truncate_values.2, List.length,
      List.nil_append]
  · simp only [DSQuantilespmf, queryRow, hd, hp, Option.bind, Ref.pmf_1000, Option.map,
      appendListRow, List.map, id, List.length, List.nil_append]

/-- C18 (evaluation of the code): every pmf function is registered with the
result type `LIST(type)` of its element type and stores values of type
`double`.  The element type of the registered result list is that of the
stored values for the `DOUBLE` overloads only; for the `TINYINT` overload of
`datasketch_quantiles_pmf` the registered element type is `int8_t`.  The cdf
functions store values of the registered element type. -/
theorem pmf_result_type_mismatch :
    (∀ r ∈ datasketch_quantiles_pmf ++ datasketch_kll_pmf ++ datasketch_req_pmf
          ++ datasketch_tdigest_pmf, ∀ T, r.T = some T →
        (r.resultElement = some (pmf_child_vals T) ↔ T = CppType.double))
    ∧ (listFunction3 (CreateQuantilesSketchType .TINYINT) .TINYINT .int8_t
          ∈ datasketch_quantiles_pmf
      ∧ (listFunction3 (CreateQuantilesSketchType .TINYINT) .TINYINT .int8_t).resultElement
          = some CppType.int8_t
      ∧ pmf_child_vals CppType.int8_t = CppType.double)
    ∧ (∀ r ∈ datasketch_quantiles_cdf ++ datasketch_kll_cdf ++ datasketch_req_cdf
          ++ datasketch_tdigest_cdf, ∀ T, r.T = some T →
        r.resultElement = some (cdf_child_vals T)) := by
  decide

/-- Witness for C18: the `TINYINT` overload of `datasketch_quantiles_pmf`. -/
theorem pmf_result_type_mismatch_witness :
    ((listFunction3 (CreateQuantilesSketchType .TINYINT) .TINYINT .int8_t).resultElement
        = some (pmf_child_vals CppType.int8_t) ↔ CppType.int8_t = CppType.double) :=
  pmf_result_type_mismatch.1 _ (by decide) _ rfl

end Fractions

section SketchTypes

/-- C20 (counterexample): the HLL create aggregates for `TINYINT` and for
`VARCHAR` both return the type `sketch_hll` (and the CPC ones `sketch_cpc`),
so the map from the registered (kind, element type) pairs to the sketch type
is not injective. -/
theorem sketch_type_not_injective :
    ((SketchKind.HLL, LogicalTypeId.TINYINT), "sketch_hll") ∈ registeredSketchTypes
    ∧ ((SketchKind.HLL, LogicalTypeId.VARCHAR), "sketch_hll") ∈ registeredSketchTypes
    ∧ ((SketchKind.CPC, LogicalTypeId.TINYINT), "sketch_cpc") ∈ registeredSketchTypes
    ∧ ((SketchKind.CPC, LogicalTypeId.VARCHAR), "sketch_cpc") ∈ registeredSketchTypes
    ∧ ¬ (∀ p ∈ registeredSketchTypes, ∀ q ∈ registeredSketchTypes, p.2 = q.2 → p.1 = q.1) := by
  decide

/-- C20 (amended): two registered (kind, element type) pairs with the same
sketch type have the same kind and, unless the kind is HLL or CPC, the same
element type; each pair has one sketch type; and the kinds HLL and CPC have
the single types `sketch_hll` and `sketch_cpc` for all their element types. -/
theorem sketch_type_per_kind :
    (∀ p ∈ registeredSketchTypes, ∀ q ∈ registeredSketchTypes, p.2 = q.2 →
        p.1.1 = q.1.1
          ∧ (p.1.1 = SketchKind.HLL ∨ p.1.1 = SketchKind.CPC ∨ p.1.2 = q.1.2))
    ∧ (∀ p ∈ registeredSketchTypes, ∀ q ∈ registeredSketchTypes, p.1 = q.1 → p.2 = q.2)
    ∧ (∀ p ∈ registeredSketchTypes,
        (p.1.1 ≠ SketchKind.HLL ∨ p.2 = "sketch_hll")
          ∧ (p.1.1 ≠ SketchKind.CPC ∨ p.2 = "sketch_cpc")) := by
  decide

/-- Witness for the amended C20: the Quantiles sketch type of `TINYINT`. -/
theorem sketch_type_per_kind_witness :
    ((SketchKind.Quantiles, LogicalTypeId.TINYINT), "sketch_quantiles_tinyint")
        ∈ registeredSketchTypes
    ∧ (SketchKind.Quantiles = SketchKind.Quantiles
        ∧ (SketchKind.Quantiles = SketchKind.HLL ∨ SketchKind.Quantiles = SketchKind.CPC
            ∨ LogicalTypeId.TINYINT = LogicalTypeId.TINYINT)) :=
  ⟨by decide,
    sketch_type_per_kind.1 ((.Quantiles, .TINYINT), "sketch_quantiles_tinyint") (by decide)
      ((.Quantiles, .TINYINT), "sketch_quantiles_tinyint") (by decide) rfl⟩

end SketchTypes

section Registrations

variable {Sk T F SkT TT FT SkH UH TH FH SkC UC TC FC : Type}

/-- C21: no aggregate of Quantiles, KLL, REQ or TDigest takes a `VARCHAR` or
`BLOB` argument or is instantiated with `string_t`; the HLL and the CPC create
sets each register exactly two such aggregates, for `VARCHAR` and for `BLOB`,
both the `string_t` instance of the create aggregate; and for a `string_t`
value the HLL and CPC `Operation` steps call the library's
`update(data, length)` overload with the bytes of the value: on a state
holding `sk` the step completes with `update_bytes sk bytes`, and on a state
without a sketch it either raises in `CreateSketch`, or completes with
`update_bytes` applied to the sketch that `CreateSketch` made. -/
theorem bytes_only_for_counting_kinds (H : HLLLib SkH UH TH FH) (C : CPCLib SkC UC TC FC)
    (dbg : Bool) (k : Int) (skH : SkH) (skC : SkC) (bytes : Blob) :
    (datasketch_quantiles ++ datasketch_kll ++ datasketch_req ++ datasketch_tdigest).filter
        Registration.takesBytes = []
    ∧ datasketch_hll.filter Registration.takesBytes
        = [CreateAggregate .string_t .VARCHAR CreateHLLCountingSketchType,
            CreateAggregate .string_t .BLOB CreateHLLCountingSketchType]
    ∧ datasketch_cpc.filter Registration.takesBytes
        = [CreateAggregate .string_t .VARCHAR CreateCPCCountingSketchType,
            CreateAggregate .string_t .BLOB CreateCPCCountingSketchType]
    ∧ (DSHLLCreateOperation.Operation H dbg ⟨some skH⟩ k (.str bytes)
          = .done ⟨some (H.update_bytes skH bytes)⟩
      ∧ DSCPCCreateOperation.Operation C dbg ⟨some skC⟩ k (.str bytes)
          = .done ⟨some (C.update_bytes skC bytes)⟩)
    ∧ ((∃ e, DSHLLCreateOperation.Operation H dbg ⟨none⟩ k (.str bytes) = .raised e ⟨none⟩)
        ∨ (∃ sk, DSHLLState.CreateSketch H dbg ⟨none⟩ k = .done ⟨some sk⟩
            ∧ DSHLLCreateOperation.Operation H dbg ⟨none⟩ k (.str bytes)
              = .done ⟨some (H.update_bytes sk bytes)⟩))
    ∧ ((∃ e, DSCPCCreateOperation.Operation C dbg ⟨none⟩ k (.str bytes) = .raised e ⟨none⟩)
        ∨ (∃ sk, DSCPCState.CreateSketch C dbg ⟨none⟩ k = .done ⟨some sk⟩
            ∧ DSCPCCreateOperation.Operation C dbg ⟨none⟩ k (.str bytes)
              = .done ⟨some (C.update_bytes sk bytes)⟩)) := by
  refine ⟨by decide, by decide, by decide, ⟨rfl, rfl⟩, ?_, ?_⟩
  · rcases hll_state_create_none H dbg k with ⟨e, he⟩ | ⟨sk, hs⟩
    · exact Or.inl ⟨e, by simp [DSHLLCreateOperation.Operation, he]⟩
    · exact Or.inr ⟨sk, hs, by simp [DSHLLCreateOperation.Operation, hs]⟩
  · rcases cpc_state_create_none C dbg k with ⟨e, he⟩ | ⟨sk, hs⟩
    · exact Or.inl ⟨e, by simp [DSCPCCreateOperation.Operation, he]⟩
    · exact Or.inr ⟨sk, hs, by simp [DSCPCCreateOperation.Operation, hs]⟩

/-- C22 (counterexample): the TDigest create aggregates are registered for
`FLOAT` and `DOUBLE` only; no aggregate of `datasketch_tdigest` takes a
`TINYINT` argument, so not every kind has a create aggregate for each of the
ten numeric element types. -/
theorem tdigest_no_integer_aggregate :
    SketchKind.TDigest.elementTypes = [LogicalTypeId.FLOAT, .DOUBLE]
    ∧ datasketch_tdigest.filter (fun r => decide (ArgType.plain .TINYINT ∈ r.arguments)) = []
    ∧ ¬ (∀ kind : SketchKind, ∀ p ∈ numericTypes, p.1 ∈ kind.elementTypes) := by
  refine ⟨by decide, by decide, fun h => ?_⟩
  have h1 := h .TDigest (.TINYINT, .int8_t) (by decide)
  revert h1
  decide

/-- C22 (amended): the create aggregates of Quantiles, KLL and REQ are
registered for exactly the ten numeric element types, those of HLL and CPC for
the ten numeric element types and for `VARCHAR` and `BLOB`, and those of
TDigest for `FLOAT` and `DOUBLE` only. -/
theorem create_aggregates_by_kind :
    numericTypes.map Prod.fst
        = [LogicalTypeId.TINYINT, .SMALLINT, .INTEGER, .BIGINT, .FLOAT, .DOUBLE, .UTINYINT,
            .USMALLINT, .UINTEGER, .UBIGINT]
    ∧ SketchKind.Quantiles.elementTypes = numericTypes.map Prod.fst
    ∧ SketchKind.KLL.elementTypes = numericTypes.map Prod.fst
    ∧ SketchKind.REQ.elementTypes = numericTypes.map Prod.fst
    ∧ SketchKind.HLL.elementTypes = numericTypes.map Prod.fst ++ [.VARCHAR, .BLOB]
    ∧ SketchKind.CPC.elementTypes = numericTypes.map Prod.fst ++ [.VARCHAR, .BLOB]
    ∧ SketchKind.TDigest.elementTypes = [.FLOAT, .DOUBLE] := by
  decide

/-- C25 (counterexample): the cdf and pmf functions of TDigest are registered
with two arguments, the sketch and the list of split points. -/
theorem tdigest_cdf_two_arguments :
    listFunction2 (CreateTDigestSketchType .DOUBLE) .DOUBLE .double ∈ datasketch_tdigest_cdf
    ∧ (listFunction2 (CreateTDigestSketchType .DOUBLE) .DOUBLE .double).arguments
        = [.sketch "sketch_tdigest_double", .list .DOUBLE]
    ∧ (datasketch_tdigest_cdf ++ datasketch_tdigest_pmf).filter
        (fun r => decide (r.arguments.length = 3)) = [] := by
  decide

/-- C25 (amended): for each of their ten element types the cdf and pmf
functions of Quantiles, KLL and REQ are registered with the three arguments
sketch, `LIST(type)` and `BOOLEAN`, and their row lambdas hand the flag to
`get_CDF` and `get_PMF`; the cdf and pmf functions of TDigest are registered,
for `FLOAT` and `DOUBLE`, with the two arguments sketch and `LIST(type)`, and
their row lambdas call `get_CDF` and `get_PMF` with the split points only. -/
theorem cdf_pmf_arguments (L : QuantilesLib Sk T F) (D : TDigestLib SkT TT FT)
    (conv : F → T) (convT : FT → TT) (children result : List T) (resultF : List F)
    (childrenT resultT : List TT) (resultTF : List FT) (sketch_data : Blob)
    (split_points_data : list_entry_t) (inclusive_data : Bool) (sk : Sk) (skT : SkT)
    (pts : List T) (ptsT : List TT)
    (hd : L.deserialize sketch_data = some sk) (hdT : D.deserialize sketch_data = some skT)
    (hp : passing_points children split_points_data = some pts)
    (hpT : passing_points childrenT split_points_data = some ptsT) :
    (datasketch_quantiles_cdf.map (fun r => r.arguments)
          = numericTypes.map (fun p =>
              [.sketch (CreateQuantilesSketchType p.1), .list p.1, .plain .BOOLEAN])
      ∧ datasketch_quantiles_pmf.map (fun r => r.arguments)
          = numericTypes.map (fun p =>
              [.sketch (CreateQuantilesSketchType p.1), .list p.1, .plain .BOOLEAN])
      ∧ datasketch_kll_cdf.map (fun r => r.arguments)
          = numericTypes.map (fun p =>
              [.sketch (CreateKLLSketchType p.1), .list p.1, .plain .BOOLEAN])
      ∧ datasketch_kll_pmf.map (fun r => r.arguments)
          = numericTypes.map (fun p =>
              [.sketch (CreateKLLSketchType p.1), .list p.1, .plain .BOOLEAN])
      ∧ datasketch_req_cdf.map (fun r => r.arguments)
          = numericTypes.map (fun p =>
              [.sketch (CreateREQSketchType p.1), .list p.1, .plain .BOOLEAN])
      ∧ datasketch_req_pmf.map (fun r => r.arguments)
          = numericTypes.map (fun p =>
              [.sketch (CreateREQSketchType p.1), .list p.1, .plain .BOOLEAN]))
    ∧ (datasketch_tdigest_cdf.map (fun r => r.arguments)
          = tdigestTypes.map (fun p => [.sketch (CreateTDigestSketchType p.1), .list p.1])
      ∧ datasketch_tdigest_pmf.map (fun r => r.arguments)
          = tdigestTypes.map (fun p => [.sketch (CreateTDigestSketchType p.1), .list p.1]))
    ∧ (DSQuantilescdf L conv children result sketch_data split_points_data inclusive_data
          = (L.get_CDF sk pts inclusive_data).map (appendListRow conv result)
      ∧ DSQuantilespmf L children resultF sketch_data split_points_data inclusive_data
          = (L.get_PMF sk pts inclusive_data).map (appendListRow id resultF)
      ∧ DSKLLcdf L conv children result sketch_data split_points_data inclusive_data
          = (L.get_CDF sk pts inclusive_data).map (appendListRow conv result)
      ∧ DSKLLpmf L children resultF sketch_data split_points_data inclusive_data
          = (L.get_PMF sk pts inclusive_data).map (appendListRow id resultF)
      ∧ DSREQcdf L conv children result sketch_data split_points_data inclusive_data
          = (L.get_CDF sk pts inclusive_data).map (appendListRow conv result)
      ∧ DSREQpmf L children resultF sketch_data split_points_data inclusive_data
          = (L.get_PMF sk pts inclusive_data).map (appendListRow id resultF))
    ∧ (DSTDigestcdf D convT childrenT resultT sketch_data split_points_data
          = (D.get_CDF skT ptsT).map (appendListRow convT resultT)
      ∧ DSTDigestpmf D childrenT resultTF sketch_data split_points_data
          = (D.get_PMF skT ptsT).map (appendListRow id resultTF)) := by
  refine ⟨by decide, by decide, ?_, ?_⟩
  · simp [DSQuantilescdf, DSQuantilespmf, DSKLLcdf, DSKLLpmf, DSREQcdf, DSREQpmf, queryRow, hd,
      hp]
  · simp [DSTDigestcdf, DSTDigestpmf, queryRow, hdT, hpT]

/-- Witness for the amended C25: the reference sketch of `1, 2, 3` with the
split point `2`. -/
theorem cdf_pmf_arguments_witness :
    DSQuantilescdf Ref.quantiles Ref.truncate [2] [] [128, 1, 2, 3] ⟨0, 1⟩ true
        = (Ref.quantiles.get_CDF ⟨128, [1, 2, 3]⟩ [2] true).map
            (appendListRow Ref.truncate [])
    ∧ DSTDigestcdf Ref.tdigest Ref.truncate [2] [] [128, 1, 2, 3] ⟨0, 1⟩
        = (Ref.tdigest.get_CDF ⟨128, [1, 2, 3]⟩ [2]).map (appendListRow Ref.truncate []) :=
  have h := cdf_pmf_arguments Ref.quantiles Ref.tdigest Ref.truncate Ref.truncate [2] [] []
    [2] [] [] [128, 1, 2, 3] ⟨0, 1⟩ true ⟨128, [1, 2, 3]⟩ ⟨128, [1, 2, 3]⟩ [2] [2] rfl rfl
    (by decide) (by decide)
  ⟨h.2.2.1.1, h.2.2.2.1⟩

end Registrations

section Reachability

variable {Sk T F U : Type}

/-- What a completed or raised `DSQuantilesCreateOperation::Operation` leaves:
a completed step leaves a sketch that was just updated with the value, a
raised step leaves the state without a sketch. -/
theorem create_operation_leaves (kind : QKind) (L : SketchCore Sk T) (dbg : Bool)
    (st : DSState Sk) (a_data : Int) (b_data : T) :
    (∀ st1, DSQuantilesCreateOperation.Operation kind L dbg st a_data b_data = .done st1 →
        ∃ sk, st1 = ⟨some (L.update sk b_data)⟩)
    ∧ (∀ e st1, DSQuantilesCreateOperation.Operation kind L dbg st a_data b_data
          = .raised e st1 → st1 = ⟨none⟩) := by
  obtain ⟨s⟩ := st
  cases s with
  | some sk =>
    constructor
    · intro st1 h
      simp only [DSQuantilesCreateOperation.Operation, Option.isNone_some] at h
      exact ⟨sk, by cases h; rfl⟩
    · intro e st1 h
      simp [DSQuantilesCreateOperation.Operation] at h
  | none =>
    rcases quantile_state_create_none kind L dbg a_data with ⟨e0, he⟩ | ⟨sk, hs⟩
    · constructor
      · intro st1 h
        simp [DSQuantilesCreateOperation.Operation, he] at h
      · intro e st1 h
        simp only [DSQuantilesCreateOperation.Operation, Option.isNone_none, if_true, he] at h
        cases h
        rfl
    · constructor
      · intro st1 h
        simp only [DSQuantilesCreateOperation.Operation, Option.isNone_none, if_true, hs] at h
        exact ⟨sk, by cases h; rfl⟩
      · intro e st1 h
        simp [DSQuantilesCreateOperation.Operation, hs] at h

/-- C23: in every state reachable by calls of `DSQuantilesCreateOperation`
(for any of the four state structs), given that the library's `update` adds one
to `n` and `merge` adds the two counts, a held sketch has `n >= 1`; hence,
with `is_empty` meaning `n = 0` and `deserialize` inverting `serialize`,
`Finalize` returns NULL or a blob on which `DSQuantilesis_empty` answers
`false`. -/
theorem create_never_serializes_empty (kind : QKind) (L : QuantilesLib Sk T F) (dbg : Bool)
    (hupdate : ∀ s v, L.get_n (L.update s v) = L.get_n s + 1)
    (hmerge : ∀ a b, L.get_n (L.merge a b) = L.get_n a + L.get_n b)
    (hempty : ∀ s, L.is_empty s = decide (L.get_n s = 0))
    (hcodec : ∀ s, L.deserialize (L.serialize s) = some s)
    (st : DSState Sk)
    (hst : (DSQuantilesCreateOperation.ops kind L.toSketchCore dbg).Reachable st) :
    (∀ sk, st.sketch = some sk → 1 ≤ L.get_n sk)
    ∧ ((DSQuantilesCreateOperation.Finalize L.toSketchCore st).target = none
        ∨ ∃ blob, (DSQuantilesCreateOperation.Finalize L.toSketchCore st).target = some blob
            ∧ DSQuantilesis_empty L blob = some false) := by
  have hinv : ∀ sk, st.sketch = some sk → 1 ≤ L.get_n sk := by
    induction hst with
    | start st0 =>
      intro sk h
      simp [DSQuantilesCreateOperation.ops, DSQuantilesCreateOperation.Initialize] at h
    | operation _ hop _ =>
      intro sk h
      obtain ⟨sk0, rfl⟩ := (create_operation_leaves kind L.toSketchCore dbg _ _ _).1 _ hop
      cases h
      rw [hupdate]
      omega
    | operation_raised _ hop _ =>
      intro sk h
      rw [(create_operation_leaves kind L.toSketchCore dbg _ _ _).2 _ _ hop] at h
      cases h
    | @combine source target out _ _ hc ihs iht =>
      intro sk h
      obtain ⟨s⟩ := source
      obtain ⟨t⟩ := target
      cases t with
      | none =>
        cases s with
        | none =>
          simp only [DSQuantilesCreateOperation.ops, DSQuantilesCreateOperation.Combine,
            DSState.CreateSketchFrom] at hc
          cases hc
          cases h
        | some s1 =>
          simp only [DSQuantilesCreateOperation.ops, DSQuantilesCreateOperation.Combine,
            DSState.CreateSketchFrom] at hc
          cases hc
          cases h
          exact ihs _ rfl
      | some t1 =>
        cases s with
        | none =>
          simp [DSQuantilesCreateOperation.ops, DSQuantilesCreateOperation.Combine] at hc
        | some s1 =>
          simp only [DSQuantilesCreateOperation.ops, DSQuantilesCreateOperation.Combine] at hc
          cases hc
          cases h
          rw [hmerge]
          have := iht _ rfl
          omega
    | @combine_raised source target out e _ _ hc _ _ =>
      obtain ⟨s⟩ := source
      obtain ⟨t⟩ := target
      cases t <;> cases s <;>
        simp [DSQuantilesCreateOperation.ops, DSQuantilesCreateOperation.Combine] at hc
    | @finalize st0 _ _ =>
      intro sk h
      obtain ⟨s⟩ := st0
      cases s <;>
        simp [DSQuantilesCreateOperation.ops, DSQuantilesCreateOperation.Finalize] at h
  refine ⟨hinv, ?_⟩
  obtain ⟨s⟩ := st
  cases s with
  | none => exact Or.inl rfl
  | some sk =>
    refine Or.inr ⟨L.serialize sk, rfl, ?_⟩
    have hn := hinv sk rfl
    simp only [DSQuantilesis_empty, queryRow, hcodec, hempty]
    have : L.get_n sk ≠ 0 := by omega
    simp [this]

end Reachability
section ReachabilityWitness

/-- The reference quantile sketch counts its items: `update` adds one to `n`,
`merge` adds the two counts, and `is_empty` means `n = 0`. -/
theorem Ref.quantiles_counts :
    (∀ (s : Ref.QSketch) (v : Nat),
        Ref.quantiles.get_n (Ref.quantiles.update s v) = Ref.quantiles.get_n s + 1)
    ∧ (∀ a b : Ref.QSketch,
        Ref.quantiles.get_n (Ref.quantiles.merge a b)
          = Ref.quantiles.get_n a + Ref.quantiles.get_n b)
    ∧ (∀ s : Ref.QSketch,
        Ref.quantiles.is_empty s = decide (Ref.quantiles.get_n s = 0)) := by
  refine ⟨fun s v => ?_, fun a b => ?_, fun s => ?_⟩
  · simp [Ref.quantiles, Ref.core, List.orderedInsert_length]
  · simp [Ref.quantiles, Ref.core, List.length_insertionSort]
  · obtain ⟨k, items⟩ := s
    cases items <;> simp [Ref.quantiles]

/-- Witness for C23: the state after one `Operation` with the config `128` and
the value `7` on an initialized state of the reference Quantiles sketch. -/
theorem create_never_serializes_empty_witness :
    (DSQuantilesCreateOperation.ops QKind.Quantiles Ref.core true).Reachable
        ⟨some ⟨128, [7]⟩⟩
    ∧ 1 ≤ Ref.quantiles.get_n ⟨128, [7]⟩ :=
  have hr : (DSQuantilesCreateOperation.ops QKind.Quantiles Ref.core true).Reachable
      ⟨some ⟨128, [7]⟩⟩ :=
    @AggregateOps.Reachable.operation _ _ _ _ _ 128 (7 : Nat)
      (AggregateOps.Reachable.start ⟨none⟩) (by decide)
  ⟨hr, (create_never_serializes_empty QKind.Quantiles Ref.quantiles true Ref.quantiles_counts.1
    Ref.quantiles_counts.2.1 Ref.quantiles_counts.2.2 (fun _ => rfl) _ hr).1 _ rfl⟩

end ReachabilityWitness

section TargetType

variable {Sk U T F : Type}

/-- A completed `DSHLLState::CreateSketch(k)` on a state without a sketch
leaves the sketch that the constructor returned. -/
theorem hll_create_sketch_done (H : HLLLib Sk U T F) (dbg : Bool) (k : Int) (st1 : DSState Sk)
    (h : DSHLLState.CreateSketch H dbg ⟨none⟩ k = .done st1) :
    ∃ sk, H.ctor (k % 65536).toNat = some sk ∧ st1 = ⟨some sk⟩ := by
  simp only [DSHLLState.CreateSketch] at h
  split_ifs at h
  split at h
  · cases h
  · rename_i sk hsk
    cases h
    exact ⟨sk, hsk, rfl⟩

/-- C27: given that the constructor `hll_sketch(lg_config_k)` makes a sketch
of target type `HLL_4` (its default), that `update` keeps the target type and
that `get_result(t)` returns a sketch of target type `t`, a sketch held in a
state reachable by calls of `DSHLLCreateOperation`, or by calls of
`DSHLLMergeOperation`, has target type `HLL_4`. -/
theorem held_hll_sketch_is_hll_4 (H : HLLLib Sk U T F) (dbg : Bool)
    (hctor : ∀ k sk, H.ctor k = some sk → H.get_target_type sk = .HLL_4)
    (hupdate : ∀ s v, H.get_target_type (H.update s v) = H.get_target_type s)
    (hbytes : ∀ s b, H.get_target_type (H.update_bytes s b) = H.get_target_type s)
    (hresult : ∀ u t, H.get_target_type (H.get_result u t) = t) :
    (∀ st, (DSHLLCreateOperation.ops H dbg).Reachable st →
        ∀ sk, st.sketch = some sk → H.get_target_type sk = .HLL_4)
    ∧ (∀ st, (DSHLLMergeOperation.ops H dbg).Reachable st →
        ∀ sk, st.sketch = some sk → H.get_target_type sk = .HLL_4) := by
  constructor
  · intro st hst
    induction hst with
    | start st0 =>
      intro sk h
      cases h
    | @operation st0 st1 a_data b_data _ hop ih =>
      intro sk h
      obtain ⟨s⟩ := st0
      cases s with
      | some sk0 =>
        cases b_data <;>
          simp only [DSHLLCreateOperation.ops, DSHLLCreateOperation.Operation,
            Option.isNone_some] at hop <;>
          cases hop <;> cases h
        · rw [hupdate]; exact ih _ rfl
        · rw [hbytes]; exact ih _ rfl
      | none =>
        simp only [DSHLLCreateOperation.ops, DSHLLCreateOperation.Operation,
          Option.isNone_none, if_true] at hop
        cases hc : DSHLLState.CreateSketch H dbg ⟨none⟩ a_data with
        | crashed => simp [hc] at hop
        | raised e s1 => simp [hc] at hop
        | done s1 =>
          obtain ⟨sk1, hsk1, rfl⟩ := hll_create_sketch_done H dbg a_data s1 hc
          cases b_data <;> simp only [hc] at hop <;> cases hop <;> cases h
          · rw [hupdate]; exact hctor _ _ hsk1
          · rw [hbytes]; exact hctor _ _ hsk1
    | @operation_raised st0 st1 a_data b_data e _ hop ih =>
      intro sk h
      obtain ⟨s⟩ := st0
      cases s with
      | some sk0 =>
        cases b_data <;>
          simp [DSHLLCreateOperation.ops, DSHLLCreateOperation.Operation] at hop
      | none =>
        simp only [DSHLLCreateOperation.ops, DSHLLCreateOperation.Operation,
          Option.isNone_none, if_true] at hop
        rcases hll_state_create_none H dbg a_data with ⟨e0, he⟩ | ⟨sk1, hs⟩
        · simp only [he] at hop
          cases hop
          cases h
        · cases b_data <;> simp [hs] at hop
    | @combine source target out _ _ hc ihs iht =>
      intro sk h
      obtain ⟨s⟩ := source
      obtain ⟨t⟩ := target
      cases t with
      | none =>
        cases s <;>
          simp only [DSHLLCreateOperation.ops, DSHLLCreateOperation.Combine,
            DSState.CreateSketchFrom] at hc <;>
          cases hc <;> cases h
        exact ihs _ rfl
      | some t1 =>
        simp only [DSHLLCreateOperation.ops, DSHLLCreateOperation.Combine] at hc
        cases hu : H.union_ctor (H.get_lg_config_k t1) with
        | none => simp [hu] at hc
        | some u =>
          cases s with
          | none => simp [hu] at hc
          | some s1 =>
            simp only [hu] at hc
            cases hc
            cases h
            exact hresult _ _
    | @combine_raised source target out e _ _ hc ihs iht =>
      intro sk h
      obtain ⟨s⟩ := source
      obtain ⟨t⟩ := target
      cases t with
      | none =>
        simp [DSHLLCreateOperation.ops, DSHLLCreateOperation.Combine] at hc
      | some t1 =>
        simp only [DSHLLCreateOperation.ops, DSHLLCreateOperation.Combine] at hc
        cases hu : H.union_ctor (H.get_lg_config_k t1) with
        | none =>
          simp only [hu] at hc
          cases hc
          exact iht _ h
        | some u =>
          cases s <;> simp [hu] at hc
    | @finalize st0 _ _ =>
      intro sk h
      obtain ⟨s⟩ := st0
      cases s <;> simp [DSHLLCreateOperation.ops, DSHLLCreateOperation.Finalize] at h
  · intro st hst
    induction hst with
    | start st0 =>
      intro sk h
      cases h
    | @operation st0 st1 a_data b_data _ hop ih =>
      intro sk h
      have key : ∀ stc : DSState Sk,
          (match H.deserialize b_data with
            | none => Outcome.raised Failure.library stc
            | some b_sketch =>
              match H.union_ctor a_data with
              | none => Outcome.raised Failure.library stc
              | some u =>
                match stc.sketch with
                | none => Outcome.crashed
                | some sk =>
                  Outcome.done ⟨some (H.get_result
                    (H.union_update (H.union_update u sk) b_sketch) .HLL_4)⟩) = .done st1 →
          H.get_target_type sk = .HLL_4 := by
        intro stc hm
        cases hd : H.deserialize b_data with
        | none => simp [hd] at hm
        | some b =>
          cases hu : H.union_ctor a_data with
          | none => simp [hd, hu] at hm
          | some u =>
            obtain ⟨c⟩ := stc
            cases c with
            | none => simp [hd, hu] at hm
            | some c1 =>
              simp only [hd, hu] at hm
              cases hm
              cases h
              exact hresult _ _
      obtain ⟨s⟩ := st0
      cases s with
      | some sk0 =>
        simp only [DSHLLMergeOperation.ops, DSHLLMergeOperation.Operation,
          Option.isNone_some] at hop
        exact key _ hop
      | none =>
        simp only [DSHLLMergeOperation.ops, DSHLLMergeOperation.Operation,
          Option.isNone_none, if_true] at hop
        cases hc : DSHLLState.CreateSketch H dbg ⟨none⟩ a_data with
        | crashed => simp [hc] at hop
        | raised e s1 => simp [hc] at hop
        | done s1 =>
          simp only [hc] at hop
          exact key _ hop
    | @operation_raised st0 st1 a_data b_data e _ hop ih =>
      intro sk h
      have key : ∀ stc : DSState Sk,
          (match H.deserialize b_data with
            | none => Outcome.raised Failure.library stc
            | some b_sketch =>
              match H.union_ctor a_data with
              | none => Outcome.raised Failure.library stc
              | some u =>
                match stc.sketch with
                | none => Outcome.crashed
                | some sk =>
                  Outcome.done ⟨some (H.get_result
                    (H.union_update (H.union_update u sk) b_sketch) .HLL_4)⟩)
            = .raised e st1 → st1 = stc := by
        intro stc hm
        cases hd : H.deserialize b_data with
        | none =>
          simp only [hd] at hm
          cases hm
          rfl
        | some b =>
          cases hu : H.union_ctor a_data with
          | none =>
            simp only [hd, hu] at hm
            cases hm
            rfl
          | some u =>
            obtain ⟨c⟩ := stc
            cases c <;> simp [hd, hu] at hm
      obtain ⟨s⟩ := st0
      cases s with
      | some sk0 =>
        simp only [DSHLLMergeOperation.ops, DSHLLMergeOperation.Operation,
          Option.isNone_some] at hop
        rw [key _ hop] at h
        exact ih _ h
      | none =>
        simp only [DSHLLMergeOperation.ops, DSHLLMergeOperation.Operation,
          Option.isNone_none, if_true] at hop
        cases hc : DSHLLState.CreateSketch H dbg ⟨none⟩ a_data with
        | crashed => simp [hc] at hop
        | raised e0 s1 =>
          rcases hll_state_create_none H dbg a_data with ⟨e1, he⟩ | ⟨sk1, hs⟩
          · rw [he] at hc
            cases hc
            simp only [he] at hop
            cases hop
            cases h
          · rw [hs] at hc
            cases hc
        | done s1 =>
          obtain ⟨sk1, hsk1, rfl⟩ := hll_create_sketch_done H dbg a_data s1 hc
          simp only [hc] at hop
          rw [key _ hop] at h
          cases h
          exact hctor _ _ hsk1
    | @combine source target out _ _ hc ihs iht =>
      intro sk h
      obtain ⟨s⟩ := source
      obtain ⟨t⟩ := target
      cases t with
      | none =>
        cases s <;>
          simp only [DSHLLMergeOperation.ops, DSHLLMergeOperation.Combine,
            DSState.CreateSketchFrom] at hc <;>
          cases hc <;> cases h
        exact ihs _ rfl
      | some t1 =>
        simp only [DSHLLMergeOperation.ops, DSHLLMergeOperation.Combine] at hc
        cases hu : H.union_ctor (H.get_lg_config_k t1) with
        | none => simp [hu] at hc
        | some u =>
          cases s with
          | none => simp [hu] at hc
          | some s1 =>
            simp only [hu] at hc
            cases hc
            cases h
            exact hresult _ _
    | @combine_raised source target out e _ _ hc ihs iht =>
      intro sk h
      obtain ⟨s⟩ := source
      obtain ⟨t⟩ := target
      cases t with
      | none =>
        simp [DSHLLMergeOperation.ops, DSHLLMergeOperation.Combine] at hc
      | some t1 =>
        simp only [DSHLLMergeOperation.ops, DSHLLMergeOperation.Combine] at hc
        cases hu : H.union_ctor (H.get_lg_config_k t1) with
        | none =>
          simp only [hu] at hc
          cases hc
          exact iht _ h
        | some u =>
          cases s <;> simp [hu] at hc
    | @finalize st0 _ _ =>
      intro sk h
      obtain ⟨s⟩ := st0
      cases s <;> simp [DSHLLMergeOperation.ops, DSHLLMergeOperation.Finalize] at h

end TargetType
section TargetTypeWitness

/-- The reference HLL class meets the library facts used for the target type. -/
theorem Ref.hll_target_type :
    (∀ k sk, Ref.hll.ctor k = some sk → Ref.hll.get_target_type sk = .HLL_4)
    ∧ (∀ s v, Ref.hll.get_target_type (Ref.hll.update s v) = Ref.hll.get_target_type s)
    ∧ (∀ s b, Ref.hll.get_target_type (Ref.hll.update_bytes s b) = Ref.hll.get_target_type s)
    ∧ (∀ u t, Ref.hll.get_target_type (Ref.hll.get_result u t) = t) := by
  refine ⟨fun k sk h => ?_, fun _ _ => rfl, fun _ _ => rfl, fun _ _ => rfl⟩
  simp only [Ref.hll] at h
  split_ifs at h
  cases h
  rfl

/-- Witness for C27: the union aggregate's state after one `Operation` with
the config `12` on the serialized reference sketch of target type `HLL_8`
holding the item `5`. -/
theorem held_hll_sketch_is_hll_4_witness :
    (DSHLLMergeOperation.ops Ref.hll true).Reachable ⟨some ⟨12, .HLL_4, [5]⟩⟩
    ∧ Ref.hll.deserialize [1, 12, 2, 5] = some ⟨12, .HLL_8, [5]⟩
    ∧ Ref.hll.get_target_type ⟨12, .HLL_4, [5]⟩ = .HLL_4 :=
  have hr : (DSHLLMergeOperation.ops Ref.hll true).Reachable ⟨some ⟨12, .HLL_4, [5]⟩⟩ :=
    @AggregateOps.Reachable.operation _ _ _ _ _ 12 [1, 12, 2, 5]
      (AggregateOps.Reachable.start ⟨none⟩) (by decide)
  ⟨hr, by decide,
    (held_hll_sketch_is_hll_4 Ref.hll true Ref.hll_target_type.1 Ref.hll_target_type.2.1
      Ref.hll_target_type.2.2.1 Ref.hll_target_type.2.2.2).2 _ hr _ rfl⟩

end TargetTypeWitness

section CombineVariants

variable {SkH UH TH FH SkC UC TC FC : Type}

/-- C30: given that the library's union update is order-independent, the
create and the union variants of `Combine` have the same outcome on every
source and target state, for HLL and for CPC: the same target state when they
complete, and otherwise the same failure. -/
theorem combine_variants_agree (H : HLLLib SkH UH TH FH) (C : CPCLib SkC UC TC FC)
    (hH : ∀ u a b, H.union_update (H.union_update u a) b = H.union_update (H.union_update u b) a)
    (hC : ∀ u a b, C.union_update (C.union_update u a) b = C.union_update (C.union_update u b) a)
    (sourceH targetH : DSState SkH) (sourceC targetC : DSState SkC) :
    DSHLLCreateOperation.Combine H sourceH targetH = DSHLLMergeOperation.Combine H sourceH targetH
    ∧ DSCPCCreateOperation.Combine C sourceC targetC
        = DSCPCMergeOperation.Combine C sourceC targetC := by
  obtain ⟨sH⟩ := sourceH
  obtain ⟨tH⟩ := targetH
  obtain ⟨sC⟩ := sourceC
  obtain ⟨tC⟩ := targetC
  constructor
  · cases tH with
    | none => rfl
    | some t =>
      simp only [DSHLLCreateOperation.Combine, DSHLLMergeOperation.Combine]
      cases H.union_ctor (H.get_lg_config_k t) with
      | none => rfl
      | some u =>
        cases sH with
        | none => rfl
        | some s => simp only [hH u t s]
  · cases tC with
    | none => rfl
    | some t =>
      simp only [DSCPCCreateOperation.Combine, DSCPCMergeOperation.Combine]
      cases C.union_ctor (C.get_lg_k t) with
      | none => rfl
      | some u =>
        cases sC with
        | none => rfl
        | some s => simp only [hC u t s]

/-- Membership in the sorted list of the distinct items of two lists. -/
theorem Ref.mem_unionItems (a b : List Nat) (x : Nat) :
    x ∈ Ref.unionItems a b ↔ x ∈ a ∨ x ∈ b := by
  unfold Ref.unionItems
  rw [(List.perm_insertionSort _ _).mem_iff, List.mem_dedup, List.mem_append]

/-- Absorbing two lists of items in either order gives the same items. -/
theorem Ref.unionItems_right_comm (x a b : List Nat) :
    Ref.unionItems (Ref.unionItems x a) b = Ref.unionItems (Ref.unionItems x b) a := by
  have hnodup : ∀ l m : List Nat, (Ref.unionItems l m).Nodup := fun l m =>
    (List.perm_insertionSort _ _).nodup_iff.2 (List.nodup_dedup _)
  have hsorted : ∀ l m : List Nat, (Ref.unionItems l m).Sorted (· ≤ ·) := fun l m =>
    List.sorted_insertionSort _ _
  refine List.eq_of_perm_of_sorted ?_ (hsorted _ _) (hsorted _ _)
  refine (List.perm_ext_iff_of_nodup (hnodup _ _) (hnodup _ _)).2 (fun y => ?_)
  simp only [Ref.mem_unionItems]
  tauto

/-- The union update of the reference HLL and CPC classes is order-independent. -/
theorem Ref.union_update_right_comm :
    (∀ u a b, Ref.hll.union_update (Ref.hll.union_update u a) b
        = Ref.hll.union_update (Ref.hll.union_update u b) a)
    ∧ (∀ u a b, Ref.cpc.union_update (Ref.cpc.union_update u a) b
        = Ref.cpc.union_update (Ref.cpc.union_update u b) a) := by
  constructor <;> intro u a b <;>
    simp only [Ref.hll, Ref.cpc, Ref.unionItems_right_comm u.items a.items b.items,
      Nat.min_assoc, Nat.min_comm a.lg_k b.lg_k]

/-- Witness for C30: reference sketches of `lg_k` 12 and 8 as target and
source. -/
theorem combine_variants_agree_witness :
    DSHLLCreateOperation.Combine Ref.hll ⟨some ⟨8, .HLL_4, [1, 2]⟩⟩ ⟨some ⟨12, .HLL_4, [2, 3]⟩⟩
        = DSHLLMergeOperation.Combine Ref.hll ⟨some ⟨8, .HLL_4, [1, 2]⟩⟩
            ⟨some ⟨12, .HLL_4, [2, 3]⟩⟩
    ∧ DSCPCCreateOperation.Combine Ref.cpc ⟨some ⟨8, [1, 2]⟩⟩ ⟨some ⟨12, [2, 3]⟩⟩
        = DSCPCMergeOperation.Combine Ref.cpc ⟨some ⟨8, [1, 2]⟩⟩ ⟨some ⟨12, [2, 3]⟩⟩ :=
  combine_variants_agree Ref.hll Ref.cpc Ref.union_update_right_comm.1
    Ref.union_update_right_comm.2 _ _ _ _

end CombineVariants

section MalformedInput

variable {SkQ TQ SkH UH TH FH SkC UC TC FC : Type}

/-- C26 (counterexample): with the reference classes, on a state without a
sketch and the blob `[]`, which does not deserialize, each merge `Operation`
raises and leaves the state holding the sketch it had just constructed from
the config; `Finalize` on that state returns the serialization of that empty
sketch, not NULL. -/
theorem merge_operation_not_atomic :
    (DSQuantilesMergeOperation.Operation QKind.Quantiles Ref.core true ⟨none⟩ 128 []
        = .raised .library ⟨some ⟨128, []⟩⟩
      ∧ (DSQuantilesMergeOperation.Finalize Ref.core ⟨some ⟨128, []⟩⟩).target = some [128]
      ∧ DSQuantilesis_empty Ref.quantiles [128] = some true)
    ∧ (DSHLLMergeOperation.Operation Ref.hll true ⟨none⟩ 12 []
        = .raised .library ⟨some ⟨12, .HLL_4, []⟩⟩
      ∧ (DSHLLMergeOperation.Finalize Ref.hll ⟨some ⟨12, .HLL_4, []⟩⟩).target
        = some [1, 12, 0]
      ∧ DSHLLis_empty Ref.hll [1, 12, 0] = some true)
    ∧ (DSCPCMergeOperation.Operation Ref.cpc true ⟨none⟩ 12 []
        = .raised .library ⟨some ⟨12, []⟩⟩
      ∧ (DSCPCMergeOperation.Finalize Ref.cpc ⟨some ⟨12, []⟩⟩).target = some [12]
      ∧ DSCPCis_empty Ref.cpc [12] = some true) := by
  decide

/-- C26 (amended): when the blob of the row does not deserialize, a merge
`Operation` raises.  A state that held a sketch is left as it was.  On a state
that held no sketch `CreateSketch` has run before the blob is read: the state
is left without a sketch when `CreateSketch` raised, and is otherwise left
holding the sketch that `CreateSketch` made. -/
theorem merge_operation_on_malformed_input (kind : QKind) (Q : SketchCore SkQ TQ)
    (H : HLLLib SkH UH TH FH) (C : CPCLib SkC UC TC FC) (dbg : Bool) (k : Int) (b : Blob)
    (sQ : SkQ) (sH : SkH) (sC : SkC)
    (hQ : Q.deserialize b = none) (hH : H.deserialize b = none) (hC : C.deserialize b = none) :
    (DSQuantilesMergeOperation.Operation kind Q dbg ⟨some sQ⟩ k b = .raised .library ⟨some sQ⟩
      ∧ DSHLLMergeOperation.Operation H dbg ⟨some sH⟩ k b = .raised .library ⟨some sH⟩
      ∧ DSCPCMergeOperation.Operation C dbg ⟨some sC⟩ k b = .raised .library ⟨some sC⟩)
    ∧ ((∃ e, QKind.CreateSketch kind Q dbg ⟨none⟩ k = .raised e ⟨none⟩
          ∧ DSQuantilesMergeOperation.Operation kind Q dbg ⟨none⟩ k b = .raised e ⟨none⟩)
        ∨ (∃ sk, QKind.CreateSketch kind Q dbg ⟨none⟩ k = .done ⟨some sk⟩
          ∧ DSQuantilesMergeOperation.Operation kind Q dbg ⟨none⟩ k b
            = .raised .library ⟨some sk⟩))
    ∧ ((∃ e, DSHLLState.CreateSketch H dbg ⟨none⟩ k = .raised e ⟨none⟩
          ∧ DSHLLMergeOperation.Operation H dbg ⟨none⟩ k b = .raised e ⟨none⟩)
        ∨ (∃ sk, DSHLLState.CreateSketch H dbg ⟨none⟩ k = .done ⟨some sk⟩
          ∧ DSHLLMergeOperation.Operation H dbg ⟨none⟩ k b = .raised .library ⟨some sk⟩))
    ∧ ((∃ e, DSCPCState.CreateSketch C dbg ⟨none⟩ k = .raised e ⟨none⟩
          ∧ DSCPCMergeOperation.Operation C dbg ⟨none⟩ k b = .raised e ⟨none⟩)
        ∨ (∃ sk, DSCPCState.CreateSketch C dbg ⟨none⟩ k = .done ⟨some sk⟩
          ∧ DSCPCMergeOperation.Operation C dbg ⟨none⟩ k b = .raised .library ⟨some sk⟩)) := by
  refine ⟨⟨?_, ?_, ?_⟩, ?_, ?_, ?_⟩
  · simp [DSQuantilesMergeOperation.Operation, hQ]
  · simp [DSHLLMergeOperation.Operation, hH]
  · simp [DSCPCMergeOperation.Operation, hC]
  · rcases quantile_state_create_none kind Q dbg k with ⟨e, he⟩ | ⟨sk, hs⟩
    · exact Or.inl ⟨e, he, by simp [DSQuantilesMergeOperation.Operation, he]⟩
    · exact Or.inr ⟨sk, hs, by simp [DSQuantilesMergeOperation.Operation, hs, hQ]⟩
  · rcases hll_state_create_none H dbg k with ⟨e, he⟩ | ⟨sk, hs⟩
    · exact Or.inl ⟨e, he, by simp [DSHLLMergeOperation.Operation, he]⟩
    · exact Or.inr ⟨sk, hs, by simp [DSHLLMergeOperation.Operation, hs, hH]⟩
  · rcases cpc_state_create_none C dbg k with ⟨e, he⟩ | ⟨sk, hs⟩
    · exact Or.inl ⟨e, he, by simp [DSCPCMergeOperation.Operation, he]⟩
    · exact Or.inr ⟨sk, hs, by simp [DSCPCMergeOperation.Operation, hs, hC]⟩

/-- Witness for the amended C26: the reference classes, states holding
sketches, and the blob `[]`. -/
theorem merge_operation_on_malformed_input_witness :
    DSQuantilesMergeOperation.Operation QKind.Quantiles Ref.core true ⟨some ⟨128, [1]⟩⟩ 12 []
        = .raised .library ⟨some ⟨128, [1]⟩⟩
    ∧ DSHLLMergeOperation.Operation Ref.hll true ⟨some ⟨12, .HLL_4, [1]⟩⟩ 12 []
        = .raised .library ⟨some ⟨12, .HLL_4, [1]⟩⟩
    ∧ DSCPCMergeOperation.Operation Ref.cpc true ⟨some ⟨12, [1]⟩⟩ 12 []
        = .raised .library ⟨some ⟨12, [1]⟩⟩ :=
  (merge_operation_on_malformed_input QKind.Quantiles Ref.core Ref.hll Ref.cpc true 12 []
    ⟨128, [1]⟩ ⟨12, .HLL_4, [1]⟩ ⟨12, [1]⟩ rfl rfl rfl).1

end MalformedInput

section CreateSketchCalls

variable {SkQ TQ SkH UH TH FH SkC UC TC FC : Type}

/-- The guard shared by the entry points: a list of calls made only under
`isNone` of the receiver holds only calls on a state without a sketch. -/
theorem guarded_call_receiver {Sk : Type} (st : DSState Sk) (c0 c : CreateSketchCall Sk)
    (hc0 : c0.receiver = st) (h : c ∈ (if st.sketch.isNone then [c0] else [])) :
    c.receiver.sketch = none := by
  split_ifs at h with hn
  · rw [List.mem_singleton] at h
    rw [h, hc0]
    exact Option.isNone_iff_eq_none.1 hn
  · cases h

/-- C28: whatever the states and arguments of a call of an entry point of any
of the six operation structs, every call of `CreateSketch` it makes is made on
a state without a sketch, so the assertion `D_ASSERT(!sketch)` of
`CreateSketch(k)` holds at it; a call of `Operation` on a state that holds a
sketch, or of `Combine` on a target that holds one, makes no call of
`CreateSketch`.  Accordingly the `Operation` steps of HLL, CPC and TDigest,
whose `CreateSketch(k)` asserts nothing else, never fail an assertion on any
state. -/
theorem create_sketch_only_without_sketch (Q : SketchCore SkQ TQ) (H : HLLLib SkH UH TH FH)
    (C : CPCLib SkC UC TC FC) (dbg : Bool) (k : Int) :
    ((∀ (call : AggregateCall SkQ TQ), ∀ c ∈ DSQuantilesCreateOperation.CreateSketchCalls call,
          c.receiver.sketch = none ∧ D_ASSERT true c.receiver.sketch.isNone = true)
      ∧ (∀ (call : AggregateCall SkQ Blob),
          ∀ c ∈ DSQuantilesMergeOperation.CreateSketchCalls call,
            c.receiver.sketch = none ∧ D_ASSERT true c.receiver.sketch.isNone = true)
      ∧ (∀ (call : AggregateCall SkH (Value TH)),
          ∀ c ∈ DSHLLCreateOperation.CreateSketchCalls call,
            c.receiver.sketch = none ∧ D_ASSERT true c.receiver.sketch.isNone = true)
      ∧ (∀ (call : AggregateCall SkH Blob), ∀ c ∈ DSHLLMergeOperation.CreateSketchCalls call,
          c.receiver.sketch = none ∧ D_ASSERT true c.receiver.sketch.isNone = true)
      ∧ (∀ (call : AggregateCall SkC (Value TC)),
          ∀ c ∈ DSCPCCreateOperation.CreateSketchCalls call,
            c.receiver.sketch = none ∧ D_ASSERT true c.receiver.sketch.isNone = true)
      ∧ (∀ (call : AggregateCall SkC Blob), ∀ c ∈ DSCPCMergeOperation.CreateSketchCalls call,
          c.receiver.sketch = none ∧ D_ASSERT true c.receiver.sketch.isNone = true))
    ∧ (∀ (sQ : SkQ) (sH : SkH) (sC : SkC) (srcQ : DSState SkQ) (srcH : DSState SkH)
        (srcC : DSState SkC) (vQ : TQ) (vH : Value TH) (vC : Value TC) (b : Blob),
        DSQuantilesCreateOperation.CreateSketchCalls (.Operation ⟨some sQ⟩ k vQ) = []
        ∧ DSQuantilesCreateOperation.CreateSketchCalls
            (AggregateCall.Combine srcQ ⟨some sQ⟩ : AggregateCall SkQ TQ) = []
        ∧ DSQuantilesMergeOperation.CreateSketchCalls (.Operation ⟨some sQ⟩ k b) = []
        ∧ DSQuantilesMergeOperation.CreateSketchCalls
            (AggregateCall.Combine srcQ ⟨some sQ⟩ : AggregateCall SkQ Blob) = []
        ∧ DSHLLCreateOperation.CreateSketchCalls (.Operation ⟨some sH⟩ k vH) = []
        ∧ DSHLLCreateOperation.CreateSketchCalls
            (AggregateCall.Combine srcH ⟨some sH⟩ : AggregateCall SkH (Value TH)) = []
        ∧ DSHLLMergeOperation.CreateSketchCalls (.Operation ⟨some sH⟩ k b) = []
        ∧ DSHLLMergeOperation.CreateSketchCalls
            (AggregateCall.Combine srcH ⟨some sH⟩ : AggregateCall SkH Blob) = []
        ∧ DSCPCCreateOperation.CreateSketchCalls (.Operation ⟨some sC⟩ k vC) = []
        ∧ DSCPCCreateOperation.CreateSketchCalls
            (AggregateCall.Combine srcC ⟨some sC⟩ : AggregateCall SkC (Value TC)) = []
        ∧ DSCPCMergeOperation.CreateSketchCalls (.Operation ⟨some sC⟩ k b) = []
        ∧ DSCPCMergeOperation.CreateSketchCalls
            (AggregateCall.Combine srcC ⟨some sC⟩ : AggregateCall SkC Blob) = [])
    ∧ (∀ (stQ : DSState SkQ) (stH : DSState SkH) (stC : DSState SkC) (vQ : TQ)
        (vH : Value TH) (vC : Value TC) (b : Blob),
        (∀ s1, DSQuantilesCreateOperation.Operation QKind.TDigest Q dbg stQ k vQ
            ≠ .raised .assertion s1)
        ∧ (∀ s1, DSQuantilesMergeOperation.Operation QKind.TDigest Q dbg stQ k b
            ≠ .raised .assertion s1)
        ∧ (∀ s1, DSHLLCreateOperation.Operation H dbg stH k vH ≠ .raised .assertion s1)
        ∧ (∀ s1, DSHLLMergeOperation.Operation H dbg stH k b ≠ .raised .assertion s1)
        ∧ (∀ s1, DSCPCCreateOperation.Operation C dbg stC k vC ≠ .raised .assertion s1)
        ∧ (∀ s1, DSCPCMergeOperation.Operation C dbg stC k b ≠ .raised .assertion s1)) := by
  have hassert : ∀ {Sk : Type} (st : DSState Sk), st.sketch = none →
      st.sketch = none ∧ D_ASSERT true st.sketch.isNone = true := by
    intro Sk st h
    exact ⟨h, by simp [D_ASSERT, h]⟩
  refine ⟨⟨?_, ?_, ?_, ?_, ?_, ?_⟩, ?_, ?_⟩
  · intro call c hc
    cases call with
    | Initialize st => cases hc
    | Operation st a v => exact hassert _ (guarded_call_receiver st (.config st a) c rfl hc)
    | Combine src tgt => exact hassert _ (guarded_call_receiver tgt (.existing tgt src) c rfl hc)
    | Finalize st => cases hc
  · intro call c hc
    cases call with
    | Initialize st => cases hc
    | Operation st a v => exact hassert _ (guarded_call_receiver st (.config st a) c rfl hc)
    | Combine src tgt => exact hassert _ (guarded_call_receiver tgt (.existing tgt src) c rfl hc)
    | Finalize st => cases hc
  · intro call c hc
    cases call with
    | Initialize st => cases hc
    | Operation st a v => exact hassert _ (guarded_call_receiver st (.config st a) c rfl hc)
    | Combine src tgt => exact hassert _ (guarded_call_receiver tgt (.existing tgt src) c rfl hc)
    | Finalize st => cases hc
  · intro call c hc
    cases call with
    | Initialize st => cases hc
    | Operation st a v => exact hassert _ (guarded_call_receiver st (.config st a) c rfl hc)
    | Combine src tgt => exact hassert _ (guarded_call_receiver tgt (.existing tgt src) c rfl hc)
    | Finalize st => cases hc
  · intro call c hc
    cases call with
    | Initialize st => cases hc
    | Operation st a v => exact hassert _ (guarded_call_receiver st (.config st a) c rfl hc)
    | Combine src tgt => exact hassert _ (guarded_call_receiver tgt (.existing tgt src) c rfl hc)
    | Finalize st => cases hc
  · intro call c hc
    cases call with
    | Initialize st => cases hc
    | Operation st a v => exact hassert _ (guarded_call_receiver st (.config st a) c rfl hc)
    | Combine src tgt => exact hassert _ (guarded_call_receiver tgt (.existing tgt src) c rfl hc)
    | Finalize st => cases hc
  · intro sQ sH sC srcQ srcH srcC vQ vH vC b
    exact ⟨rfl, rfl, rfl, rfl, rfl, rfl, rfl, rfl, rfl, rfl, rfl, rfl⟩
  · intro stQ stH stC vQ vH vC b
    obtain ⟨q⟩ := stQ
    obtain ⟨h⟩ := stH
    obtain ⟨c⟩ := stC
    refine ⟨?_, ?_, ?_, ?_, ?_, ?_⟩
    · intro s1
      cases q with
      | some sk => simp [DSQuantilesCreateOperation.Operation]
      | none =>
        simp only [DSQuantilesCreateOperation.Operation, QKind.CreateSketch,
          DSTDigestState.CreateSketch, D_ASSERT]
        cases Q.ctor (k % 65536) <;> simp
    · intro s1
      cases q with
      | some sk =>
        simp only [DSQuantilesMergeOperation.Operation]
        cases Q.deserialize b <;> simp
      | none =>
        simp only [DSQuantilesMergeOperation.Operation, QKind.CreateSketch,
          DSTDigestState.CreateSketch, D_ASSERT]
        cases Q.ctor (k % 65536) <;> cases Q.deserialize b <;> simp
    · intro s1
      cases h with
      | some sk => cases vH <;> simp [DSHLLCreateOperation.Operation]
      | none =>
        simp only [DSHLLCreateOperation.Operation, DSHLLState.CreateSketch, D_ASSERT]
        cases H.ctor (k % 65536).toNat <;> cases vH <;> simp
    · intro s1
      cases h with
      | some sk =>
        simp only [DSHLLMergeOperation.Operation]
        cases H.deserialize b <;> cases H.union_ctor k <;> simp
      | none =>
        simp only [DSHLLMergeOperation.Operation, DSHLLState.CreateSketch, D_ASSERT]
        cases H.ctor (k % 65536).toNat <;> cases H.deserialize b <;> cases H.union_ctor k <;>
          simp
    · intro s1
      cases c with
      | some sk => cases vC <;> simp [DSCPCCreateOperation.Operation]
      | none =>
        simp only [DSCPCCreateOperation.Operation, DSCPCState.CreateSketch, D_ASSERT]
        cases C.ctor (k % 256).toNat <;> cases vC <;> simp
    · intro s1
      cases c with
      | some sk =>
        simp only [DSCPCMergeOperation.Operation]
        cases C.deserialize b <;> cases C.union_ctor k <;> simp
      | none =>
        simp only [DSCPCMergeOperation.Operation, DSCPCState.CreateSketch, D_ASSERT]
        cases C.ctor (k % 256).toNat <;> cases C.deserialize b <;> cases C.union_ctor k <;>
          simp

/-- Witness for C28: the call of `CreateSketch(128)` made by
`DSQuantilesCreateOperation::Operation` on an initialized state of the
reference sketch. -/
theorem create_sketch_only_without_sketch_witness :
    CreateSketchCall.config (⟨none⟩ : DSState Ref.QSketch) 128
        ∈ DSQuantilesCreateOperation.CreateSketchCalls
            (AggregateCall.Operation ⟨none⟩ 128 (7 : Nat))
    ∧ (CreateSketchCall.config (⟨none⟩ : DSState Ref.QSketch) 128).receiver.sketch = none
    ∧ D_ASSERT true
        (CreateSketchCall.config (⟨none⟩ : DSState Ref.QSketch) 128).receiver.sketch.isNone
        = true :=
  ⟨by decide,
    (create_sketch_only_without_sketch Ref.core Ref.hll Ref.cpc true 128).1.1
      (AggregateCall.Operation ⟨none⟩ 128 (7 : Nat)) _ (by decide)⟩

end CreateSketchCalls

section Extrema

variable {Sk T F : Type}

/-- On a state holding `sk`, the run of `DSQuantilesCreateOperation::Operation`
over the values completes with the sketch updated with each value in turn. -/
theorem accumulate_on_sketch (kind : QKind) (L : SketchCore Sk T) (dbg : Bool) (k : Int)
    (vs : List T) (sk : Sk) :
    accumulate (DSQuantilesCreateOperation.Operation kind L dbg) k ⟨some sk⟩ vs
      = .done ⟨some (vs.foldl L.update sk)⟩ := by
  induction vs generalizing sk with
  | nil => rfl
  | cons v rest ih =>
    have h : DSQuantilesCreateOperation.Operation kind L dbg ⟨some sk⟩ k v
        = .done ⟨some (L.update sk v)⟩ := by
      simp [DSQuantilesCreateOperation.Operation]
    simp only [accumulate, h, List.foldl_cons]
    exact ih _

/-- What a sketch that keeps `n`, the minimum and the maximum exactly answers
after the values `vs` were folded into a new sketch `s0`. -/
theorem extrema_after_updates [LinearOrder T] (L : QuantilesLib Sk T F) (Inv : Sk → Prop)
    (s0 : Sk)
    (hnew : Inv s0 ∧ L.get_n s0 = 0 ∧ L.get_min_item s0 = none ∧ L.get_max_item s0 = none)
    (hupdate : ∀ s v, Inv s →
      Inv (L.update s v) ∧ L.get_n (L.update s v) = L.get_n s + 1
        ∧ L.get_min_item (L.update s v) = some ((L.get_min_item s).elim v (fun m => min m v))
        ∧ L.get_max_item (L.update s v) = some ((L.get_max_item s).elim v (fun m => max m v)))
    (vs : List T) (hvs : vs ≠ []) :
    L.get_n (vs.foldl L.update s0) = vs.length
    ∧ (∃ lo, L.get_min_item (vs.foldl L.update s0) = some lo ∧ lo ∈ vs ∧ ∀ v ∈ vs, lo ≤ v)
    ∧ (∃ hi, L.get_max_item (vs.foldl L.update s0) = some hi ∧ hi ∈ vs ∧ ∀ v ∈ vs, v ≤ hi) := by
  have key : ∀ (rest seen : List T) (s : Sk),
      (Inv s ∧ L.get_n s = seen.length
        ∧ (seen = [] → L.get_min_item s = none ∧ L.get_max_item s = none)
        ∧ (seen ≠ [] →
            (∃ lo, L.get_min_item s = some lo ∧ lo ∈ seen ∧ ∀ v ∈ seen, lo ≤ v)
            ∧ (∃ hi, L.get_max_item s = some hi ∧ hi ∈ seen ∧ ∀ v ∈ seen, v ≤ hi))) →
      (L.get_n (rest.foldl L.update s) = (seen ++ rest).length
        ∧ (seen ++ rest ≠ [] →
            (∃ lo, L.get_min_item (rest.foldl L.update s) = some lo ∧ lo ∈ seen ++ rest
              ∧ ∀ v ∈ seen ++ rest, lo ≤ v)
            ∧ (∃ hi, L.get_max_item (rest.foldl L.update s) = some hi ∧ hi ∈ seen ++ rest
              ∧ ∀ v ∈ seen ++ rest, v ≤ hi))) := by
    intro rest
    induction rest with
    | nil =>
      intro seen s h
      simp only [List.foldl_nil, List.append_nil]
      exact ⟨h.2.1, h.2.2.2⟩
    | cons v rest ih =>
      intro seen s ⟨hinv, hn, hnil, hcons⟩
      obtain ⟨hinv1, hn1, hmin1, hmax1⟩ := hupdate s v hinv
      have hstep := ih (seen ++ [v]) (L.update s v) ⟨hinv1, ?_, ?_, ?_⟩
      · simpa [List.append_assoc] using hstep
      · rw [hn1, hn, List.length_append, List.length_singleton]
      · intro h
        simp at h
      · intro _
        by_cases hs : seen = []
        · obtain ⟨h1, h2⟩ := hnil hs
          subst hs
          rw [hmin1, hmax1, h1, h2]
          simp
        · obtain ⟨⟨lo, hlo, hmem, hle⟩, ⟨hi, hhi, hmemh, hleh⟩⟩ := hcons hs
          rw [hmin1, hmax1, hlo, hhi]
          simp only [Option.elim_some]
          refine ⟨⟨min lo v, rfl, ?_, ?_⟩, ⟨max hi v, rfl, ?_, ?_⟩⟩
          · rcases min_choice lo v with h | h
            · rw [h]; exact List.mem_append_left _ hmem
            · rw [h]; simp
          · intro x hx
            rcases List.mem_append.1 hx with hx | hx
            · exact (min_le_left _ _).trans (hle x hx)
            · rw [List.mem_singleton] at hx
              rw [hx]; exact min_le_right _ _
          · rcases max_choice hi v with h | h
            · rw [h]; exact List.mem_append_left _ hmemh
            · rw [h]; simp
          · intro x hx
            rcases List.mem_append.1 hx with hx | hx
            · exact (hleh x hx).trans (le_max_left _ _)
            · rw [List.mem_singleton] at hx
              rw [hx]; exact le_max_right _ _
  have h := key vs [] s0 ⟨hnew.1, hnew.2.1, fun _ => hnew.2.2, fun h => absurd rfl h⟩
  simp only [List.nil_append] at h
  exact ⟨h.1, (h.2 hvs).1, (h.2 hvs).2⟩

/-- C24: for a Quantiles state struct whose library constructor accepts
`k = 128` and whose sketch keeps `n`, the minimum and the maximum exactly (a
new sketch has `n = 0` and no minimum or maximum, `update` adds one to `n` and
folds the value into the minimum and the maximum), and with `deserialize`
inverting `serialize`: accumulating a non-empty list of values one by one with
the config `128` into an initialized state completes, `Finalize` returns a
blob, and on that blob `DSQuantilesn` answers the length of the list,
`DSQuantilesmin_item` its least and `DSQuantilesmax_item` its greatest
value. -/
theorem exact_count_and_extrema [LinearOrder T] (L : QuantilesLib Sk T F) (dbg : Bool)
    (Inv : Sk → Prop) (s0 : Sk) (hctor : L.ctor 128 = some s0)
    (hnew : Inv s0 ∧ L.get_n s0 = 0 ∧ L.get_min_item s0 = none ∧ L.get_max_item s0 = none)
    (hupdate : ∀ s v, Inv s →
      Inv (L.update s v) ∧ L.get_n (L.update s v) = L.get_n s + 1
        ∧ L.get_min_item (L.update s v) = some ((L.get_min_item s).elim v (fun m => min m v))
        ∧ L.get_max_item (L.update s v) = some ((L.get_max_item s).elim v (fun m => max m v)))
    (hcodec : ∀ s, L.deserialize (L.serialize s) = some s)
    (st0 : DSState Sk) (vs : List T) (hvs : vs ≠ []) :
    ∃ st blob lo hi,
      accumulate (DSQuantilesCreateOperation.Operation QKind.Quantiles L.toSketchCore dbg) 128
          (DSQuantilesCreateOperation.Initialize st0) vs = .done st
      ∧ (DSQuantilesCreateOperation.Finalize L.toSketchCore st).target = some blob
      ∧ DSQuantilesn L blob = some vs.length
      ∧ (DSQuantilesmin_item L blob = some lo ∧ lo ∈ vs ∧ ∀ v ∈ vs, lo ≤ v)
      ∧ (DSQuantilesmax_item L blob = some hi ∧ hi ∈ vs ∧ ∀ v ∈ vs, v ≤ hi) := by
  obtain ⟨hn, ⟨lo, hlo, hlomem, hlole⟩, ⟨hi, hhi, hhimem, hhile⟩⟩ :=
    extrema_after_updates L Inv s0 hnew hupdate vs hvs
  refine ⟨⟨some (vs.foldl L.update s0)⟩, L.serialize (vs.foldl L.update s0), lo, hi, ?_, rfl,
    ?_, ⟨?_, hlomem, hlole⟩, ⟨?_, hhimem, hhile⟩⟩
  · cases vs with
    | nil => exact absurd rfl hvs
    | cons v rest =>
      have h1 : DSQuantilesCreateOperation.Operation QKind.Quantiles L.toSketchCore dbg
          ⟨none⟩ 128 v = .done ⟨some (L.update s0 v)⟩ := by
        simp [DSQuantilesCreateOperation.Operation, QKind.CreateSketch,
          DSQuantilesState.CreateSketch, D_ASSERT, hctor]
      simp only [accumulate, DSQuantilesCreateOperation.Initialize, h1, List.foldl_cons]
      exact accumulate_on_sketch _ _ _ _ _ _
  · simp [DSQuantilesn, queryRow, hcodec, hn]
  · simp [DSQuantilesmin_item, queryRow, hcodec, hlo]
  · simp [DSQuantilesmax_item, queryRow, hcodec, hhi]

end Extrema
section ExtremaWitness

/-- The first item after an ordered insertion is the smaller of the inserted
value and the old first item. -/
theorem Ref.head_orderedInsert (l : List Nat) (v : Nat) :
    (l.orderedInsert (· ≤ ·) v).head? = some (l.head?.elim v (fun m => min m v)) := by
  cases l with
  | nil => rfl
  | cons b rest =>
    by_cases h : v ≤ b
    · simp [List.orderedInsert, h]
    · simp [List.orderedInsert, h]
      omega

/-- The last item after an ordered insertion into a sorted list is the larger
of the inserted value and the old last item. -/
theorem Ref.getLast_orderedInsert (l : List Nat) (v : Nat) (hl : l.Sorted (· ≤ ·)) :
    (l.orderedInsert (· ≤ ·) v).getLast? = some (l.getLast?.elim v (fun m => max m v)) := by
  induction l with
  | nil => rfl
  | cons b rest ih =>
    have hrest : rest.Sorted (· ≤ ·) := hl.of_cons
    have hb : ∀ x ∈ rest, b ≤ x := fun x hx => List.rel_of_sorted_cons hl x hx
    by_cases h : v ≤ b
    · simp only [List.orderedInsert, h, if_true]
      rw [List.getLast?_cons_cons]
      cases hg : (b :: rest).getLast? with
      | none => simp at hg
      | some m =>
        have hm : m ∈ b :: rest := List.mem_of_getLast?_eq_some hg
        have : b ≤ m := by
          rcases List.mem_cons.1 hm with hm | hm
          · rw [hm]
          · exact hb m hm
        simp only [Option.elim_some]
        congr 1
        omega
    · simp only [List.orderedInsert, h, if_false]
      cases rest with
      | nil =>
        simp [List.orderedInsert]
        omega
      | cons c rest2 =>
        have hne : (List.orderedInsert (· ≤ ·) v (c :: rest2)) ≠ [] := by
          simp only [List.orderedInsert]
          split_ifs <;> simp
        obtain ⟨x, xs, hx⟩ := List.exists_cons_of_ne_nil hne
        rw [hx, List.getLast?_cons_cons, ← hx, ih hrest, List.getLast?_cons_cons]

/-- The reference quantile sketch keeps `n`, the minimum and the maximum
exactly as long as its items are sorted, and `update` keeps them sorted. -/
theorem Ref.quantiles_exact :
    ((fun s : Ref.QSketch => s.items.Sorted (· ≤ ·)) ⟨128, []⟩
      ∧ Ref.quantiles.get_n ⟨128, []⟩ = 0 ∧ Ref.quantiles.get_min_item ⟨128, []⟩ = none
      ∧ Ref.quantiles.get_max_item ⟨128, []⟩ = none)
    ∧ (∀ (s : Ref.QSketch) (v : Nat), (fun s : Ref.QSketch => s.items.Sorted (· ≤ ·)) s →
        (fun s : Ref.QSketch => s.items.Sorted (· ≤ ·)) (Ref.quantiles.update s v)
        ∧ Ref.quantiles.get_n (Ref.quantiles.update s v) = Ref.quantiles.get_n s + 1
        ∧ Ref.quantiles.get_min_item (Ref.quantiles.update s v)
            = some ((Ref.quantiles.get_min_item s).elim v (fun m => min m v))
        ∧ Ref.quantiles.get_max_item (Ref.quantiles.update s v)
            = some ((Ref.quantiles.get_max_item s).elim v (fun m => max m v))) := by
  refine ⟨⟨List.sorted_nil, rfl, rfl, rfl⟩, fun s v hs => ⟨?_, ?_, ?_, ?_⟩⟩
  · exact List.Sorted.orderedInsert v s.items hs
  · simp [Ref.quantiles, Ref.core, List.orderedInsert_length]
  · exact Ref.head_orderedInsert s.items v
  · exact Ref.getLast_orderedInsert s.items v hs

/-- Witness for C24: the values `3, 1, 2` accumulated into the reference
Quantiles sketch. -/
theorem exact_count_and_extrema_witness :
    ∃ st blob lo hi,
      accumulate (DSQuantilesCreateOperation.Operation QKind.Quantiles Ref.core true) 128
          (DSQuantilesCreateOperation.Initialize ⟨none⟩) [3, 1, 2] = .done st
      ∧ (DSQuantilesCreateOperation.Finalize Ref.core st).target = some blob
      ∧ DSQuantilesn Ref.quantiles blob = some [3, 1, 2].length
      ∧ (DSQuantilesmin_item Ref.quantiles blob = some lo ∧ lo ∈ [3, 1, 2]
          ∧ ∀ v ∈ [3, 1, 2], lo ≤ v)
      ∧ (DSQuantilesmax_item Ref.quantiles blob = some hi ∧ hi ∈ [3, 1, 2]
          ∧ ∀ v ∈ [3, 1, 2], v ≤ hi) :=
  exact_count_and_extrema Ref.quantiles true (fun s => s.items.Sorted (· ≤ ·)) ⟨128, []⟩
    (by decide) Ref.quantiles_exact.1 Ref.quantiles_exact.2 (fun _ => rfl) ⟨none⟩ [3, 1, 2]
    (by decide)

end ExtremaWitness

section StoredFractions

variable {Sk T : Type}

/-- A fraction in `[0, 1]` converts to the integer `1` when it is `1` and to
`0` otherwise. -/
theorem double_to_integer_fraction (x : ℚ) (h0 : 0 ≤ x) (h1 : x ≤ 1) :
    double_to_integer x = if x = 1 then 1 else 0 := by
  unfold double_to_integer
  rw [if_pos h0]
  by_cases h : x = 1
  · rw [if_pos h, h]
    exact Int.floor_one
  · rw [if_neg h]
    exact Int.floor_eq_zero_iff.2 ⟨h0, lt_of_le_of_ne h1 h⟩

/-- C29: let `T` be an integer type, its values read as integers by `toInt`,
and let the conversion from `double` to `T` discard the fractional part (for an
unsigned type the conversion is defined on non-negative values only).  When
`get_CDF` returns the values `values`, non-decreasing, within `[0, 1]` and
ending in `1`, the cdf functions of Quantiles, KLL and REQ append the converted
values to the result list, and the stored values are non-decreasing, end in
`1`, and are `1` where the fraction is `1` and `0` everywhere else. -/
theorem cdf_stored_as_zero_or_one (L : QuantilesLib Sk T ℚ) (conv : ℚ → T) (toInt : T → Int)
    (hconv : ∀ x, 0 ≤ x → toInt (conv x) = double_to_integer x)
    (children result : List T) (sketch_data : Blob) (split_points_data : list_entry_t)
    (inclusive_data : Bool) (sk : Sk) (pts : List T) (values : List ℚ)
    (hd : L.deserialize sketch_data = some sk)
    (hp : passing_points children split_points_data = some pts)
    (hv : L.get_CDF sk pts inclusive_data = some values)
    (hsorted : values.Sorted (· ≤ ·)) (hrange : ∀ x ∈ values, 0 ≤ x ∧ x ≤ 1)
    (hlast : values.getLast? = some 1) :
    (DSQuantilescdf L conv children result sketch_data split_points_data inclusive_data
        = some ⟨⟨result.length, values.length⟩, result ++ values.map conv⟩
      ∧ DSKLLcdf L conv children result sketch_data split_points_data inclusive_data
        = some ⟨⟨result.length, values.length⟩, result ++ values.map conv⟩
      ∧ DSREQcdf L conv children result sketch_data split_points_data inclusive_data
        = some ⟨⟨result.length, values.length⟩, result ++ values.map conv⟩)
    ∧ ((values.map conv).map toInt).Sorted (· ≤ ·)
    ∧ ((values.map conv).map toInt).getLast? = some 1
    ∧ (values.map conv).map toInt = values.map (fun x => if x = 1 then 1 else 0) := by
  have hmap : (values.map conv).map toInt = values.map (fun x => if x = 1 then 1 else 0) := by
    rw [List.map_map]
    refine List.map_congr_left (fun x hx => ?_)
    rw [Function.comp_apply, hconv x (hrange x hx).1]
    exact double_to_integer_fraction x (hrange x hx).1 (hrange x hx).2
  refine ⟨?_, ?_, ?_, hmap⟩
  · simp [DSQuantilescdf, DSKLLcdf, DSREQcdf, queryRow, hd, hp, hv, appendListRow]
  · rw [hmap]
    unfold List.Sorted
    rw [List.pairwise_map]
    refine List.Pairwise.imp_of_mem ?_ hsorted
    intro a b ha hb hab
    by_cases h : a = 1
    · have hb1 : b = 1 := le_antisymm (hrange b hb).2 (h ▸ hab)
      simp [h, hb1]
    · rw [if_neg h]
      split_ifs <;> decide
  · rw [hmap, List.getLast?_map, hlast]
    simp

/-- The conversion to an unsigned integer type agrees with the truncation on
non-negative values. -/
theorem Ref.truncate_eq (x : ℚ) (h : 0 ≤ x) :
    ((Ref.truncate x : Nat) : Int) = double_to_integer x := by
  unfold Ref.truncate double_to_integer
  rw [if_pos h]
  exact Int.toNat_of_nonneg (Int.floor_nonneg.2 h)

/-- Witness for C29: the reference sketch of `1 .. 1000` with the split point
`500`, whose CDF `[1/2, 1]` is stored as `[0, 1]`. -/
theorem cdf_stored_as_zero_or_one_witness :
    (([1 / 2, 1] : List ℚ).map Ref.truncate).map (fun n : Nat => (n : Int))
      = ([1 / 2, 1] : List ℚ).map (fun x => if x = 1 then 1 else 0) :=
  (cdf_stored_as_zero_or_one Ref.quantiles Ref.truncate (fun n : Nat => (n : Int))
    Ref.truncate_eq [500] [] (128 :: List.range' 1 1000) ⟨0, 1⟩ true
    ⟨128, List.range' 1 1000⟩ [500] [1 / 2, 1] rfl (by decide) Ref.cdf_1000
    (by simp [List.Sorted]; norm_num)
    (by intro x hx; simp at hx; rcases hx with rfl | rfl <;> norm_num)
    (by simp)).2.2.2

end StoredFractions

end DataSketches
